import Mathlib

/-!
Oat stage executables: control loops, TYPE dispatch and exit codes.

A shallow embedding of the `main.cpp` files of `frameserve`, `posifilt`,
`posisock` and `framefilt`, and of `BackgroundSubtractor::filterAndServe`.

The component classes (`WebCam`, `KalmanFilter2D`, `PositionPublisher`, ...),
`boost::program_options` and the signal that sets `quit` are outside the
embedded files.  They enter as inputs:

* the command line is given as the `variables_map` that `po::store` /
  `po::notify` produced (or as the fact that they threw);
* every call into a component is answered by a `World`: it either
  returns or throws one of the exception classes `main` distinguishes;
* the value of the `volatile sig_atomic_t quit` (written by `sigHandler`)
  is read from the world at every evaluation of the loop condition.

`main` yields a `Report`: how the process ended, what was printed, which
constructor was invoked, which `configure` calls were made and how many
per-cycle calls were made.  Loops take a bound on the number of loop tests;
`none` means the loop was still running when the bound was reached.
-/

namespace Oat

/-- Exception classes, as far as the catch clauses tell them apart.
`parse_exception` is `cpptoml::parse_exception` (a `std::runtime_error`),
`interprocess_exception` carries `get_error_code()`, `std_exception` is any
other `std::exception` and `unknown` anything that is no `std::exception`. -/
inductive Exn where
  | parse_exception
  | runtime_error
  | cv_Exception
  | zmq_error_t
  | interprocess_exception (error_code : Int)
  | std_exception
  | unknown
  deriving DecidableEq, Repr

/-- How a call into a component ends. -/
inductive Call (α : Type) where
  | returned (value : α)
  | threw (e : Exn)
  deriving DecidableEq, Repr

/-- How the process ends: `main` returns a code, an exception leaves `main`
(`std::terminate`), the program runs into undefined behaviour (indexing an
empty vector, dereferencing an empty `shared_ptr`), or `exit(code)` is called. -/
inductive Exit where
  | returned (code : Int)
  | terminated
  | undefined
  | exited (code : Int)
  deriving DecidableEq, Repr

/-- Lines written to `std::cout` / `std::cerr`, without the trailing newline
and without the decorations of `oat::whoMessage`, `oat::sourceText` and
`oat::sinkText`; `usage` is the text of `printUsage`, `version` the version
lines, `what e` the text `e.what()` of a caught exception. -/
inductive Out where
  | usage
  | version
  | error (text : String)
  | warning (text : String)
  | message (text : String)
  | whoError (text : String)
  | what (e : Exn)
  deriving DecidableEq, Repr

/-- What `po::store` / `po::notify` did: they returned with the variables
`vm`, threw a `std::exception`, or threw something else while the bound
locals held the values of `vm`. -/
inductive ParseResult (V : Type) where
  | parsed (vm : V)
  | stdException
  | unknownException (vm : V)
  deriving DecidableEq, Repr

/-- Either `main` has returned, or control goes on. -/
inductive Step (ρ α : Type) where
  | exit (r : ρ)
  | next (a : α)
  deriving DecidableEq, Repr

/-- The observable record of one execution of `main`. -/
structure Report (C : Type) where
  exit : Exit
  out : List Out
  constructed : Option C
  configureCalls : List (Option (String × String))
  calls : Nat
  deriving DecidableEq, Repr

/-- The answers of the component library and of the operator. -/
structure World (C : Type) where
  /-- The constructor of the component, called with these arguments. -/
  construct : C → Call Unit
  /-- The call `configure()` (`none`) or `configure(file, key)`. -/
  configure : C → Option (String × String) → Call Unit
  /-- The call `connectToNode()`. -/
  connectToNode : Call Unit
  /-- The per-cycle call `serveFrame()` / `process()`, by invocation number from 0. -/
  cycle : Nat → Call Bool
  /-- The value of `quit` read by the loop condition, by evaluation number from 0. -/
  quit : Nat → Int

/-- What `run` did: the number of per-cycle calls, the final `source_eof`,
and whether it returned or threw. -/
structure RunReport where
  calls : Nat
  source_eof : Int
  result : Call Unit
  deriving DecidableEq, Repr

/-- The handler installed for SIGINT: `quit = 1`. -/
def sigHandler (_quit : Int) : Int := 1

/-- A lookup `type_hash[type]` in a `std::unordered_map<std::string, char>`:
a key that is absent yields the value-initialised `char`. -/
def hashLookup (type_hash : List (String × Char)) (type : String) : Char :=
  (type_hash.lookup type).getD (Char.ofNat 0)

/-- The loop `while (!quit && !source_eof) { source_eof = x->cycle(); }`
started at loop test `i`, with at most `fuel` loop tests. -/
def whileLoop (quit : Nat → Int) (cycle : Nat → Call Bool) :
    Nat → Nat → Int → Option RunReport
  | 0, _, _ => none
  | fuel + 1, i, source_eof =>
    if quit i = 0 ∧ source_eof = 0 then
      match cycle i with
      | .returned b => whileLoop quit cycle fuel (i + 1) (if b then 1 else 0)
      | .threw e => some ⟨i + 1, source_eof, .threw e⟩
    else some ⟨i, source_eof, .returned ()⟩

/-- The handler `catch (const interprocess_exception &ex) { if (ex.get_error_code() != 1) throw; }`
around the body of `run` in frameserve and posisock. -/
def catchInterrupt (r : RunReport) : RunReport :=
  match r.result with
  | .threw (.interprocess_exception error_code) =>
    if error_code ≠ 1 then r else { r with result := .returned () }
  | _ => r

/-- The body of `run` in frameserve and in posisock, which are the same text:
`try { x->connectToNode(); while (...) {...} } catch (...) {...}`. -/
def guardedRun (connectToNode : Call Unit) (quit : Nat → Int) (cycle : Nat → Call Bool)
    (fuel : Nat) (source_eof : Int) : Option RunReport :=
  match connectToNode with
  | .threw e => some (catchInterrupt ⟨0, source_eof, .threw e⟩)
  | .returned _ => (whileLoop quit cycle fuel 0 source_eof).map catchInterrupt

/-! ## frameserve (`src/frameserver/main.cpp`) -/

namespace frameserve

/-- The `variables_map` of frameserve: `fps` keeps the token as given. -/
structure Vars where
  help : Bool
  version : Bool
  index : Option Nat
  file : Option String
  fps : Option String
  config : Option (List String)
  type : Option String
  sink : Option String
  deriving DecidableEq, Repr

/-- The frame servers and their constructor arguments; `frames_per_second`
is `none` for the initial value `30`. -/
inductive Server where
  | WebCam (sink : String)
  | PGGigECam (sink : String) (index : Nat) (frames_per_second : Option String)
  | FileReader (sink file_path : String) (frames_per_second : Option String)
  | TestFrame (sink file_path : String)
  deriving DecidableEq, Repr

/-- The locals of `main` the option parser writes to. -/
structure Locals where
  sink : String
  type : String
  file_path : String
  frames_per_second : Option String
  index : Nat
  config_fk : List String
  config_used : Bool
  deriving DecidableEq, Repr

/-- The table `type_hash` of frameserve (lines 98-102). -/
def type_hash : List (String × Char) :=
  [("wcam", 'a'), ("gige", 'b'), ("file", 'c'), ("test", 'd')]

/-- The effect of `po::notify` on the bound locals. -/
def notify (vm : Vars) : Locals :=
  ⟨vm.sink.getD "", vm.type.getD "", vm.file.getD "", vm.fps, vm.index.getD 0, [], false⟩

/-- Function `run` (lines 66-83): `connectToNode()`, then the loop, inside
the handler for interprocess exceptions. -/
def run (w : World Server) (fuel : Nat) (source_eof : Int) : Option RunReport :=
  guardedRun w.connectToNode w.quit w.cycle fuel source_eof

/-- The first `try` block of `main` (lines 104-203). -/
def options (cmd : ParseResult Vars) : Step (List Out × Exit) (List Out × Locals) :=
  match cmd with
  | .stdException => .exit ([.what .std_exception], .returned 1)
  | .unknownException vm => .next ([.error "Exception of unknown type."], notify vm)
  | .parsed vm =>
    if vm.help then .exit ([.usage], .returned 0)
    else if vm.version then .exit ([.version], .returned 0)
    else if vm.type.isNone then
      .exit ([.usage, .error "A TYPE must be specified. Exiting."], .returned (-1))
    else if vm.sink.isNone then
      .exit ([.usage, .error "A SINK must be specified. Exiting."], .returned (-1))
    else
      let l : Step (List Out × Exit) Locals :=
        match vm.config with
        | some fk =>
          if fk.length = 2 then .next { notify vm with config_fk := fk, config_used := true }
          else .exit ([.usage, .error "Configuration must be supplied as file key pair."],
            .returned (-1))
        | none => .next (notify vm)
      match l with
      | .exit r => .exit r
      | .next l =>
        if (l.type = "file" ∨ l.type = "test") ∧ vm.file.isNone then
          .exit ([.usage,
            .error "When TYPE=file or test, a file path must be specified. Exiting."],
            .returned (-1))
        else .next ([], l)

/-- The `switch (type_hash[type])` of `main` (lines 205-244); `USE_FLYCAP`
is the build option of that name. -/
def dispatch (USE_FLYCAP : Bool) (l : Locals) : Step (List Out × Exit) Server :=
  let c := hashLookup type_hash l.type
  if c = 'a' then .next (.WebCam l.sink)
  else if c = 'b' then
    if USE_FLYCAP then .next (.PGGigECam l.sink l.index l.frames_per_second)
    else .exit ([.error ("Oat was not compiled with Point-Grey flycapture support, " ++
      "so TYPE=gige is not available.")], .returned (-1))
  else if c = 'c' then .next (.FileReader l.sink l.file_path l.frames_per_second)
  else if c = 'd' then .next (.TestFrame l.sink l.file_path)
  else .exit ([.usage, .error "Invalid TYPE specified. Exiting."], .returned (-1))

/-- The catch clauses of the second `try` block (lines 272-287); the first
one reads `config_fk[0]`. -/
def handlers (l : Locals) (e : Exn) : Exit × List Out :=
  match e with
  | .parse_exception =>
    match l.config_fk.get? 0 with
    | some f => (.returned (-1),
        [.whoError ("Failed to parse configuration file " ++ f), .what e])
    | none => (.undefined, [])
  | .runtime_error => (.returned (-1), [.what e])
  | .cv_Exception => (.returned (-1), [.what e])
  | .interprocess_exception _ => (.returned (-1), [.what e])
  | _ => (.returned (-1), [.whoError "Unknown exception."])

/-- The second `try` block of `main` (lines 246-287), after `configure`. -/
def serve (w : World Server) (fuel : Nat) (out : List Out) (l : Locals) (server : Server)
    (cfg : Option (String × String)) : Option (Report Server) :=
  match w.configure server cfg with
  | .threw e => some ⟨(handlers l e).1, out ++ (handlers l e).2, some server, [cfg], 0⟩
  | .returned _ =>
    let out := out ++ [.message ("Steaming to sink " ++ l.sink ++ "."),
      .message "Press CTRL+C to exit."]
    match run w fuel 0 with
    | none => none
    | some r =>
      match r.result with
      | .threw e =>
        some ⟨(handlers l e).1, out ++ (handlers l e).2, some server, [cfg], r.calls⟩
      | .returned _ =>
        some ⟨.returned 0, out ++ [.message "Exiting."], some server, [cfg], r.calls⟩

/-- Function `main` of frameserve. -/
def main (USE_FLYCAP : Bool) (cmd : ParseResult Vars) (w : World Server) (fuel : Nat) :
    Option (Report Server) :=
  match options cmd with
  | .exit (out, e) => some ⟨e, out, none, [], 0⟩
  | .next (out, l) =>
    match dispatch USE_FLYCAP l with
    | .exit (out', e) => some ⟨e, out ++ out', none, [], 0⟩
    | .next server =>
      match w.construct server with
      | .threw _ => some ⟨.terminated, out, some server, [], 0⟩
      | .returned _ =>
        if l.config_used then
          match l.config_fk.get? 0, l.config_fk.get? 1 with
          | some f, some k => serve w fuel out l server (some (f, k))
          | _, _ => some ⟨.undefined, out, some server, [], 0⟩
        else serve w fuel out l server none

end frameserve

/-! ## posifilt (`src/positionfilter/main.cpp`) -/

namespace posifilt

/-- The `variables_map` of posifilt. -/
structure Vars where
  help : Bool
  version : Bool
  config_file : Option String
  config_key : Option String
  type : Option String
  positionsource : Option String
  sink : Option String
  deriving DecidableEq, Repr

/-- The position filters and their constructor arguments. -/
inductive Filter where
  | KalmanFilter2D (source sink : String)
  | HomographyTransform2D (source sink : String)
  | RegionFilter2D (source sink : String)
  deriving DecidableEq, Repr

/-- The locals of `main` the option parser writes to. -/
structure Locals where
  type : String
  source : String
  sink : String
  config_file : String
  config_key : String
  config_used : Bool
  deriving DecidableEq, Repr

/-- The table `type_hash` of posifilt (lines 82-85). -/
def type_hash : List (String × Char) :=
  [("kalman", 'a'), ("homo", 'b'), ("region", 'c')]

/-- The effect of `po::notify` on the bound locals. -/
def notify (vm : Vars) : Locals :=
  ⟨vm.type.getD "", vm.positionsource.getD "", vm.sink.getD "",
    vm.config_file.getD "", vm.config_key.getD "", false⟩

/-- Function `run` (lines 61-67): the bare loop. -/
def run (w : World Filter) (fuel : Nat) (source_eof : Int) : Option RunReport :=
  whileLoop w.quit w.cycle fuel 0 source_eof

/-- The first `try` block of `main` (lines 87-188). -/
def options (cmd : ParseResult Vars) : Step (List Out × Exit) (List Out × Locals) :=
  match cmd with
  | .stdException => .exit ([.what .std_exception], .returned (-1))
  | .unknownException _ =>
    .exit ([.error "Exception of unknown type."], .returned (-1))
  | .parsed vm =>
    if vm.help then .exit ([.usage], .returned 0)
    else if vm.version then .exit ([.version], .returned 0)
    else if vm.type.isNone then
      .exit ([.usage, .error "A TYPE must be specified."], .returned (-1))
    else if vm.positionsource.isNone then
      .exit ([.usage, .error "A position SOURCE must be specified."], .returned (-1))
    else if vm.sink.isNone then
      .exit ([.usage, .error "A position SINK must be specified."], .returned (-1))
    else if vm.config_file.isNone ∧ (notify vm).type = "homo" then
      .exit ([.usage, .error ("When TYPE=homo, a configuration file must be " ++
        "specified to provide homography matrix.")], .returned (-1))
    else if (vm.config_file.isSome ∧ vm.config_key.isNone) ∨
        (vm.config_file.isNone ∧ vm.config_key.isSome) then
      .exit ([.usage, .error
        "A configuration file must be supplied with a corresponding config-key."], .returned (-1))
    else if vm.config_file.isSome then .next ([], { notify vm with config_used := true })
    else .next ([], notify vm)

/-- The `switch (type_hash[type])` of `main` (lines 196-219). -/
def dispatch (l : Locals) : Step (List Out × Exit) Filter :=
  let c := hashLookup type_hash l.type
  if c = 'a' then .next (.KalmanFilter2D l.source l.sink)
  else if c = 'b' then .next (.HomographyTransform2D l.source l.sink)
  else if c = 'c' then .next (.RegionFilter2D l.source l.sink)
  else .exit ([.usage, .error "Invalid TYPE specified."], .returned (-1))

/-- The catch clauses of the second `try` block (lines 241-256).  Each of
them calls `filter->get_name()`; `constructed` tells whether `filter` has
been assigned. -/
def handlers (l : Locals) (constructed : Bool) (e : Exn) : Exit × List Out :=
  if constructed then
    match e with
    | .parse_exception => (.returned (-1),
        [.whoError ("Failed to parse configuration file " ++ l.config_file), .what e])
    | .runtime_error => (.returned (-1), [.what e])
    | .cv_Exception => (.returned (-1), [.what e])
    | _ => (.returned (-1), [.whoError "Unknown exception."])
  else (.undefined, [])

/-- The second `try` block of `main` after the construction (lines 221-239),
with the `configure` calls made so far. -/
def filterLoop (w : World Filter) (fuel : Nat) (out : List Out) (l : Locals) (filter : Filter)
    (cfgs : List (Option (String × String))) : Option (Report Filter) :=
  let out := out ++ [.message ("Listening to source " ++ l.source ++ "."),
    .message ("Steaming to sink " ++ l.sink ++ "."), .message "Press CTRL+C to exit."]
  match run w fuel 0 with
  | none => none
  | some r =>
    match r.result with
    | .threw e =>
      some ⟨(handlers l true e).1, out ++ (handlers l true e).2, some filter, cfgs, r.calls⟩
    | .returned _ =>
      some ⟨.returned 0, out ++ [.message "Exiting."], some filter, cfgs, r.calls⟩

/-- Function `main` of posifilt. -/
def main (cmd : ParseResult Vars) (w : World Filter) (fuel : Nat) : Option (Report Filter) :=
  match options cmd with
  | .exit (out, e) => some ⟨e, out, none, [], 0⟩
  | .next (out, l) =>
    match dispatch l with
    | .exit (out', e) => some ⟨e, out ++ out', none, [], 0⟩
    | .next filter =>
      match w.construct filter with
      | .threw e =>
        some ⟨(handlers l false e).1, out ++ (handlers l false e).2, some filter, [], 0⟩
      | .returned _ =>
        if l.config_used then
          match w.configure filter (some (l.config_file, l.config_key)) with
          | .threw e => some ⟨(handlers l true e).1, out ++ (handlers l true e).2, some filter,
              [some (l.config_file, l.config_key)], 0⟩
          | .returned _ => filterLoop w fuel out l filter [some (l.config_file, l.config_key)]
        else filterLoop w fuel out l filter []

end posifilt

/-! ## posisock (`src/positionsocket/main.cpp`) -/

namespace posisock

/-- The `variables_map` of posisock. -/
structure Vars where
  help : Bool
  version : Bool
  type : Option String
  positionsource : Option String
  endpoint : Option (List String)
  deriving DecidableEq, Repr

/-- The position sockets and their constructor arguments. -/
inductive Socket where
  | PositionPublisher (source endpoint : String)
  | PositionReplier (source endpoint : String)
  | UDPPositionClient (source host port : String)
  deriving DecidableEq, Repr

/-- The locals of `main` the option parser writes to. -/
structure Locals where
  type : String
  source : String
  endpoint : List String
  deriving DecidableEq, Repr

/-- The table `type_hash` of posisock (lines 100-103). -/
def type_hash : List (String × Char) :=
  [("pub", 'a'), ("rep", 'b'), ("udp", 'c')]

/-- The effect of `po::notify` on the bound locals. -/
def notify (vm : Vars) : Locals :=
  ⟨vm.type.getD "", vm.positionsource.getD "", []⟩

/-- Function `run` (lines 71-87): `connectToNode()`, then the loop, inside
the handler for interprocess exceptions. -/
def run (w : World Socket) (fuel : Nat) (source_eof : Int) : Option RunReport :=
  guardedRun w.connectToNode w.quit w.cycle fuel source_eof

/-- The first `try` block of `main` (lines 105-210).  The branch for a
missing endpoint prints its error and does not return. -/
def options (cmd : ParseResult Vars) : Step (List Out × Exit) (List Out × Locals) :=
  match cmd with
  | .stdException => .exit ([.what .std_exception], .returned (-1))
  | .unknownException _ =>
    .exit ([.error "Exception of unknown type."], .returned (-1))
  | .parsed vm =>
    if vm.help then .exit ([.usage], .returned 0)
    else if vm.version then .exit ([.version], .returned 0)
    else if vm.type.isNone then
      .exit ([.usage, .error "A TYPE must be specified."], .returned (-1))
    else if vm.positionsource.isNone then
      .exit ([.usage, .error "A position SOURCE must be specified."], .returned (-1))
    else
      match vm.endpoint with
      | some endpoint =>
        if endpoint.length > 2 ∨ endpoint.length < 1 then
          .exit ([.usage, .error "Endpoint was incorrectly formatted."], .returned (-1))
        else if endpoint.length ≠ 2 ∧ (notify vm).type = "udp" then
          .exit ([.usage, .error "udp endpoint must be specified as <host> <port>."],
            .returned (-1))
        else .next ([], { notify vm with endpoint := endpoint })
      | none => .next ([.usage, .error "An endpoint must be specified."], notify vm)

/-- The `switch (type_hash[type])` of `main` (lines 217-244); `endpoint[0]`
and `endpoint[1]` are unchecked `std::vector` accesses. -/
def dispatch (l : Locals) : Step (List Out × Exit) Socket :=
  let c := hashLookup type_hash l.type
  if c = 'a' then
    match l.endpoint.get? 0 with
    | some e0 => .next (.PositionPublisher l.source e0)
    | none => .exit ([], .undefined)
  else if c = 'b' then
    match l.endpoint.get? 0 with
    | some e0 => .next (.PositionReplier l.source e0)
    | none => .exit ([], .undefined)
  else if c = 'c' then
    match l.endpoint.get? 0, l.endpoint.get? 1 with
    | some e0, some e1 => .next (.UDPPositionClient l.source e0 e1)
    | _, _ => .exit ([], .undefined)
  else .exit ([.usage, .error "Invalid TYPE specified."], .returned (-1))

/-- The catch clauses of the second `try` block (lines 265-278); none of
them touches `socket`. -/
def handlers (e : Exn) : Exit × List Out :=
  match e with
  | .parse_exception => (.returned (-1), [.what e])
  | .runtime_error => (.returned (-1), [.what e])
  | .zmq_error_t => (.returned (-1), [.what e])
  | .cv_Exception => (.returned (-1), [.what e])
  | .interprocess_exception _ => (.returned (-1), [.what e])
  | _ => (.returned (-1), [.error "Unknown exception."])

/-- Function `main` of posisock. -/
def main (cmd : ParseResult Vars) (w : World Socket) (fuel : Nat) : Option (Report Socket) :=
  match options cmd with
  | .exit (out, e) => some ⟨e, out, none, [], 0⟩
  | .next (out, l) =>
    match dispatch l with
    | .exit (out', e) => some ⟨e, out ++ out', none, [], 0⟩
    | .next socket =>
      match w.construct socket with
      | .threw e => some ⟨(handlers e).1, out ++ (handlers e).2, some socket, [], 0⟩
      | .returned _ =>
        let out := out ++ [.message ("Listening to source " ++ l.source ++ "."),
          .message "Press CTRL+C to exit."]
        match run w fuel 0 with
        | none => none
        | some r =>
          match r.result with
          | .threw e => some ⟨(handlers e).1, out ++ (handlers e).2, some socket, [], r.calls⟩
          | .returned _ =>
            some ⟨.returned 0, out ++ [.message "Exiting."], some socket, [], r.calls⟩

end posisock

/-! ## framefilt (`src/framefilt/BackgroundSubtractor.cpp`, `src/framefilt/main.cpp`) -/

/-- A `cv::Mat` of 8-bit unsigned elements: its size, its OpenCV type code
and its elements in row order. -/
structure Mat where
  rows : Nat
  cols : Nat
  type : Nat
  data : List Nat
  deriving DecidableEq, Repr

/-- The expression `a - b` on matrices: the element-wise saturating difference,
or a `cv::Exception` when the sizes or types differ. -/
def Mat.sub (a b : Mat) : Call Mat :=
  if a.rows = b.rows ∧ a.cols = b.cols ∧ a.type = b.type then
    .returned { a with data := List.zipWith (fun x y => x - y) a.data b.data }
  else .threw .cv_Exception

/-- The frame source seen from a filter: the `i`-th call of `getSharedMat`
either yields a frame together with its sample number, or no frame. -/
abbrev FrameSource := Nat → Option (Mat × Nat)

/-- The members of a `BackgroundSubtractor`, with the number of
`getSharedMat` calls made on `frame_source` and the frames `pushMat` has
published on `frame_sink` (oldest first). -/
structure BackgroundSubtractor where
  background_img : Mat
  background_set : Bool
  current_frame : Mat
  reads : Nat
  frame_sink : List (Mat × Nat)
  deriving DecidableEq, Repr

namespace BackgroundSubtractor

/-- Method `setBackgroundImage` (lines 75-79): `frame.clone()` is a copy by value. -/
def setBackgroundImage (s : BackgroundSubtractor) (frame : Mat) : BackgroundSubtractor :=
  { s with background_img := frame, background_set := true }

/-- Method `filterAndServe` (lines 85-107). -/
def filterAndServe (frame_source : FrameSource) (s : BackgroundSubtractor) :
    BackgroundSubtractor :=
  match frame_source s.reads with
  | some (frame, sample) =>
    let s := { s with current_frame := frame, reads := s.reads + 1 }
    let s :=
      if s.background_set then
        match s.current_frame.sub s.background_img with
        | .returned m => { s with current_frame := m }
        | .threw _ => s
      else setBackgroundImage s s.current_frame
    { s with frame_sink := s.frame_sink ++ [(s.current_frame, sample)] }
  | none => { s with reads := s.reads + 1 }

end BackgroundSubtractor

namespace framefilt

/-- Function `run` (lines 31-41): `while (!done) { filter->filterAndServe(); }`
from loop test `i`, with at most `fuel` loop tests; `done i` is the value
of the flag read by loop test `i`.  The result is the number of calls made
and the filter after them. -/
def run {σ : Type} (done : Nat → Int) (filterAndServe : σ → σ) :
    Nat → Nat → σ → Option (Nat × σ)
  | 0, _, _ => none
  | fuel + 1, i, filter =>
    if done i = 0 then run done filterAndServe fuel (i + 1) (filterAndServe filter)
    else some (i, filter)

/-- The `variables_map` of framefilt. -/
structure Vars where
  help : Bool
  version : Bool
  config_file : Option String
  config_key : Option String
  invert_mask : Bool
  type : Option String
  source : Option String
  sink : Option String
  deriving DecidableEq, Repr

/-- The frame filters and their constructor arguments. -/
inductive Filter where
  | BackgroundSubtractor (source sink : String)
  | FrameMasker (source sink : String) (invert_mask : Bool)
  deriving DecidableEq, Repr

/-- The locals of `main` the option parser writes to. -/
structure Locals where
  type : String
  source : String
  sink : String
  config_file : String
  config_key : String
  config_used : Bool
  invert_mask : Bool
  deriving DecidableEq, Repr

/-- The table `type_hash` of framefilt (lines 65-67). -/
def type_hash : List (String × Char) :=
  [("bsub", 'a'), ("mask", 'b')]

/-- The effect of `po::notify` on the bound locals. -/
def notify (vm : Vars) : Locals :=
  ⟨vm.type.getD "", vm.source.getD "", vm.sink.getD "",
    vm.config_file.getD "", vm.config_key.getD "", false, false⟩

/-- How `filter->configure(config_file, config_key)` ends. -/
inductive Configured where
  | returned
  | threw (e : Exn)
  | exited (code : Int)
  deriving DecidableEq, Repr

/-- The answers of the filter classes, the operator and the scheduler. -/
structure World where
  construct : Filter → Call Unit
  configure : Filter → String → String → Configured
  /-- The result of the `i`-th `std::cin >> user_input`; `none` when the extraction fails. -/
  cin : Nat → Option Char
  /-- The number of loop tests of the processing thread that read `done` as 0. -/
  lag : Nat

/-- The observable record of one execution of framefilt. -/
structure Report where
  exit : Exit
  out : List Out
  constructed : Option Filter
  configureCalls : List (String × String)
  threadStarted : Bool
  calls : Nat
  deriving DecidableEq, Repr

/-- The `try` block of `main` (lines 69-165). -/
def options (cmd : ParseResult Vars) : Step (List Out × Exit) (List Out × Locals) :=
  match cmd with
  | .stdException => .exit ([.what .std_exception], .returned 1)
  | .unknownException vm => .next ([.error "Exception of unknown type! "], notify vm)
  | .parsed vm =>
    if vm.help then .exit ([.usage], .returned 0)
    else if vm.version then .exit ([.version], .returned 0)
    else if vm.source.isNone then
      .exit ([.usage, .error "Error: a SOURCE must be specified. Exiting."], .returned (-1))
    else if vm.sink.isNone then
      .exit ([.usage, .error "Error: a SINK name must be specified. Exiting."], .returned (-1))
    else
      let (out, l) : List Out × Locals :=
        if vm.invert_mask then
          if hashLookup type_hash (notify vm).type ≠ 'b' then
            ([.warning ("Warning: invert-mask was requested, but this is the wrong filter " ++
              "TYPE for that option. invert-mask option was ignored.")], notify vm)
          else ([], { notify vm with invert_mask := true })
        else ([], notify vm)
      if (vm.config_file.isSome ∧ vm.config_key.isNone) ∨
          (vm.config_file.isNone ∧ vm.config_key.isSome) then
        .exit (out ++ [.usage, .error
          "Error: config file must be supplied with a corresponding config-key. Exiting."],
          .returned (-1))
      else if vm.config_file.isSome then .next (out, { l with config_used := true })
      else .next (out, l)

/-- The `switch (type_hash[type])` of `main` (lines 167-185). -/
def dispatch (l : Locals) : Step (List Out × Exit) Filter :=
  let c := hashLookup type_hash l.type
  if c = 'a' then .next (.BackgroundSubtractor l.source l.sink)
  else if c = 'b' then .next (.FrameMasker l.source l.sink l.invert_mask)
  else .exit ([.usage, .error "Error: invalid TYPE specified. Exiting."], .returned (-1))

/-- The user interface loop of `main` (lines 196-218), from read `i` with at
most `fuel` reads: the lines printed, and whether `x` was read (`false`: an
extraction failed and `user_input` was read uninitialised). -/
def userInterface (cin : Nat → Option Char) (l : Locals) :
    Nat → Nat → List Out → Option (List Out × Bool)
  | 0, _, _ => none
  | fuel + 1, i, out =>
    let out := out ++ [.message ("Framefilt has begun listening to source " ++ l.source ++ "."),
      .message ("Framefilt has begun steaming to sink " ++ l.sink ++ "."),
      .message "COMMANDS:", .message "  x: Exit."]
    match cin i with
    | none => some (out, false)
    | some user_input =>
      if user_input = 'x' then some (out, true)
      else userInterface cin l fuel (i + 1) (out ++ [.message "Invalid selection. Try again."])

/-- The part of `main` after `configure` (lines 190-227): the processing
thread runs `run` (whose two opening lines are put first), the user interface
loop runs until `x` sets `done`, and the thread is joined; `lag` loop tests of
the thread read `done` before it is set. -/
def threads (w : World) (fuel : Nat) (out : List Out) (l : Locals) (filter : Filter)
    (cfgs : List (String × String)) : Option Report :=
  let out := out ++
    [.message ("Frame filter has begun listening to source " ++ l.source ++ "."),
      .message ("Frame filter has begun steaming to sink " ++ l.sink ++ ".")]
  match userInterface w.cin l fuel 0 out with
  | none => none
  | some (out, false) => some ⟨.undefined, out, some filter, cfgs, true, w.lag⟩
  | some (out, true) =>
    match run (fun i => if i < w.lag then 0 else 1) (fun u : Unit => u) (w.lag + 1) 0 () with
    | none => none
    | some (calls, _) =>
      some ⟨.returned 0, out ++ [.message "Frame filter is exiting."], some filter, cfgs,
        true, calls⟩

/-- Function `main` of framefilt. -/
def main (cmd : ParseResult Vars) (w : World) (fuel : Nat) : Option Report :=
  match options cmd with
  | .exit (out, e) => some ⟨e, out, none, [], false, 0⟩
  | .next (out, l) =>
    match dispatch l with
    | .exit (out', e) => some ⟨e, out ++ out', none, [], false, 0⟩
    | .next filter =>
      match w.construct filter with
      | .threw _ => some ⟨.terminated, out, some filter, [], false, 0⟩
      | .returned _ =>
        if l.config_used then
          match w.configure filter l.config_file l.config_key with
          | .threw _ =>
            some ⟨.terminated, out, some filter, [(l.config_file, l.config_key)], false, 0⟩
          | .exited code =>
            some ⟨.exited code, out, some filter, [(l.config_file, l.config_key)], false, 0⟩
          | .returned => threads w fuel out l filter [(l.config_file, l.config_key)]
        else threads w fuel out l filter []

end framefilt

end Oat

/-! ## The constructor call of `main` -/

namespace Oat

/-- The constructor call frameserve makes on a command line, if it gets to one:
the option block passes and the switch selects this server. -/
def frameserve.select (USE_FLYCAP : Bool) (cmd : ParseResult frameserve.Vars) :
    Option frameserve.Server :=
  match frameserve.options cmd with
  | .exit _ => none
  | .next (_, l) =>
    match frameserve.dispatch USE_FLYCAP l with
    | .exit _ => none
    | .next server => some server

/-- The constructor call posifilt makes on a command line, if it gets to one. -/
def posifilt.select (cmd : ParseResult posifilt.Vars) : Option posifilt.Filter :=
  match posifilt.options cmd with
  | .exit _ => none
  | .next (_, l) =>
    match posifilt.dispatch l with
    | .exit _ => none
    | .next filter => some filter

/-- The constructor call posisock makes on a command line, if it gets to one. -/
def posisock.select (cmd : ParseResult posisock.Vars) : Option posisock.Socket :=
  match posisock.options cmd with
  | .exit _ => none
  | .next (_, l) =>
    match posisock.dispatch l with
    | .exit _ => none
    | .next socket => some socket

/-- The constructor call framefilt makes on a command line, if it gets to one. -/
def framefilt.select (cmd : ParseResult framefilt.Vars) : Option framefilt.Filter :=
  match framefilt.options cmd with
  | .exit _ => none
  | .next (_, l) =>
    match framefilt.dispatch l with
    | .exit _ => none
    | .next filter => some filter

end Oat

/-! ## Command lines that pass the checks of `main` -/

namespace Oat

/-- The frameserve command lines of the form `frameserve TYPE SINK [CONFIGURATION]`
that pass every check of `main`: no `--help` or `--version`, a SINK, `--config`
absent or with two tokens, and a TYPE of the table, with `--file` for `file` and
`test` and with flycapture support for `gige`. -/
def frameserve.valid (USE_FLYCAP : Bool) (vm : frameserve.Vars) : Bool :=
  !vm.help && !vm.version && vm.sink.isSome &&
  (match vm.config with
    | none => true
    | some fk => fk.length == 2) &&
  (match vm.type with
    | some t => t == "wcam" || (t == "gige" && USE_FLYCAP) ||
        ((t == "file" || t == "test") && vm.file.isSome)
    | none => false)

/-- The posifilt command lines of the form `posifilt TYPE SOURCE SINK [CONFIGURATION]`
that pass every check of `main`: no `--help` or `--version`, a SOURCE and a
SINK, `--config-file` and `--config-key` both given or both absent, and a
TYPE of the table, with a configuration for `homo`. -/
def posifilt.valid (vm : posifilt.Vars) : Bool :=
  !vm.help && !vm.version && vm.positionsource.isSome && vm.sink.isSome &&
  (vm.config_file.isSome == vm.config_key.isSome) &&
  (match vm.type with
    | some t => t == "kalman" || t == "region" || (t == "homo" && vm.config_file.isSome)
    | none => false)

/-- The posisock command lines of the form `posisock TYPE SOURCE ENDPOINT` that
pass every check of `main`: no `--help` or `--version`, a SOURCE, and a TYPE of
the table with its endpoint: one or two tokens for `pub` and `rep`, two for `udp`. -/
def posisock.valid (vm : posisock.Vars) : Bool :=
  !vm.help && !vm.version && vm.positionsource.isSome &&
  (match vm.type, vm.endpoint with
    | some t, some endpoint =>
      ((t == "pub" || t == "rep") && (endpoint.length == 1 || endpoint.length == 2)) ||
        (t == "udp" && endpoint.length == 2)
    | _, _ => false)

end Oat

/-! ## positiondetector (`src/positiondetector/DifferenceDetector.cpp`) -/

namespace Oat

/-- The OpenCV functions `applyThreshold` calls, as functions on matrices:
`cvtColor` with `COLOR_BGR2GRAY`, `absdiff`, `threshold` with maximum 255 and
`THRESH_BINARY`, and `blur` with a kernel size. -/
structure Imgproc where
  cvtColor : Mat → Mat
  absdiff : Mat → Mat → Mat
  threshold : Mat → Int → Mat
  blur : Mat → Nat × Nat → Mat

/-- The members of a `DifferenceDetector` that `applyThreshold` reads or writes. -/
structure DifferenceDetector where
  last_image_set_ : Bool
  last_image_ : Mat
  threshold_frame_ : Mat
  difference_intensity_threshold_ : Int
  blur_on_ : Bool
  blur_size_ : Nat × Nat
  deriving DecidableEq, Repr

namespace DifferenceDetector

/-- Method `applyThreshold` (lines 222-240): the detector after the call, and
the caller's `frame` after the call (it is passed by reference, and the branch
for a later call converts it in place). -/
def applyThreshold (cv : Imgproc) (d : DifferenceDetector) (frame : Mat) :
    DifferenceDetector × Mat :=
  if d.last_image_set_ then
    let frame := cv.cvtColor frame
    let threshold_frame_ := cv.absdiff frame d.last_image_
    let threshold_frame_ := cv.threshold threshold_frame_ d.difference_intensity_threshold_
    let threshold_frame_ :=
      if d.blur_on_ then cv.blur threshold_frame_ d.blur_size_ else threshold_frame_
    let threshold_frame_ := cv.threshold threshold_frame_ d.difference_intensity_threshold_
    ({ d with threshold_frame_ := threshold_frame_, last_image_ := frame }, frame)
  else
    ({ d with threshold_frame_ := cv.cvtColor frame, last_image_ := cv.cvtColor frame,
              last_image_set_ := true }, frame)

end DifferenceDetector

end Oat

/-! ## The shared-memory channel -/

namespace Oat

/-- Modelled from the spec: the shared-memory channel (Sink, Source and the
channel segment), whose code is not among the source files.  Following
sections 3, 4.2, 4.3 and 5 of the specification: `published` is the sequence
number of the latest published sample (0 before the first publish), `cursor k`
the last sequence number Source `k` has read, and `observed k` the sequence
numbers Source `k` has observed, oldest first. -/
structure Channel where
  published : Nat
  cursor : Nat → Nat
  observed : Nat → List Nat

/-- Modelled from the spec: the steps of a channel with its Sources attached.
`publish` is `Sink.publish` ("assigns it the next sequence_number");
`wait k s` is a `Source.wait` of Source `k` that returns the sample with
sequence number `s`. -/
inductive ChannelEvent where
  | publish
  | wait (k s : Nat)
  deriving DecidableEq, Repr

namespace Channel

/-- Modelled from the spec: a channel on which nothing has been published. -/
def create : Channel := ⟨0, fun _ => 0, fun _ => []⟩

/-- Modelled from the spec: one step of the channel, `none` when the step
cannot happen.  `wait` "blocks until a sample with a sequence_number newer
than this Source's last-read one is published", so it returns a published
sample newer than the cursor: the latest one, or an older one still held in
the ring. -/
def step (c : Channel) : ChannelEvent → Option Channel
  | .publish => some { c with published := c.published + 1 }
  | .wait k s =>
    if c.cursor k < s ∧ s ≤ c.published then
      some { c with
        cursor := fun j => if j = k then s else c.cursor j
        observed := fun j => if j = k then c.observed k ++ [s] else c.observed j }
    else none

/-- Modelled from the spec: an interleaving of publishes and waits, step by step. -/
def exec (c : Channel) : List ChannelEvent → Option Channel
  | [] => some c
  | e :: rest =>
    match c.step e with
    | some c' => exec c' rest
    | none => none

end Channel

end Oat

/-! ## positiondetector (`src/positiondetector/DetectorFunc.cpp`) -/

namespace Oat

/-- The fields of the `cv::Moments` of a contour that `siftContours` reads.
The numbers are `double`s in the source; here they are the elements of a
linear order `α` with a zero and a division (no NaN, no rounding). -/
structure Moments (α : Type) where
  m00 : α
  m10 : α
  m01 : α
  deriving DecidableEq, Repr

/-- The fields of a `Position2D` that `siftContours` writes. -/
structure Position2D (α : Type) where
  x : α
  y : α
  position_valid : Bool
  deriving DecidableEq, Repr

/-- The body of the loop of `siftContours` (lines 48-61) for one contour, on
the pair of `position` and `object_area`. -/
def siftStep {α : Type} [LinearOrder α] [Div α] (min_area max_area : α)
    (st : Position2D α × α) (moment : Moments α) : Position2D α × α :=
  let countour_area := moment.m00
  if countour_area > min_area ∧ countour_area < max_area ∧ countour_area > st.2 then
    (⟨moment.m10 / countour_area, moment.m01 / countour_area, true⟩, countour_area)
  else st

/-- Function `siftContours` (lines 32-64) on the moments of the contours
`findContours` has found, in their order: the caller's `position` and `area`
after the call. -/
def siftContours {α : Type} [LinearOrder α] [Zero α] [Div α] (contours : List (Moments α))
    (position : Position2D α) (min_area max_area : α) : Position2D α × α :=
  contours.foldl (siftStep min_area max_area) ({ position with position_valid := false }, 0)

/-- The contours the claim counts: those with `min_area < m00 < max_area`
and `0 < m00`. -/
def Moments.inRange {α : Type} [LinearOrder α] [Zero α] (min_area max_area : α)
    (m : Moments α) : Bool :=
  decide (min_area < m.m00 ∧ m.m00 < max_area ∧ 0 < m.m00)

/-- The area in the claim's words: the greatest `m00` among the contours the
claim counts, or 0 when there is none. -/
def largestAreaInRange {α : Type} [LinearOrder α] [Zero α] (contours : List (Moments α))
    (min_area max_area : α) : α :=
  ((contours.filter (Moments.inRange min_area max_area)).map Moments.m00).foldl max 0

end Oat

/-! ## `BackgroundSubtractor::configure` (`src/framefilt/BackgroundSubtractor.cpp`) -/

namespace Oat

/-- The functions of the cpptoml library that `configure` calls, on tables of
type `Table`.  The header `lib/cpptoml/cpptoml.h` is not among the source
files, so the functions are parameters; a null pointer result is `none`. -/
structure Cpptoml (Table : Type) where
  /-- A default-constructed `cpptoml::table`. -/
  empty : Table
  /-- Function `cpptoml::parse_file`; `none` when it throws `cpptoml::parse_exception`. -/
  parse_file : String → Option Table
  /-- Method `table::contains`. -/
  contains : Table → String → Bool
  /-- Method `table::get_table`. -/
  get_table : Table → String → Option Table
  /-- Method `table::get_as<std::string>`. -/
  get_as_string : Table → String → Option String

/-- The macro `EXIT_FAILURE` of `<cstdlib>`. -/
def EXIT_FAILURE : Int := 1

/-- How a call of `configure` ends: it returns with the members as given, an
exception leaves it, `exit` ends the process, or a null pointer is dereferenced. -/
inductive ConfigureEnd where
  | returned (s : BackgroundSubtractor)
  | threw (e : Exn)
  | exited (code : Int)
  | undefined
  deriving DecidableEq, Repr

/-- Method `configure` (lines 30-68): the lines printed and how the call ends.
`imread` is `cv::imread` with `CV_LOAD_IMAGE_GRAYSCALE`. -/
def BackgroundSubtractor.configure {Table : Type} (toml : Cpptoml Table)
    (imread : String → Call Mat) (s : BackgroundSubtractor)
    (config_file config_key : String) : List Out × ConfigureEnd :=
  let (config, out) : Table × List Out :=
    match toml.parse_file config_file with
    | some t => (t, [])
    | none => (toml.empty,
        [.whoError ("Failed to parse " ++ config_file), .what .parse_exception])
  if toml.contains config config_key then
    match toml.get_table config config_key with
    | none => (out, .undefined)
    | some this_config =>
      let mask_path : Option String :=
        if toml.contains this_config "background" then
          toml.get_as_string this_config "background"
        else some ""
      match mask_path with
      | none => (out, .undefined)
      | some mask_path =>
        match imread mask_path with
        | .returned m => (out, .returned { s with background_img := m, background_set := true })
        | .threw .cv_Exception =>
          (out ++ [.what .cv_Exception,
            .message "The provided background image will not be used.",
            .message "Instead, the first frame captured will be used."],
            .returned { s with background_set := false })
        | .threw .unknown => (out, .threw .unknown)
        | .threw e => (out ++ [.what e], .returned s)
  else
    (out ++ [.error ("No background subtraction configuration named \"" ++ config_key ++
      "\" was provided. Exiting.")], .exited EXIT_FAILURE)

end Oat

/-! ## Concrete inputs -/

namespace Oat

/-- A frame server that reaches the end of its file on the third call. -/
def threeFrames : World frameserve.Server :=
  ⟨fun _ => .returned (), fun _ _ => .returned (), .returned (),
    fun i => .returned (decide (2 ≤ i)), fun _ => 0⟩

/-- A position filter that never reaches end-of-stream, with `quit` set
(by `sigHandler`) before the loop is reached. -/
def quitAtOnce : World posifilt.Filter :=
  ⟨fun _ => .returned (), fun _ _ => .returned (), .returned (),
    fun _ => .returned false, fun _ => sigHandler 0⟩

/-- The command line `frameserve file raw --file v.avi`. -/
def fileToRaw : frameserve.Vars :=
  ⟨false, false, none, some "v.avi", none, none, some "file", some "raw"⟩

/-- The command line `posifilt kalman rpos fpos`. -/
def kalmanLine : posifilt.Vars :=
  ⟨false, false, none, none, some "kalman", some "rpos", some "fpos"⟩

/-- The command line `posisock pub rpos tcp://*:5555`. -/
def pubLine : posisock.Vars :=
  ⟨false, false, some "pub", some "rpos", some ["tcp://*:5555"]⟩

/-- A position socket whose third `process()` call is interrupted in `wait()`. -/
def interruptedSocket : World posisock.Socket :=
  ⟨fun _ => .returned (), fun _ _ => .returned (), .returned (),
    fun i => if i < 2 then .returned false else .threw (.interprocess_exception 1), fun _ => 0⟩

/-- A position filter whose first `process()` call is interrupted in `wait()`. -/
def interruptedFilter : World posifilt.Filter :=
  ⟨fun _ => .returned (), fun _ _ => .returned (), .returned (),
    fun _ => .threw (.interprocess_exception 1), fun _ => 0⟩

/-- A position filter whose source is at end-of-stream. -/
def endedFilter : World posifilt.Filter :=
  ⟨fun _ => .returned (), fun _ _ => .returned (), .returned (),
    fun _ => .returned true, fun _ => 0⟩

/-- A component whose constructor throws a `std::runtime_error`. -/
def failingConstructor (C : Type) : World C :=
  ⟨fun _ => .threw .runtime_error, fun _ _ => .returned (), .returned (),
    fun _ => .returned true, fun _ => 0⟩

/-- The command line `frameserve wcam raw`. -/
def wcamLine : frameserve.Vars :=
  ⟨false, false, none, none, none, none, some "wcam", some "raw"⟩

/-- A frame source that has reached end-of-stream: no call obtains a frame. -/
def endedSource : FrameSource := fun _ => none

/-- A `BackgroundSubtractor` right after construction. -/
def freshSubtractor : BackgroundSubtractor :=
  ⟨⟨0, 0, 0, []⟩, false, ⟨0, 0, 0, []⟩, 0, []⟩

/-- The command line `frameserve gige raw`. -/
def gigeLine : frameserve.Vars :=
  ⟨false, false, none, none, none, none, some "gige", some "raw"⟩

/-- The command line `frameserve nosuch raw --help`. -/
def helpLine : frameserve.Vars :=
  ⟨true, false, none, none, none, none, some "nosuch", some "raw"⟩

/-- The command line `framefilt bsub raw filt --config-file c.toml`. -/
def keylessLine : framefilt.Vars :=
  ⟨false, false, some "c.toml", none, false, some "bsub", some "raw", some "filt"⟩

/-- The command line `framefilt nosuch raw filt --help`. -/
def helpFilterLine : framefilt.Vars :=
  ⟨true, false, none, none, false, some "nosuch", some "raw", some "filt"⟩

/-- The command line `framefilt mask raw filt --invert-mask`. -/
def maskLine : framefilt.Vars :=
  ⟨false, false, none, none, true, some "mask", some "raw", some "filt"⟩

/-- Filter classes that construct and configure, and an operator who enters `x` at once. -/
def quietOperator : framefilt.World :=
  ⟨fun _ => .returned (), fun _ _ _ => .returned, fun _ => some 'x', 0⟩

/-- The command line `posisock pub rpos`, without an endpoint. -/
def noEndpointLine : posisock.Vars :=
  ⟨false, false, some "pub", some "rpos", none⟩

/-- A position socket whose source is at end-of-stream. -/
def endedSocket : World posisock.Socket :=
  ⟨fun _ => .returned (), fun _ _ => .returned (), .returned (),
    fun _ => .returned true, fun _ => 0⟩

/-- Stand-ins for the OpenCV functions, to evaluate `applyThreshold`: the
conversion to gray only changes the type code, the blur is the identity. -/
def sampleImgproc : Imgproc :=
  ⟨fun m => { m with type := 0 },
    fun a b => { a with data := List.zipWith (fun x y => (x - y) + (y - x)) a.data b.data },
    fun m t => { m with data := m.data.map (fun x => if t < (x : Int) then 255 else 0) },
    fun m _ => m⟩

/-- A `DifferenceDetector` before its first frame, with threshold 10. -/
def freshDetector : DifferenceDetector :=
  ⟨false, ⟨0, 0, 0, []⟩, ⟨0, 0, 0, []⟩, 10, true, (2, 2)⟩

/-- A schedule of three publishes with two Sources: Source 0 is slow and skips
sample 1, Source 1 reads every sample. -/
def sampleSchedule : List ChannelEvent :=
  [.publish, .wait 1 1, .publish, .wait 0 2, .wait 1 2, .publish, .wait 1 3, .wait 0 3]

/-- The command line `posisock udp rpos 10.0.0.1 5555`. -/
def udpLine : posisock.Vars :=
  ⟨false, false, some "udp", some "rpos", some ["10.0.0.1", "5555"]⟩

/-- The command line `frameserve file raw`, without `--file`. -/
def fileWithoutPath : frameserve.Vars :=
  ⟨false, false, none, none, none, none, some "file", some "raw"⟩

/-- The command line `frameserve wcam raw --config cfg.toml cam`. -/
def wcamConfigLine : frameserve.Vars :=
  ⟨false, false, none, none, none, some ["cfg.toml", "cam"], some "wcam", some "raw"⟩

/-- The command line `posifilt kalman rpos fpos --config-file c.toml --config-key kf`. -/
def kalmanConfigLine : posifilt.Vars :=
  ⟨false, false, some "c.toml", some "kf", some "kalman", some "rpos", some "fpos"⟩

/-- The command line `posifilt homo rpos fpos --config-file c.toml --config-key h`. -/
def homoLine : posifilt.Vars :=
  ⟨false, false, some "c.toml", some "h", some "homo", some "rpos", some "fpos"⟩

/-- The command line `posifilt homo rpos fpos`, without a configuration. -/
def homoWithoutConfig : posifilt.Vars :=
  ⟨false, false, none, none, some "homo", some "rpos", some "fpos"⟩

/-- Four contours, given by their moments: areas 40, 90, 90 and 500. -/
def fourContours : List (Moments Int) :=
  [⟨40, 400, 800⟩, ⟨90, 1800, 2700⟩, ⟨90, 4500, 5400⟩, ⟨500, 5000, 5000⟩]

/-- A position left by an earlier call. -/
def earlierPosition : Position2D Int := ⟨7, 7, true⟩

/-- A frame source whose first call obtains no frame and whose next three
calls obtain 2x2 frames with sample numbers 5, 6 and 7. -/
def threeFrameSource : FrameSource := fun i =>
  if i = 1 then some (⟨2, 2, 0, [10, 20, 30, 40]⟩, 5)
  else if i = 2 then some (⟨2, 2, 0, [15, 5, 30, 100]⟩, 6)
  else if i = 3 then some (⟨2, 2, 0, [0, 25, 31, 39]⟩, 7)
  else none

/-- A TOML value, for concrete inputs: a scalar given by its text, or a table. -/
inductive Toml where
  | value (text : String)
  | table (entries : List (String × Toml))

/-- The cpptoml functions on tables given as association lists, for concrete
inputs: `files` gives the table of each file that parses, `get_table` returns
the null pointer for a key that is absent or bound to a value that is not a
table, and `get_as<std::string>` for a key that is absent or bound to a table. -/
def listToml (files : String → Option (List (String × Toml))) :
    Cpptoml (List (String × Toml)) :=
  ⟨[], files, fun t k => (t.lookup k).isSome,
    fun t k =>
      match t.lookup k with
      | some (.table entries) => some entries
      | _ => none,
    fun t k =>
      match t.lookup k with
      | some (.value text) => some text
      | _ => none⟩

/-- A file system with three configuration files: `scalar.toml` is the one line
`bsub = 1`, `table.toml` holds the table `[bsub]` with `background = "bg.png"`,
and `other.toml` holds the empty table `[mask]`; no other file parses. -/
def tomlFiles : String → Option (List (String × Toml)) := fun f =>
  if f = "scalar.toml" then some [("bsub", .value "1")]
  else if f = "table.toml" then some [("bsub", .table [("background", .value "bg.png")])]
  else if f = "other.toml" then some [("mask", .table [])]
  else none

/-- An `imread` that reads every path as the same 1x2 image. -/
def oneImage : String → Call Mat := fun _ => .returned ⟨1, 2, 0, [3, 4]⟩

/-- The command line `posisock pub rpos a b c --help`. -/
def pubHelpLine : posisock.Vars :=
  ⟨true, false, some "pub", some "rpos", some ["a", "b", "c"]⟩

/-- The command line `frameserve file raw --help`. -/
def fileHelpLine : frameserve.Vars :=
  ⟨true, false, none, none, none, none, some "file", some "raw"⟩

/-- The command line `frameserve wcam raw --config a --version`. -/
def configVersionLine : frameserve.Vars :=
  ⟨false, true, none, none, none, some ["a"], some "wcam", some "raw"⟩

/-- The command line `posifilt kalman a b --config-file c.toml --help`. -/
def keylessHelpLine : posifilt.Vars :=
  ⟨true, false, some "c.toml", none, some "kalman", some "a", some "b"⟩

/-- The command line `posifilt homo rpos fpos --help`. -/
def homoHelpLine : posifilt.Vars :=
  ⟨true, false, none, none, some "homo", some "rpos", some "fpos"⟩

end Oat

/-! ## The loop of `run` -/

namespace Oat

theorem catchInterrupt_calls (r : RunReport) : (catchInterrupt r).calls = r.calls := by
  unfold catchInterrupt
  split
  · split <;> rfl
  · rfl

theorem catchInterrupt_returned (r : RunReport) (h : r.result = .returned ()) :
    catchInterrupt r = r := by
  unfold catchInterrupt
  rw [h]

/-- A test that finds `quit` set, or `source_eof` set, ends the loop. -/
theorem whileLoop_stop (quit : Nat → Int) (cycle : Nat → Call Bool) (fuel j : Nat)
    (source_eof : Int) (h : quit j ≠ 0 ∨ source_eof ≠ 0) :
    whileLoop quit cycle (fuel + 1) j source_eof = some ⟨j, source_eof, .returned ()⟩ := by
  have h' : ¬ (quit j = 0 ∧ source_eof = 0) := by
    rintro ⟨h1, h2⟩
    rcases h with h | h
    · exact h h1
    · exact h h2
  simp [whileLoop, h']

/-- One iteration whose call returns. -/
theorem whileLoop_step (quit : Nat → Int) (cycle : Nat → Call Bool) (fuel j : Nat) (b : Bool)
    (hq : quit j = 0) (hc : cycle j = .returned b) :
    whileLoop quit cycle (fuel + 1) j 0 =
      whileLoop quit cycle fuel (j + 1) (if b then 1 else 0) := by
  simp [whileLoop, hq, hc]

/-- One iteration whose call throws. -/
theorem whileLoop_threw (quit : Nat → Int) (cycle : Nat → Call Bool) (fuel j : Nat) (e : Exn)
    (hq : quit j = 0) (hc : cycle j = .threw e) :
    whileLoop quit cycle (fuel + 1) j 0 = some ⟨j + 1, 0, .threw e⟩ := by
  simp [whileLoop, hq, hc]

/-- Iterations whose calls return `false` are passed one by one. -/
theorem whileLoop_skip (quit : Nat → Int) (cycle : Nat → Call Bool) (n : Nat) :
    ∀ (fuel j : Nat), (∀ i, i < n → quit (j + i) = 0 ∧ cycle (j + i) = .returned false) →
      whileLoop quit cycle (fuel + n) j 0 = whileLoop quit cycle fuel (j + n) 0 := by
  induction n with
  | zero => intro fuel j _; rfl
  | succ n ih =>
    intro fuel j h
    have h0 := h 0 (Nat.succ_pos n)
    rw [Nat.add_zero] at h0
    have hstep : fuel + (n + 1) = (fuel + n) + 1 := by omega
    rw [hstep, whileLoop_step quit cycle (fuel + n) j false h0.1 h0.2]
    have hrest : ∀ i, i < n → quit (j + 1 + i) = 0 ∧ cycle (j + 1 + i) = .returned false := by
      intro i hi
      have := h (i + 1) (Nat.succ_lt_succ hi)
      have e : j + (i + 1) = j + 1 + i := by omega
      rwa [e] at this
    have := ih fuel (j + 1) hrest
    simp only [Bool.false_eq_true, if_false] at this ⊢
    rw [this]
    have e : j + 1 + n = j + (n + 1) := by omega
    rw [e]

/-- The loop ends after the first call that returns `true`. -/
theorem whileLoop_until_true (quit : Nat → Int) (cycle : Nat → Call Bool) (k fuel : Nat)
    (hq : ∀ i, i ≤ k → quit i = 0) (hf : ∀ i, i < k → cycle i = .returned false)
    (ht : cycle k = .returned true) (hfuel : k + 2 ≤ fuel) :
    whileLoop quit cycle fuel 0 0 = some ⟨k + 1, 1, .returned ()⟩ := by
  obtain ⟨f, rfl⟩ : ∃ f, fuel = (f + 2) + k := ⟨fuel - (k + 2), by omega⟩
  rw [whileLoop_skip quit cycle k (f + 2) 0
    (fun i hi => by rw [Nat.zero_add]; exact ⟨hq i (Nat.le_of_lt hi), hf i hi⟩)]
  rw [Nat.zero_add, whileLoop_step quit cycle (f + 1) k true (hq k (Nat.le_refl k)) ht]
  exact whileLoop_stop quit cycle f (k + 1) 1 (Or.inr (by decide))

/-- The loop ends at the first test that finds `quit` set. -/
theorem whileLoop_until_quit (quit : Nat → Int) (cycle : Nat → Call Bool) (n fuel : Nat)
    (h : ∀ i, i < n → quit i = 0 ∧ cycle i = .returned false)
    (hquit : quit n ≠ 0) (hfuel : n + 1 ≤ fuel) :
    whileLoop quit cycle fuel 0 0 = some ⟨n, 0, .returned ()⟩ := by
  obtain ⟨f, rfl⟩ : ∃ f, fuel = (f + 1) + n := ⟨fuel - (n + 1), by omega⟩
  rw [whileLoop_skip quit cycle n (f + 1) 0 (fun i hi => by rw [Nat.zero_add]; exact h i hi)]
  rw [Nat.zero_add]
  exact whileLoop_stop quit cycle f n 0 (Or.inl hquit)

/-- The loop ends with the first call that throws. -/
theorem whileLoop_until_threw (quit : Nat → Int) (cycle : Nat → Call Bool) (k fuel : Nat)
    (e : Exn) (hq : ∀ i, i ≤ k → quit i = 0) (hf : ∀ i, i < k → cycle i = .returned false)
    (ht : cycle k = .threw e) (hfuel : k + 1 ≤ fuel) :
    whileLoop quit cycle fuel 0 0 = some ⟨k + 1, 0, .threw e⟩ := by
  obtain ⟨f, rfl⟩ : ∃ f, fuel = (f + 1) + k := ⟨fuel - (k + 1), by omega⟩
  rw [whileLoop_skip quit cycle k (f + 1) 0
    (fun i hi => by rw [Nat.zero_add]; exact ⟨hq i (Nat.le_of_lt hi), hf i hi⟩)]
  rw [Nat.zero_add]
  exact whileLoop_threw quit cycle f k e (hq k (Nat.le_refl k)) ht

/-- Every call the loop makes, except the last one, returned `false`. -/
theorem whileLoop_calls_false (quit : Nat → Int) (cycle : Nat → Call Bool) :
    ∀ (fuel j : Nat) (source_eof : Int) (r : RunReport),
      whileLoop quit cycle fuel j source_eof = some r →
      j ≤ r.calls ∧ ∀ i, j ≤ i → i + 1 < r.calls → cycle i = .returned false := by
  intro fuel
  induction fuel with
  | zero => intro j eof r h; simp [whileLoop] at h
  | succ fuel ih =>
    intro j eof r h
    unfold whileLoop at h
    split at h
    · cases hc : cycle j with
      | returned b =>
        rw [hc] at h
        simp only at h
        obtain ⟨hle, hall⟩ := ih (j + 1) _ r h
        refine ⟨by omega, fun i hji hi => ?_⟩
        by_cases hij : i = j
        · subst hij
          cases b with
          | false => exact hc
          | true =>
            exfalso
            cases fuel with
            | zero => simp [whileLoop] at h
            | succ f =>
              rw [whileLoop_stop quit cycle f (i + 1) _ (Or.inr (by decide))] at h
              have := (Option.some.inj h)
              rw [← this] at hi
              simp at hi
        · exact hall i (by omega) hi
      | threw e =>
        rw [hc] at h
        simp only at h
        have := Option.some.inj h
        subst this
        exact ⟨Nat.le_succ j, fun i hji hi => by simp at hi; omega⟩
    · have := Option.some.inj h
      subst this
      exact ⟨Nat.le_refl j, fun i hji hi => by simp at hi; omega⟩

/-- A test that finds `quit` set bounds the calls and ends the loop. -/
theorem whileLoop_quit_bound (quit : Nat → Int) (cycle : Nat → Call Bool) (n : Nat)
    (hquit : quit n ≠ 0) :
    ∀ (fuel j : Nat) (source_eof : Int), j ≤ n → n < fuel + j →
      ∃ r, whileLoop quit cycle fuel j source_eof = some r ∧ r.calls ≤ n := by
  intro fuel
  induction fuel with
  | zero => intro j eof hj hn; omega
  | succ fuel ih =>
    intro j eof hj hn
    unfold whileLoop
    split
    · rename_i hcond
      have hjn : j ≠ n := fun e => hquit (e ▸ hcond.1)
      cases hc : cycle j with
      | returned b => exact ih (j + 1) _ (by omega) (by omega)
      | threw e => exact ⟨_, rfl, by simp; omega⟩
    · exact ⟨_, rfl, hj⟩

end Oat

namespace Oat

/-- Every call the loop makes follows a test that read `quit` as 0. -/
theorem whileLoop_calls_quit (quit : Nat → Int) (cycle : Nat → Call Bool) :
    ∀ (fuel j : Nat) (source_eof : Int) (r : RunReport),
      whileLoop quit cycle fuel j source_eof = some r →
      ∀ i, j ≤ i → i < r.calls → quit i = 0 := by
  intro fuel
  induction fuel with
  | zero => intro j eof r h; simp [whileLoop] at h
  | succ fuel ih =>
    intro j eof r h i hji hi
    unfold whileLoop at h
    split at h
    · rename_i hcond
      by_cases hij : i = j
      · rw [hij]; exact hcond.1
      · cases hc : cycle j with
        | returned b =>
          rw [hc] at h
          exact ih (j + 1) _ r h i (by omega) hi
        | threw e =>
          rw [hc] at h
          have := Option.some.inj h
          subst this
          simp only at hi
          omega
    · have := Option.some.inj h
      subst this
      simp only at hi
      omega

theorem guarded_calls_quit (connectToNode : Call Unit) (quit : Nat → Int)
    (cycle : Nat → Call Bool) (fuel : Nat) (r : RunReport)
    (h : guardedRun connectToNode quit cycle fuel 0 = some r) :
    ∀ i, i < r.calls → quit i = 0 := by
  unfold guardedRun at h
  cases connectToNode with
  | threw e =>
    simp only at h
    have := Option.some.inj h
    subst this
    intro i hi
    rw [catchInterrupt_calls] at hi
    simp at hi
  | returned u =>
    simp only [Option.map_eq_some'] at h
    obtain ⟨r', hr', rfl⟩ := h
    intro i hi
    rw [catchInterrupt_calls] at hi
    exact whileLoop_calls_quit quit cycle fuel 0 0 r' hr' i (Nat.zero_le i) hi

end Oat

/-! ## The claims on `run` -/

namespace Oat

theorem guarded_until_true (connectToNode : Call Unit) (quit : Nat → Int)
    (cycle : Nat → Call Bool) (k fuel : Nat) (hc : connectToNode = .returned ())
    (hq : ∀ i, quit i = 0) (hf : ∀ i, i < k → cycle i = .returned false)
    (ht : cycle k = .returned true) (hfuel : k + 2 ≤ fuel) :
    guardedRun connectToNode quit cycle fuel 0 =
      some ⟨k + 1, 1, .returned ()⟩ := by
  unfold guardedRun
  rw [hc, whileLoop_until_true quit cycle k fuel (fun i _ => hq i) hf ht hfuel]
  rfl

theorem guarded_calls_false (connectToNode : Call Unit) (quit : Nat → Int)
    (cycle : Nat → Call Bool) (fuel : Nat) (r : RunReport)
    (h : guardedRun connectToNode quit cycle fuel 0 = some r) :
    ∀ i, i + 1 < r.calls → cycle i = .returned false := by
  unfold guardedRun at h
  cases connectToNode with
  | threw e =>
    simp only at h
    have := Option.some.inj h
    subst this
    intro i hi
    rw [catchInterrupt_calls] at hi
    simp at hi
  | returned u =>
    simp only [Option.map_eq_some'] at h
    obtain ⟨r', hr', rfl⟩ := h
    intro i hi
    rw [catchInterrupt_calls] at hi
    exact (whileLoop_calls_false quit cycle fuel 0 0 r' hr').2 i (Nat.zero_le i) hi

/-- C1: in frameserve, posifilt and posisock, `run` (entered with `source_eof`
at its initial value 0) repeats the per-cycle call until it first returns
`true`.  When the loop is reached (`connectToNode()` has returned, where `run`
calls it), `quit` stays 0 and the per-cycle call returns `false` on its first
`k` invocations and `true` on invocation `k + 1`, then `run` makes exactly
`k + 1` invocations and returns (any bound of at least `k + 2` loop tests
suffices); and in every execution of `run`, every invocation but the last one
returned `false`, so that no invocation follows one that returned `true`. -/
theorem run_repeats_until_end_of_stream :
    (∀ (w : World frameserve.Server) (k fuel : Nat), w.connectToNode = .returned () →
      (∀ i, w.quit i = 0) → (∀ i, i < k → w.cycle i = .returned false) →
      w.cycle k = .returned true → k + 2 ≤ fuel →
      frameserve.run w fuel 0 = some ⟨k + 1, 1, .returned ()⟩) ∧
    (∀ (w : World posifilt.Filter) (k fuel : Nat),
      (∀ i, w.quit i = 0) → (∀ i, i < k → w.cycle i = .returned false) →
      w.cycle k = .returned true → k + 2 ≤ fuel →
      posifilt.run w fuel 0 = some ⟨k + 1, 1, .returned ()⟩) ∧
    (∀ (w : World posisock.Socket) (k fuel : Nat), w.connectToNode = .returned () →
      (∀ i, w.quit i = 0) → (∀ i, i < k → w.cycle i = .returned false) →
      w.cycle k = .returned true → k + 2 ≤ fuel →
      posisock.run w fuel 0 = some ⟨k + 1, 1, .returned ()⟩) ∧
    (∀ (w : World frameserve.Server) (fuel : Nat) (r : RunReport),
      frameserve.run w fuel 0 = some r → ∀ i, i + 1 < r.calls → w.cycle i = .returned false) ∧
    (∀ (w : World posifilt.Filter) (fuel : Nat) (r : RunReport),
      posifilt.run w fuel 0 = some r → ∀ i, i + 1 < r.calls → w.cycle i = .returned false) ∧
    (∀ (w : World posisock.Socket) (fuel : Nat) (r : RunReport),
      posisock.run w fuel 0 = some r → ∀ i, i + 1 < r.calls → w.cycle i = .returned false) := by
  refine ⟨?_, ?_, ?_, ?_, ?_, ?_⟩
  · intro w k fuel hc hq hf ht hfuel
    exact guarded_until_true w.connectToNode w.quit w.cycle k fuel hc hq hf ht hfuel
  · intro w k fuel hq hf ht hfuel
    exact whileLoop_until_true w.quit w.cycle k fuel (fun i _ => hq i) hf ht hfuel
  · intro w k fuel hc hq hf ht hfuel
    exact guarded_until_true w.connectToNode w.quit w.cycle k fuel hc hq hf ht hfuel
  · intro w fuel r h
    exact guarded_calls_false w.connectToNode w.quit w.cycle fuel r h
  · intro w fuel r h i hi
    exact (whileLoop_calls_false w.quit w.cycle fuel 0 0 r h).2 i (Nat.zero_le i) hi
  · intro w fuel r h
    exact guarded_calls_false w.connectToNode w.quit w.cycle fuel r h

/-- C1 at a concrete input: two frames served, end-of-stream on the third call. -/
theorem run_repeats_until_end_of_stream_witness :
    frameserve.run threeFrames 4 0 = some ⟨3, 1, .returned ()⟩ :=
  run_repeats_until_end_of_stream.1 threeFrames 2 4 rfl (fun _ => rfl)
    (fun i hi => by
      have : ¬ 2 ≤ i := by omega
      simp [threeFrames, this])
    rfl (by decide)

end Oat

namespace Oat

theorem guarded_quit_bound (connectToNode : Call Unit) (quit : Nat → Int)
    (cycle : Nat → Call Bool) (n fuel : Nat) (hquit : quit n ≠ 0) (hfuel : n + 1 ≤ fuel) :
    ∃ r, guardedRun connectToNode quit cycle fuel 0 = some r ∧ r.calls ≤ n := by
  unfold guardedRun
  cases connectToNode with
  | threw e => exact ⟨_, rfl, by rw [catchInterrupt_calls]; exact Nat.zero_le n⟩
  | returned u =>
    obtain ⟨r, hr, hn⟩ := whileLoop_quit_bound quit cycle n hquit fuel 0 0 (Nat.zero_le n)
      (by omega)
    exact ⟨catchInterrupt r, by simp [hr], by rw [catchInterrupt_calls]; exact hn⟩

theorem guarded_until_quit (connectToNode : Call Unit) (quit : Nat → Int)
    (cycle : Nat → Call Bool) (n fuel : Nat) (hc : connectToNode = .returned ())
    (h : ∀ i, i < n → quit i = 0 ∧ cycle i = .returned false)
    (hquit : quit n ≠ 0) (hfuel : n + 1 ≤ fuel) :
    guardedRun connectToNode quit cycle fuel 0 = some ⟨n, 0, .returned ()⟩ := by
  unfold guardedRun
  rw [hc, whileLoop_until_quit quit cycle n fuel h hquit hfuel]
  rfl

/-- C2: in frameserve, posifilt and posisock, the loop condition reads `quit`
once before every per-cycle call (`run` is entered with `source_eof` at its
initial value 0).  If the read number `n` (from 0) finds `quit`
non-zero, `run` ends within `n + 1` loop tests and has made at most `n` calls:
no call is made after that read.  If moreover the loop gets to that read (the
earlier reads found 0 and the earlier calls returned `false`), `run` returns
normally after exactly `n` calls; for `n = 0`, a `quit` that is already set
when the loop is first reached gives zero calls.  And in every execution of
`run`, the call number `i` follows the read number `i`, which found 0. -/
theorem quit_tested_before_every_call :
    (∀ (w : World frameserve.Server) (n fuel : Nat), w.quit n ≠ 0 → n + 1 ≤ fuel →
      ∃ r, frameserve.run w fuel 0 = some r ∧ r.calls ≤ n) ∧
    (∀ (w : World posifilt.Filter) (n fuel : Nat), w.quit n ≠ 0 → n + 1 ≤ fuel →
      ∃ r, posifilt.run w fuel 0 = some r ∧ r.calls ≤ n) ∧
    (∀ (w : World posisock.Socket) (n fuel : Nat), w.quit n ≠ 0 → n + 1 ≤ fuel →
      ∃ r, posisock.run w fuel 0 = some r ∧ r.calls ≤ n) ∧
    (∀ (w : World frameserve.Server) (n fuel : Nat), w.connectToNode = .returned () →
      (∀ i, i < n → w.quit i = 0 ∧ w.cycle i = .returned false) → w.quit n ≠ 0 →
      n + 1 ≤ fuel → frameserve.run w fuel 0 = some ⟨n, 0, .returned ()⟩) ∧
    (∀ (w : World posifilt.Filter) (n fuel : Nat),
      (∀ i, i < n → w.quit i = 0 ∧ w.cycle i = .returned false) → w.quit n ≠ 0 →
      n + 1 ≤ fuel → posifilt.run w fuel 0 = some ⟨n, 0, .returned ()⟩) ∧
    (∀ (w : World posisock.Socket) (n fuel : Nat), w.connectToNode = .returned () →
      (∀ i, i < n → w.quit i = 0 ∧ w.cycle i = .returned false) → w.quit n ≠ 0 →
      n + 1 ≤ fuel → posisock.run w fuel 0 = some ⟨n, 0, .returned ()⟩) ∧
    (∀ (w : World frameserve.Server) (fuel : Nat) (r : RunReport),
      frameserve.run w fuel 0 = some r → ∀ i, i < r.calls → w.quit i = 0) ∧
    (∀ (w : World posifilt.Filter) (fuel : Nat) (r : RunReport),
      posifilt.run w fuel 0 = some r → ∀ i, i < r.calls → w.quit i = 0) ∧
    (∀ (w : World posisock.Socket) (fuel : Nat) (r : RunReport),
      posisock.run w fuel 0 = some r → ∀ i, i < r.calls → w.quit i = 0) := by
  refine ⟨?_, ?_, ?_, ?_, ?_, ?_, ?_, ?_, ?_⟩
  rotate_right 3
  · intro w fuel r h
    exact guarded_calls_quit w.connectToNode w.quit w.cycle fuel r h
  · intro w fuel r h i hi
    exact whileLoop_calls_quit w.quit w.cycle fuel 0 0 r h i (Nat.zero_le i) hi
  · intro w fuel r h
    exact guarded_calls_quit w.connectToNode w.quit w.cycle fuel r h
  · intro w n fuel hquit hfuel
    exact guarded_quit_bound w.connectToNode w.quit w.cycle n fuel hquit hfuel
  · intro w n fuel hquit hfuel
    exact whileLoop_quit_bound w.quit w.cycle n hquit fuel 0 0 (Nat.zero_le n) (by omega)
  · intro w n fuel hquit hfuel
    exact guarded_quit_bound w.connectToNode w.quit w.cycle n fuel hquit hfuel
  · intro w n fuel hc h hquit hfuel
    exact guarded_until_quit w.connectToNode w.quit w.cycle n fuel hc h hquit hfuel
  · intro w n fuel h hquit hfuel
    exact whileLoop_until_quit w.quit w.cycle n fuel h hquit hfuel
  · intro w n fuel hc h hquit hfuel
    exact guarded_until_quit w.connectToNode w.quit w.cycle n fuel hc h hquit hfuel

/-- C2 at a concrete input: `quit` is set before the loop is reached, and a
position filter that would never reach end-of-stream is called zero times. -/
theorem quit_tested_before_every_call_witness :
    posifilt.run quitAtOnce 1 0 = some ⟨0, 0, .returned ()⟩ :=
  quit_tested_before_every_call.2.2.2.2.1 quitAtOnce 0 1
    (fun i hi => absurd hi (Nat.not_lt_zero i)) (by decide) (Nat.le_refl 1)

end Oat

/-! ## The claims on `main` -/

namespace Oat

/-- When some call returns `true` and no earlier call throws, the loop returns. -/
theorem whileLoop_returns (quit : Nat → Int) (cycle : Nat → Call Bool) (k : Nat)
    (hf : ∀ i, i < k → cycle i = .returned false) (ht : cycle k = .returned true) :
    ∀ (fuel j : Nat) (source_eof : Int), j ≤ k + 1 → (j = k + 1 → source_eof ≠ 0) →
      k + 2 ≤ fuel + j →
      ∃ r, whileLoop quit cycle fuel j source_eof = some r ∧ r.result = .returned () := by
  intro fuel
  induction fuel with
  | zero => intro j eof hj _ hfuel; omega
  | succ fuel ih =>
    intro j eof hj heof hfuel
    unfold whileLoop
    split
    · rename_i hcond
      have hjk : j ≤ k := by
        by_contra hcon
        exact heof (by omega) hcond.2
      by_cases hlt : j < k
      · rw [hf j hlt]
        exact ih (j + 1) _ (by omega) (fun h => by omega) (by omega)
      · have hjeq : j = k := by omega
        subst hjeq
        rw [ht]
        exact ih (j + 1) _ (by omega) (fun _ => by decide) (by omega)
    · exact ⟨_, rfl, rfl⟩

theorem guardedRun_returns (connectToNode : Call Unit) (quit : Nat → Int)
    (cycle : Nat → Call Bool) (k fuel : Nat) (hc : connectToNode = .returned ())
    (hf : ∀ i, i < k → cycle i = .returned false) (ht : cycle k = .returned true)
    (hfuel : k + 2 ≤ fuel) :
    ∃ r, guardedRun connectToNode quit cycle fuel 0 = some r ∧ r.result = .returned () := by
  obtain ⟨r, hr, hres⟩ := whileLoop_returns quit cycle k hf ht fuel 0 0 (Nat.zero_le _)
    (fun h => by omega) (by omega)
  refine ⟨r, ?_, hres⟩
  unfold guardedRun
  rw [hc, hr]
  simp [catchInterrupt_returned r hres]

theorem hashLookup_nil (t : String) : hashLookup [] t = Char.ofNat 0 := rfl

theorem hashLookup_cons (k : String) (c : Char) (rest : List (String × Char)) (t : String) :
    hashLookup ((k, c) :: rest) t = if t = k then c else hashLookup rest t := by
  by_cases h : t = k
  · simp [hashLookup, List.lookup, h]
  · have hb : (t == k) = false := beq_eq_false_iff_ne.mpr h
    simp [hashLookup, List.lookup, h, hb]

namespace frameserve

/-- The switch of frameserve, by the name of the TYPE. -/
theorem dispatch_eq_frameserve (USE_FLYCAP : Bool) (l : Locals) :
    dispatch USE_FLYCAP l =
      if l.type = "wcam" then .next (.WebCam l.sink)
      else if l.type = "gige" then
        (if USE_FLYCAP then .next (.PGGigECam l.sink l.index l.frames_per_second)
        else .exit ([.error ("Oat was not compiled with Point-Grey flycapture support, " ++
          "so TYPE=gige is not available.")], .returned (-1)))
      else if l.type = "file" then .next (.FileReader l.sink l.file_path l.frames_per_second)
      else if l.type = "test" then .next (.TestFrame l.sink l.file_path)
      else .exit ([.usage, .error "Invalid TYPE specified. Exiting."], .returned (-1)) := by
  unfold dispatch
  simp only [type_hash, hashLookup_cons, hashLookup_nil]
  by_cases h1 : l.type = "wcam"
  · simp [h1]
  by_cases h2 : l.type = "gige"
  · simp [h2]
  by_cases h3 : l.type = "file"
  · simp [h3]
  by_cases h4 : l.type = "test"
  · simp [h4]
  simp [h1, h2, h3, h4]

/-- A valid command line gets through the option block and selects a server. -/
theorem options_valid_frameserve (USE_FLYCAP : Bool) (vm : Vars) (hv : valid USE_FLYCAP vm = true) :
    ∃ l server, options (.parsed vm) = .next ([], l) ∧ dispatch USE_FLYCAP l = .next server ∧
      (l.config_used = false ∨ ∃ f k, l.config_fk = [f, k]) := by
  obtain ⟨help, version, index, file, fps, config, type, sink⟩ := vm
  simp only [valid, Bool.and_eq_true, Bool.not_eq_true', Bool.or_eq_true, beq_iff_eq] at hv
  obtain ⟨⟨⟨⟨hh, hver⟩, hs⟩, hcfg⟩, ht⟩ := hv
  subst hh hver
  cases type with
  | none => simp at ht
  | some t =>
  cases sink with
  | none => simp at hs
  | some s =>
  simp only [Bool.or_eq_true, Bool.and_eq_true, beq_iff_eq] at ht
  cases config with
  | none =>
    rcases ht with (rfl | ⟨rfl, rfl⟩) | ⟨rfl | rfl, hfile⟩
    · simp [options, notify, dispatch_eq_frameserve]
    · simp [options, notify, dispatch_eq_frameserve]
    · obtain ⟨p, rfl⟩ := Option.isSome_iff_exists.mp hfile
      simp [options, notify, dispatch_eq_frameserve]
    · obtain ⟨p, rfl⟩ := Option.isSome_iff_exists.mp hfile
      simp [options, notify, dispatch_eq_frameserve]
  | some fk =>
    simp only [beq_iff_eq] at hcfg
    match fk, hcfg with
    | [f, k], _ =>
      rcases ht with (rfl | ⟨rfl, rfl⟩) | ⟨rfl | rfl, hfile⟩
      · simp [options, notify, dispatch_eq_frameserve]
      · simp [options, notify, dispatch_eq_frameserve]
      · obtain ⟨p, rfl⟩ := Option.isSome_iff_exists.mp hfile
        simp [options, notify, dispatch_eq_frameserve]
      · obtain ⟨p, rfl⟩ := Option.isSome_iff_exists.mp hfile
        simp [options, notify, dispatch_eq_frameserve]

/-- The report of frameserve on a valid command line, when the constructor and
`configure` return: it is decided by the result of `run`. -/
theorem main_of_valid_frameserve (USE_FLYCAP : Bool) (vm : Vars) (w : World Server) (fuel : Nat)
    (hv : valid USE_FLYCAP vm = true) (hcons : ∀ c, w.construct c = .returned ())
    (hcfg : ∀ c cfg, w.configure c cfg = .returned ()) :
    ∃ l server out cfgs, main USE_FLYCAP (.parsed vm) w fuel =
      (run w fuel 0).map (fun r =>
        match r.result with
        | .returned _ => ⟨.returned 0, out ++ [.message "Exiting."], some server, cfgs, r.calls⟩
        | .threw e => ⟨(handlers l e).1, out ++ (handlers l e).2, some server, cfgs, r.calls⟩) := by
  obtain ⟨l, server, hopt, hdis, hfk⟩ := options_valid_frameserve USE_FLYCAP vm hv
  have hserve : ∀ cfg, serve w fuel [] l server cfg =
      (run w fuel 0).map (fun r =>
        match r.result with
        | .returned _ => ⟨.returned 0, ([] ++ [.message ("Steaming to sink " ++ l.sink ++ "."),
            .message "Press CTRL+C to exit."]) ++ [.message "Exiting."], some server, [cfg],
            r.calls⟩
        | .threw e => ⟨(handlers l e).1, ([] ++ [.message ("Steaming to sink " ++ l.sink ++ "."),
            .message "Press CTRL+C to exit."]) ++ (handlers l e).2, some server, [cfg],
            r.calls⟩) := by
    intro cfg
    unfold serve
    rw [hcfg]
    cases hrun : run w fuel 0 with
    | none => rfl
    | some r =>
      cases hres : r.result with
      | returned u => simp [hres]
      | threw e => simp [hres]
  unfold main
  rw [hopt]
  simp only [hdis, hcons]
  rcases hfk with hfalse | ⟨f, k, hfk⟩
  · simp only [hfalse, Bool.false_eq_true, if_false]
    exact ⟨l, server, _, _, hserve none⟩
  · by_cases hused : l.config_used = true
    · simp only [hused, if_true, hfk, List.get?]
      exact ⟨l, server, _, _, hserve _⟩
    · simp only [hused, if_false]
      exact ⟨l, server, _, _, hserve none⟩

end frameserve

namespace posifilt

/-- The switch of posifilt, by the name of the TYPE. -/
theorem dispatch_eq_posifilt (l : Locals) :
    dispatch l =
      if l.type = "kalman" then .next (.KalmanFilter2D l.source l.sink)
      else if l.type = "homo" then .next (.HomographyTransform2D l.source l.sink)
      else if l.type = "region" then .next (.RegionFilter2D l.source l.sink)
      else .exit ([.usage, .error "Invalid TYPE specified."], .returned (-1)) := by
  unfold dispatch
  simp only [type_hash, hashLookup_cons, hashLookup_nil]
  by_cases h1 : l.type = "kalman"
  · simp [h1]
  by_cases h2 : l.type = "homo"
  · simp [h2]
  by_cases h3 : l.type = "region"
  · simp [h3]
  simp [h1, h2, h3]

/-- A valid command line gets through the option block and selects a filter. -/
theorem options_valid_posifilt (vm : Vars) (hv : valid vm = true) :
    ∃ l filter, options (.parsed vm) = .next ([], l) ∧ dispatch l = .next filter := by
  obtain ⟨help, version, config_file, config_key, type, source, sink⟩ := vm
  simp only [valid, Bool.and_eq_true, Bool.not_eq_true', Bool.or_eq_true, beq_iff_eq] at hv
  obtain ⟨⟨⟨⟨⟨hh, hver⟩, hsrc⟩, hs⟩, hcfg⟩, ht⟩ := hv
  subst hh hver
  cases type with
  | none => simp at ht
  | some t =>
  cases source with
  | none => simp at hsrc
  | some src =>
  cases sink with
  | none => simp at hs
  | some s =>
  simp only [Bool.or_eq_true, Bool.and_eq_true, beq_iff_eq] at ht
  cases config_file with
  | none =>
    cases config_key with
    | some ck => simp at hcfg
    | none =>
      rcases ht with (rfl | rfl) | ⟨_, hfile⟩
      · simp [options, notify, dispatch_eq_posifilt]
      · simp [options, notify, dispatch_eq_posifilt]
      · simp at hfile
  | some cf =>
    cases config_key with
    | none => simp at hcfg
    | some ck =>
      rcases ht with (rfl | rfl) | ⟨rfl, _⟩ <;> simp [options, notify, dispatch_eq_posifilt]

/-- The report of posifilt on a valid command line, when the constructor and
`configure` return: it is decided by the result of `run`. -/
theorem main_of_valid_posifilt (vm : Vars) (w : World Filter) (fuel : Nat)
    (hv : valid vm = true) (hcons : ∀ c, w.construct c = .returned ())
    (hcfg : ∀ c cfg, w.configure c cfg = .returned ()) :
    ∃ l filter out cfgs, main (.parsed vm) w fuel =
      (run w fuel 0).map (fun r =>
        match r.result with
        | .returned _ => ⟨.returned 0, out ++ [.message "Exiting."], some filter, cfgs, r.calls⟩
        | .threw e => ⟨(handlers l true e).1, out ++ (handlers l true e).2, some filter, cfgs,
            r.calls⟩) := by
  obtain ⟨l, filter, hopt, hdis⟩ := options_valid_posifilt vm hv
  have hloop : ∀ cfgs, filterLoop w fuel [] l filter cfgs =
      (run w fuel 0).map (fun r =>
        match r.result with
        | .returned _ => ⟨.returned 0, ([] ++ [.message ("Listening to source " ++ l.source ++ "."),
            .message ("Steaming to sink " ++ l.sink ++ "."), .message "Press CTRL+C to exit."]) ++
            [.message "Exiting."], some filter, cfgs, r.calls⟩
        | .threw e => ⟨(handlers l true e).1,
            ([] ++ [.message ("Listening to source " ++ l.source ++ "."),
            .message ("Steaming to sink " ++ l.sink ++ "."), .message "Press CTRL+C to exit."]) ++
            (handlers l true e).2, some filter, cfgs, r.calls⟩) := by
    intro cfgs
    unfold filterLoop
    cases hrun : run w fuel 0 with
    | none => rfl
    | some r =>
      cases hres : r.result with
      | returned u => simp [hres]
      | threw e => simp [hres]
  unfold main
  rw [hopt]
  simp only [hdis, hcons, hcfg]
  by_cases hused : l.config_used = true
  · simp only [hused, if_true]
    exact ⟨l, filter, _, _, hloop _⟩
  · simp only [hused, if_false]
    exact ⟨l, filter, _, _, hloop _⟩

end posifilt

namespace posisock

/-- The switch of posisock, by the name of the TYPE. -/
theorem dispatch_eq_posisock (l : Locals) :
    dispatch l =
      if l.type = "pub" then
        (match l.endpoint.get? 0 with
        | some e0 => .next (.PositionPublisher l.source e0)
        | none => .exit ([], .undefined))
      else if l.type = "rep" then
        (match l.endpoint.get? 0 with
        | some e0 => .next (.PositionReplier l.source e0)
        | none => .exit ([], .undefined))
      else if l.type = "udp" then
        (match l.endpoint.get? 0, l.endpoint.get? 1 with
        | some e0, some e1 => .next (.UDPPositionClient l.source e0 e1)
        | _, _ => .exit ([], .undefined))
      else .exit ([.usage, .error "Invalid TYPE specified."], .returned (-1)) := by
  unfold dispatch
  simp only [type_hash, hashLookup_cons, hashLookup_nil]
  by_cases h1 : l.type = "pub"
  · simp [h1]
  by_cases h2 : l.type = "rep"
  · simp [h2]
  by_cases h3 : l.type = "udp"
  · simp [h3]
  simp [h1, h2, h3]

/-- A valid command line gets through the option block and selects a socket. -/
theorem options_valid_posisock (vm : Vars) (hv : valid vm = true) :
    ∃ l socket, options (.parsed vm) = .next ([], l) ∧ dispatch l = .next socket := by
  obtain ⟨help, version, type, source, endpoint⟩ := vm
  simp only [valid, Bool.and_eq_true, Bool.not_eq_true', Bool.or_eq_true, beq_iff_eq] at hv
  obtain ⟨⟨⟨hh, hver⟩, hsrc⟩, ht⟩ := hv
  subst hh hver
  cases type with
  | none => simp at ht
  | some t =>
  cases source with
  | none => simp at hsrc
  | some src =>
  cases endpoint with
  | none => simp at ht
  | some ep =>
  simp only [Bool.or_eq_true, Bool.and_eq_true, beq_iff_eq] at ht
  rcases ht with ⟨rfl | rfl, hlen⟩ | ⟨rfl, hlen⟩
  · rcases hlen with h1 | h2
    · obtain ⟨a, rfl⟩ := List.length_eq_one.mp h1
      simp [options, notify, dispatch_eq_posisock]
    · obtain ⟨a, b, rfl⟩ := List.length_eq_two.mp h2
      simp [options, notify, dispatch_eq_posisock]
  · rcases hlen with h1 | h2
    · obtain ⟨a, rfl⟩ := List.length_eq_one.mp h1
      simp [options, notify, dispatch_eq_posisock]
    · obtain ⟨a, b, rfl⟩ := List.length_eq_two.mp h2
      simp [options, notify, dispatch_eq_posisock]
  · obtain ⟨a, b, rfl⟩ := List.length_eq_two.mp hlen
    simp [options, notify, dispatch_eq_posisock]

/-- The report of posisock on a valid command line, when the constructor
returns: it is decided by the result of `run`. -/
theorem main_of_valid_posisock (vm : Vars) (w : World Socket) (fuel : Nat)
    (hv : valid vm = true) (hcons : ∀ c, w.construct c = .returned ()) :
    ∃ socket out, main (.parsed vm) w fuel =
      (run w fuel 0).map (fun r =>
        match r.result with
        | .returned _ => ⟨.returned 0, out ++ [.message "Exiting."], some socket, [], r.calls⟩
        | .threw e => ⟨(handlers e).1, out ++ (handlers e).2, some socket, [], r.calls⟩) := by
  obtain ⟨l, socket, hopt, hdis⟩ := options_valid_posisock vm hv
  refine ⟨socket, [] ++ [.message ("Listening to source " ++ l.source ++ "."),
    .message "Press CTRL+C to exit."], ?_⟩
  unfold main
  rw [hopt]
  simp only [hdis, hcons]
  cases hrun : run w fuel 0 with
  | none => rfl
  | some r =>
    cases hres : r.result with
    | returned u => simp [hres]
    | threw e => simp [hres]

end posisock

end Oat

namespace Oat

/-- C3: in frameserve, posifilt and posisock, for every valid command line, if
the constructor and `configure` return, the loop is reached (`connectToNode()`
has returned, where `run` calls it), and the per-cycle call returns `true` on
some invocation after returning `false` on the earlier ones, then `main`
returns 0, whatever `quit` reads (any bound of at least `k + 2` loop tests
suffices). -/
theorem end_of_stream_exits_zero :
    (∀ (USE_FLYCAP : Bool) (vm : frameserve.Vars) (w : World frameserve.Server) (k fuel : Nat),
      frameserve.valid USE_FLYCAP vm = true → (∀ c, w.construct c = .returned ()) →
      (∀ c cfg, w.configure c cfg = .returned ()) → w.connectToNode = .returned () →
      (∀ i, i < k → w.cycle i = .returned false) → w.cycle k = .returned true → k + 2 ≤ fuel →
      (frameserve.main USE_FLYCAP (.parsed vm) w fuel).map Report.exit = some (.returned 0)) ∧
    (∀ (vm : posifilt.Vars) (w : World posifilt.Filter) (k fuel : Nat),
      posifilt.valid vm = true → (∀ c, w.construct c = .returned ()) →
      (∀ c cfg, w.configure c cfg = .returned ()) →
      (∀ i, i < k → w.cycle i = .returned false) → w.cycle k = .returned true → k + 2 ≤ fuel →
      (posifilt.main (.parsed vm) w fuel).map Report.exit = some (.returned 0)) ∧
    (∀ (vm : posisock.Vars) (w : World posisock.Socket) (k fuel : Nat),
      posisock.valid vm = true → (∀ c, w.construct c = .returned ()) →
      w.connectToNode = .returned () →
      (∀ i, i < k → w.cycle i = .returned false) → w.cycle k = .returned true → k + 2 ≤ fuel →
      (posisock.main (.parsed vm) w fuel).map Report.exit = some (.returned 0)) := by
  refine ⟨?_, ?_, ?_⟩
  · intro F vm w k fuel hv hcons hcfg hc hf ht hfuel
    obtain ⟨l, server, out, cfgs, hmain⟩ := frameserve.main_of_valid_frameserve F vm w fuel hv hcons hcfg
    obtain ⟨r, hr, hres⟩ := guardedRun_returns w.connectToNode w.quit w.cycle k fuel hc hf ht hfuel
    rw [hmain, frameserve.run, hr]
    simp [hres]
  · intro vm w k fuel hv hcons hcfg hf ht hfuel
    obtain ⟨l, filter, out, cfgs, hmain⟩ := posifilt.main_of_valid_posifilt vm w fuel hv hcons hcfg
    obtain ⟨r, hr, hres⟩ := whileLoop_returns w.quit w.cycle k hf ht fuel 0 0 (Nat.zero_le _)
      (fun h => by omega) (by omega)
    rw [hmain, posifilt.run, hr]
    simp [hres]
  · intro vm w k fuel hv hcons hc hf ht hfuel
    obtain ⟨socket, out, hmain⟩ := posisock.main_of_valid_posisock vm w fuel hv hcons
    obtain ⟨r, hr, hres⟩ := guardedRun_returns w.connectToNode w.quit w.cycle k fuel hc hf ht hfuel
    rw [hmain, posisock.run, hr]
    simp [hres]

/-- C3 at a concrete input: `frameserve file raw --file v.avi` on a file of two
frames returns 0. -/
theorem end_of_stream_exits_zero_witness :
    (frameserve.main false (.parsed fileToRaw) threeFrames 4).map Report.exit =
      some (.returned 0) :=
  end_of_stream_exits_zero.1 false fileToRaw threeFrames 2 4 (by decide) (fun _ => rfl)
    (fun _ _ => rfl) rfl
    (fun i hi => by
      have : ¬ 2 ≤ i := by omega
      simp [threeFrames, this])
    rfl (by decide)

end Oat

namespace Oat

theorem catchInterrupt_interprocess (n : Nat) (c : Int) :
    catchInterrupt ⟨n, 0, .threw (.interprocess_exception c)⟩ =
      if c = 1 then ⟨n, 0, .returned ()⟩ else ⟨n, 0, .threw (.interprocess_exception c)⟩ := by
  by_cases h : c = 1 <;> simp [catchInterrupt, h]

/-- The result of `run` when `connectToNode()` throws an interprocess exception. -/
theorem guardedRun_connect_interprocess (connectToNode : Call Unit) (quit : Nat → Int)
    (cycle : Nat → Call Bool) (fuel : Nat) (c : Int)
    (hc : connectToNode = .threw (.interprocess_exception c)) :
    guardedRun connectToNode quit cycle fuel 0 =
      some (if c = 1 then ⟨0, 0, .returned ()⟩
        else ⟨0, 0, .threw (.interprocess_exception c)⟩) := by
  unfold guardedRun
  rw [hc]
  simp only [catchInterrupt_interprocess]

/-- The result of `run` when a per-cycle call throws an interprocess exception. -/
theorem guardedRun_cycle_interprocess (connectToNode : Call Unit) (quit : Nat → Int)
    (cycle : Nat → Call Bool) (k fuel : Nat) (c : Int) (hc : connectToNode = .returned ())
    (hq : ∀ i, i ≤ k → quit i = 0) (hf : ∀ i, i < k → cycle i = .returned false)
    (ht : cycle k = .threw (.interprocess_exception c)) (hfuel : k + 1 ≤ fuel) :
    guardedRun connectToNode quit cycle fuel 0 =
      some (if c = 1 then ⟨k + 1, 0, .returned ()⟩
        else ⟨k + 1, 0, .threw (.interprocess_exception c)⟩) := by
  unfold guardedRun
  rw [hc, whileLoop_until_threw quit cycle k fuel _ hq hf ht hfuel]
  simp only [Option.map_some', catchInterrupt_interprocess]

/-- C4 for frameserve, from what `run` yields. -/
theorem main_interprocess_frameserve (USE_FLYCAP : Bool) (vm : frameserve.Vars)
    (w : World frameserve.Server) (fuel n : Nat) (c : Int)
    (hv : frameserve.valid USE_FLYCAP vm = true) (hcons : ∀ s, w.construct s = .returned ())
    (hcfg : ∀ s cfg, w.configure s cfg = .returned ())
    (hrun : frameserve.run w fuel 0 = some (if c = 1 then ⟨n, 0, .returned ()⟩
      else ⟨n, 0, .threw (.interprocess_exception c)⟩)) :
    (c = 1 → frameserve.run w fuel 0 = some ⟨n, 0, .returned ()⟩ ∧
      ∃ r, frameserve.main USE_FLYCAP (.parsed vm) w fuel = some r ∧ r.exit = .returned 0 ∧
        Out.message "Exiting." ∈ r.out) ∧
    (c ≠ 1 → frameserve.run w fuel 0 = some ⟨n, 0, .threw (.interprocess_exception c)⟩ ∧
      ∃ r, frameserve.main USE_FLYCAP (.parsed vm) w fuel = some r ∧
        r.exit = .returned (-1)) := by
  obtain ⟨l, server, out, cfgs, hmain⟩ := frameserve.main_of_valid_frameserve USE_FLYCAP vm w fuel hv hcons hcfg
  rw [hmain, hrun]
  constructor
  · intro h1
    simp [h1]
  · intro h1
    simp [h1, frameserve.handlers]

/-- C4 for posisock, from what `run` yields. -/
theorem main_interprocess_posisock (vm : posisock.Vars)
    (w : World posisock.Socket) (fuel n : Nat) (c : Int)
    (hv : posisock.valid vm = true) (hcons : ∀ s, w.construct s = .returned ())
    (hrun : posisock.run w fuel 0 = some (if c = 1 then ⟨n, 0, .returned ()⟩
      else ⟨n, 0, .threw (.interprocess_exception c)⟩)) :
    (c = 1 → posisock.run w fuel 0 = some ⟨n, 0, .returned ()⟩ ∧
      ∃ r, posisock.main (.parsed vm) w fuel = some r ∧ r.exit = .returned 0 ∧
        Out.message "Exiting." ∈ r.out) ∧
    (c ≠ 1 → posisock.run w fuel 0 = some ⟨n, 0, .threw (.interprocess_exception c)⟩ ∧
      ∃ r, posisock.main (.parsed vm) w fuel = some r ∧ r.exit = .returned (-1)) := by
  obtain ⟨socket, out, hmain⟩ := posisock.main_of_valid_posisock vm w fuel hv hcons
  rw [hmain, hrun]
  constructor
  · intro h1
    simp [h1]
  · intro h1
    simp [h1, posisock.handlers]

/-- C4: in frameserve and posisock, on a valid command line whose constructor
and `configure` return, an interprocess exception with error code `c`, thrown
by `connectToNode()` or by the first per-cycle call that does not return
`false` (with `quit` reading 0 up to it), ends `run` and `main` as follows.  If
`c = 1`, `run` returns normally and `main` prints `Exiting.` and returns 0, as
at end-of-stream.  If `c ≠ 1`, `run` rethrows the exception and `main` returns
-1.  Here `n` is the number of per-cycle calls made: 0 for `connectToNode()`,
`k + 1` for the call number `k`. -/
theorem interrupted_wait_exits_zero :
    (∀ (USE_FLYCAP : Bool) (vm : frameserve.Vars) (w : World frameserve.Server) (fuel : Nat)
      (c : Int), frameserve.valid USE_FLYCAP vm = true → (∀ s, w.construct s = .returned ()) →
      (∀ s cfg, w.configure s cfg = .returned ()) →
      w.connectToNode = .threw (.interprocess_exception c) →
      (c = 1 → frameserve.run w fuel 0 = some ⟨0, 0, .returned ()⟩ ∧
        ∃ r, frameserve.main USE_FLYCAP (.parsed vm) w fuel = some r ∧ r.exit = .returned 0 ∧
          Out.message "Exiting." ∈ r.out) ∧
      (c ≠ 1 → frameserve.run w fuel 0 = some ⟨0, 0, .threw (.interprocess_exception c)⟩ ∧
        ∃ r, frameserve.main USE_FLYCAP (.parsed vm) w fuel = some r ∧
          r.exit = .returned (-1))) ∧
    (∀ (USE_FLYCAP : Bool) (vm : frameserve.Vars) (w : World frameserve.Server) (k fuel : Nat)
      (c : Int), frameserve.valid USE_FLYCAP vm = true → (∀ s, w.construct s = .returned ()) →
      (∀ s cfg, w.configure s cfg = .returned ()) → w.connectToNode = .returned () →
      (∀ i, i ≤ k → w.quit i = 0) → (∀ i, i < k → w.cycle i = .returned false) →
      w.cycle k = .threw (.interprocess_exception c) → k + 1 ≤ fuel →
      (c = 1 → frameserve.run w fuel 0 = some ⟨k + 1, 0, .returned ()⟩ ∧
        ∃ r, frameserve.main USE_FLYCAP (.parsed vm) w fuel = some r ∧ r.exit = .returned 0 ∧
          Out.message "Exiting." ∈ r.out) ∧
      (c ≠ 1 → frameserve.run w fuel 0 = some ⟨k + 1, 0, .threw (.interprocess_exception c)⟩ ∧
        ∃ r, frameserve.main USE_FLYCAP (.parsed vm) w fuel = some r ∧
          r.exit = .returned (-1))) ∧
    (∀ (vm : posisock.Vars) (w : World posisock.Socket) (fuel : Nat) (c : Int),
      posisock.valid vm = true → (∀ s, w.construct s = .returned ()) →
      w.connectToNode = .threw (.interprocess_exception c) →
      (c = 1 → posisock.run w fuel 0 = some ⟨0, 0, .returned ()⟩ ∧
        ∃ r, posisock.main (.parsed vm) w fuel = some r ∧ r.exit = .returned 0 ∧
          Out.message "Exiting." ∈ r.out) ∧
      (c ≠ 1 → posisock.run w fuel 0 = some ⟨0, 0, .threw (.interprocess_exception c)⟩ ∧
        ∃ r, posisock.main (.parsed vm) w fuel = some r ∧ r.exit = .returned (-1))) ∧
    (∀ (vm : posisock.Vars) (w : World posisock.Socket) (k fuel : Nat) (c : Int),
      posisock.valid vm = true → (∀ s, w.construct s = .returned ()) →
      w.connectToNode = .returned () →
      (∀ i, i ≤ k → w.quit i = 0) → (∀ i, i < k → w.cycle i = .returned false) →
      w.cycle k = .threw (.interprocess_exception c) → k + 1 ≤ fuel →
      (c = 1 → posisock.run w fuel 0 = some ⟨k + 1, 0, .returned ()⟩ ∧
        ∃ r, posisock.main (.parsed vm) w fuel = some r ∧ r.exit = .returned 0 ∧
          Out.message "Exiting." ∈ r.out) ∧
      (c ≠ 1 → posisock.run w fuel 0 = some ⟨k + 1, 0, .threw (.interprocess_exception c)⟩ ∧
        ∃ r, posisock.main (.parsed vm) w fuel = some r ∧ r.exit = .returned (-1))) := by
  refine ⟨?_, ?_, ?_, ?_⟩
  · intro F vm w fuel c hv hcons hcfg hc
    exact main_interprocess_frameserve F vm w fuel 0 c hv hcons hcfg
      (guardedRun_connect_interprocess w.connectToNode w.quit w.cycle fuel c hc)
  · intro F vm w k fuel c hv hcons hcfg hc hq hf ht hfuel
    exact main_interprocess_frameserve F vm w fuel (k + 1) c hv hcons hcfg
      (guardedRun_cycle_interprocess w.connectToNode w.quit w.cycle k fuel c hc hq hf ht hfuel)
  · intro vm w fuel c hv hcons hc
    exact main_interprocess_posisock vm w fuel 0 c hv hcons
      (guardedRun_connect_interprocess w.connectToNode w.quit w.cycle fuel c hc)
  · intro vm w k fuel c hv hcons hc hq hf ht hfuel
    exact main_interprocess_posisock vm w fuel (k + 1) c hv hcons
      (guardedRun_cycle_interprocess w.connectToNode w.quit w.cycle k fuel c hc hq hf ht hfuel)

/-- C4 at a concrete input: `posisock pub rpos tcp://*:5555`, interrupted in
its third `process()` call, returns 0. -/
theorem interrupted_wait_exits_zero_witness :
    posisock.run interruptedSocket 3 0 = some ⟨3, 0, .returned ()⟩ ∧
      ∃ r, posisock.main (.parsed pubLine) interruptedSocket 3 = some r ∧
        r.exit = .returned 0 ∧ Out.message "Exiting." ∈ r.out :=
  (interrupted_wait_exits_zero.2.2.2 pubLine interruptedSocket 2 3 1 (by decide)
    (fun _ => rfl) rfl (fun _ _ => rfl)
    (fun i hi => by simp [interruptedSocket, hi]) (by simp [interruptedSocket])
    (by decide)).1 rfl

end Oat

namespace Oat

/-- C5 (the code at the failing input): in posifilt, `run` has no handler for
the interprocess exception with error code 1.  On `posifilt kalman rpos fpos`
with the first `process()` call interrupted, the exception reaches the
`catch (...)` clause of `main`, which prints `Unknown exception.` and returns
-1, while the same command line at end-of-stream prints `Exiting.` and
returns 0. -/
theorem posifilt_interrupt_returns_failure :
    posifilt.run interruptedFilter 1 0 = some ⟨1, 0, .threw (.interprocess_exception 1)⟩ ∧
    posifilt.main (.parsed kalmanLine) interruptedFilter 1 =
      some ⟨.returned (-1),
        [.message "Listening to source rpos.", .message "Steaming to sink fpos.",
          .message "Press CTRL+C to exit.", .whoError "Unknown exception."],
        some (.KalmanFilter2D "rpos" "fpos"), [], 1⟩ ∧
    posifilt.main (.parsed kalmanLine) endedFilter 2 =
      some ⟨.returned 0,
        [.message "Listening to source rpos.", .message "Steaming to sink fpos.",
          .message "Press CTRL+C to exit.", .message "Exiting."],
        some (.KalmanFilter2D "rpos" "fpos"), [], 1⟩ := by
  refine ⟨?_, ?_, ?_⟩ <;> decide

/-- C7 (the code at the failing inputs): a constructor that throws does not
make `main` return -1 in frameserve and posifilt.  In frameserve the
constructor is called outside every `try` block, so the exception leaves
`main`; in posifilt the catch clause calls `filter->get_name()` on the
`shared_ptr` that was never assigned.  In posisock `main` returns -1. -/
theorem constructor_exception_not_handled :
    (frameserve.main false (.parsed wcamLine) (failingConstructor frameserve.Server) 1).map
      Report.exit = some .terminated ∧
    (posifilt.main (.parsed kalmanLine) (failingConstructor posifilt.Filter) 1).map
      Report.exit = some .undefined ∧
    (posisock.main (.parsed pubLine) (failingConstructor posisock.Socket) 1).map
      Report.exit = some (.returned (-1)) := by
  refine ⟨?_, ?_, ?_⟩ <;> decide

end Oat

namespace Oat

/-- Loop tests that read `done` as 0 are passed one by one, each with one call. -/
theorem framefilt_run_skip {σ : Type} (done : Nat → Int) (step : σ → σ) (n : Nat) :
    ∀ (fuel j : Nat) (s : σ), (∀ i, i < n → done (j + i) = 0) →
      framefilt.run done step (fuel + n) j s = framefilt.run done step fuel (j + n) (step^[n] s) := by
  induction n with
  | zero => intro fuel j s _; rfl
  | succ n ih =>
    intro fuel j s h
    have h0 := h 0 (Nat.succ_pos n)
    rw [Nat.add_zero] at h0
    have hstep : fuel + (n + 1) = (fuel + n) + 1 := by omega
    rw [hstep, framefilt.run]
    simp only [h0, if_true]
    have hrest : ∀ i, i < n → done (j + 1 + i) = 0 := by
      intro i hi
      have := h (i + 1) (Nat.succ_lt_succ hi)
      have e : j + (i + 1) = j + 1 + i := by omega
      rwa [e] at this
    rw [ih fuel (j + 1) (step s) hrest, Function.iterate_succ_apply]
    have e : j + 1 + n = j + (n + 1) := by omega
    rw [e]

/-- C6 as stated fails: with the frame source at end-of-stream from the first
call on, `run` goes on calling `filterAndServe()` (five calls that obtain no
frame and publish nothing) until `done` is set, and within forty loop tests it
does not return when `done` stays 0. -/
theorem framefilt_run_ignores_end_of_stream :
    framefilt.run (fun i => if i < 5 then 0 else 1)
        (BackgroundSubtractor.filterAndServe endedSource) 10 0 freshSubtractor =
      some (5, { freshSubtractor with reads := 5 }) ∧
    framefilt.run (fun _ => 0)
        (BackgroundSubtractor.filterAndServe endedSource) 40 0 freshSubtractor = none := by
  refine ⟨?_, ?_⟩ <;> decide

/-- C6 as amended: the framefilt loop repeats until `done` is set.  If `done`
reads 0 at the loop tests before test `n` and non-zero at test `n`, `run`
returns after exactly `n` calls of `filterAndServe()` (for every bound above
`n`), whatever the frame source yields; if `done` always reads 0, `run` does
not return within any bound.  A `filterAndServe()` call of the
`BackgroundSubtractor` that obtains no frame publishes nothing and leaves the
background as it is. -/
theorem framefilt_run_until_done :
    (∀ (σ : Type) (done : Nat → Int) (filterAndServe : σ → σ) (filter : σ) (n fuel : Nat),
      (∀ i, i < n → done i = 0) → done n ≠ 0 → n + 1 ≤ fuel →
      framefilt.run done filterAndServe fuel 0 filter = some (n, filterAndServe^[n] filter)) ∧
    (∀ (σ : Type) (done : Nat → Int) (filterAndServe : σ → σ) (filter : σ) (fuel : Nat),
      (∀ i, done i = 0) → framefilt.run done filterAndServe fuel 0 filter = none) ∧
    (∀ (frame_source : FrameSource) (s : BackgroundSubtractor),
      frame_source s.reads = none →
      (BackgroundSubtractor.filterAndServe frame_source s).frame_sink = s.frame_sink ∧
      (BackgroundSubtractor.filterAndServe frame_source s).background_img = s.background_img ∧
      (BackgroundSubtractor.filterAndServe frame_source s).background_set = s.background_set) := by
  refine ⟨?_, ?_, ?_⟩
  · intro σ done step s n fuel h hdone hfuel
    obtain ⟨f, rfl⟩ : ∃ f, fuel = (f + 1) + n := ⟨fuel - (n + 1), by omega⟩
    rw [framefilt_run_skip done step n (f + 1) 0 s (fun i hi => by rw [Nat.zero_add]; exact h i hi)]
    rw [Nat.zero_add, framefilt.run]
    simp [hdone]
  · intro σ done step s fuel h
    have := framefilt_run_skip done step fuel 0 0 s (fun i _ => h _)
    rw [Nat.zero_add] at this
    rw [this]
    rfl
  · intro src s h
    simp [BackgroundSubtractor.filterAndServe, h]

/-- C6 as amended, at a concrete input: `done` is set at the third loop test. -/
theorem framefilt_run_until_done_witness :
    framefilt.run (fun i => if i < 2 then 0 else 1)
        (BackgroundSubtractor.filterAndServe endedSource) 3 0 freshSubtractor =
      some (2, (BackgroundSubtractor.filterAndServe endedSource)^[2] freshSubtractor) :=
  framefilt_run_until_done.1 BackgroundSubtractor (fun i => if i < 2 then 0 else 1)
    (BackgroundSubtractor.filterAndServe endedSource) freshSubtractor 2 3
    (fun i hi => by simp [hi]) (by decide) (by decide)

end Oat

/-! ## TYPE dispatch -/

namespace Oat

/-- Every report of frameserve names the constructor call `select` gives. -/
theorem constructed_frameserve (USE_FLYCAP : Bool) (cmd : ParseResult frameserve.Vars)
    (w : World frameserve.Server) (fuel : Nat) (r : Report frameserve.Server)
    (h : frameserve.main USE_FLYCAP cmd w fuel = some r) :
    r.constructed = frameserve.select USE_FLYCAP cmd := by
  unfold frameserve.main at h
  unfold frameserve.select
  cases hopt : frameserve.options cmd with
  | exit q =>
    rw [hopt] at h
    simp only [Option.some.injEq] at h
    subst h
    rfl
  | next p =>
    obtain ⟨out, l⟩ := p
    rw [hopt] at h
    simp only at h ⊢
    cases hdis : frameserve.dispatch USE_FLYCAP l with
    | exit q =>
      rw [hdis] at h
      simp only [Option.some.injEq] at h
      subst h
      rfl
    | next server =>
      rw [hdis] at h
      simp only at h ⊢
      cases hcons : w.construct server with
      | threw e =>
        rw [hcons] at h
        simp only [Option.some.injEq] at h
        subst h
        rfl
      | returned u =>
        rw [hcons] at h
        simp only [frameserve.serve] at h
        repeat' split at h
        all_goals first
          | (simp only [Option.some.injEq] at h; subst h; rfl)
          | (simp at h)

end Oat

namespace Oat

/-- In frameserve a TYPE outside the table ends `main` with -1 before any constructor call. -/
theorem unknown_type_frameserve (USE_FLYCAP : Bool) (vm : frameserve.Vars)
    (w : World frameserve.Server) (fuel : Nat) (hh : vm.help = false) (hver : vm.version = false)
    (h1 : vm.type ≠ some "wcam") (h2 : vm.type ≠ some "gige") (h3 : vm.type ≠ some "file")
    (h4 : vm.type ≠ some "test") :
    (frameserve.main USE_FLYCAP (.parsed vm) w fuel).map (fun r => (r.exit, r.constructed)) =
      some (.returned (-1), none) := by
  obtain ⟨help, version, index, file, fps, config, type, sink⟩ := vm
  simp only at hh hver h1 h2 h3 h4
  subst hh hver
  cases type with
  | none => simp [frameserve.main, frameserve.options]
  | some t =>
    simp only [ne_eq, Option.some.injEq] at h1 h2 h3 h4
    cases sink with
    | none => simp [frameserve.main, frameserve.options]
    | some s =>
      cases config with
      | none =>
        simp [frameserve.main, frameserve.options, frameserve.notify,
          frameserve.dispatch_eq_frameserve, h1, h2, h3, h4]
      | some fk =>
        by_cases hlen : fk.length = 2
        · simp [frameserve.main, frameserve.options, frameserve.notify,
            frameserve.dispatch_eq_frameserve, h1, h2, h3, h4, hlen]
        · simp [frameserve.main, frameserve.options, frameserve.notify, hlen]

/-- In frameserve built without flycapture support, TYPE `gige` ends `main` with -1
before any constructor call. -/
theorem gige_without_flycap (vm : frameserve.Vars) (w : World frameserve.Server) (fuel : Nat)
    (hh : vm.help = false) (hver : vm.version = false) (ht : vm.type = some "gige") :
    (frameserve.main false (.parsed vm) w fuel).map (fun r => (r.exit, r.constructed)) =
      some (.returned (-1), none) := by
  obtain ⟨help, version, index, file, fps, config, type, sink⟩ := vm
  simp only at hh hver ht
  subst hh hver ht
  cases sink with
  | none => simp [frameserve.main, frameserve.options]
  | some s =>
    cases config with
    | none =>
      simp [frameserve.main, frameserve.options, frameserve.notify,
        frameserve.dispatch_eq_frameserve]
    | some fk =>
      by_cases hlen : fk.length = 2
      · simp [frameserve.main, frameserve.options, frameserve.notify,
          frameserve.dispatch_eq_frameserve, hlen]
      · simp [frameserve.main, frameserve.options, frameserve.notify, hlen]

/-- The server frameserve selects on a valid command line, by the name of the TYPE. -/
theorem select_frameserve (USE_FLYCAP : Bool) (vm : frameserve.Vars) (s : String)
    (hv : frameserve.valid USE_FLYCAP vm = true) (hs : vm.sink = some s) :
    (vm.type = some "wcam" → frameserve.select USE_FLYCAP (.parsed vm) = some (.WebCam s)) ∧
    (vm.type = some "gige" → frameserve.select USE_FLYCAP (.parsed vm) =
      some (.PGGigECam s (vm.index.getD 0) vm.fps)) ∧
    (∀ p, vm.type = some "file" → vm.file = some p →
      frameserve.select USE_FLYCAP (.parsed vm) = some (.FileReader s p vm.fps)) ∧
    (∀ p, vm.type = some "test" → vm.file = some p →
      frameserve.select USE_FLYCAP (.parsed vm) = some (.TestFrame s p)) := by
  obtain ⟨help, version, index, file, fps, config, type, sink⟩ := vm
  simp only [frameserve.valid, Bool.and_eq_true, Bool.not_eq_true', Bool.or_eq_true,
    beq_iff_eq] at hv
  obtain ⟨⟨⟨⟨hh, hver⟩, -⟩, hcfg⟩, ht⟩ := hv
  simp only at hs
  subst hh hver hs
  have hopt : ∀ t, type = some t → (t = "file" ∨ t = "test" → file ≠ none) →
      frameserve.options (.parsed ⟨false, false, index, file, fps, config, type, some s⟩) =
        .next ([], ⟨s, t, file.getD "", fps, index.getD 0, config.getD [],
          config.isSome⟩) := by
    intro t htype hfile
    subst htype
    cases config with
    | none =>
      by_cases hft : t = "file" ∨ t = "test"
      · simp [frameserve.options, frameserve.notify, hft, hfile hft]
      · simp [frameserve.options, frameserve.notify, hft]
    | some fk =>
      simp only [beq_iff_eq] at hcfg
      by_cases hft : t = "file" ∨ t = "test"
      · simp [frameserve.options, frameserve.notify, hft, hfile hft, hcfg]
      · simp [frameserve.options, frameserve.notify, hft, hcfg]
  refine ⟨?_, ?_, ?_, ?_⟩
  · intro htype
    simp only at htype
    rw [frameserve.select, hopt "wcam" htype (by simp)]
    simp [frameserve.dispatch_eq_frameserve]
  · intro htype
    simp only at htype
    subst htype
    have hF : USE_FLYCAP = true := by simpa using ht
    rw [frameserve.select, hopt "gige" rfl (by simp)]
    simp [frameserve.dispatch_eq_frameserve, hF]
  · intro p htype hp
    simp only at htype hp
    subst hp
    rw [frameserve.select, hopt "file" htype (by simp)]
    simp [frameserve.dispatch_eq_frameserve]
  · intro p htype hp
    simp only at htype hp
    subst hp
    rw [frameserve.select, hopt "test" htype (by simp)]
    simp [frameserve.dispatch_eq_frameserve]

/-- Every report of posifilt names the constructor call `select` gives. -/
theorem constructed_posifilt (cmd : ParseResult posifilt.Vars)
    (w : World posifilt.Filter) (fuel : Nat) (r : Report posifilt.Filter)
    (h : posifilt.main cmd w fuel = some r) :
    r.constructed = posifilt.select cmd := by
  unfold posifilt.main at h
  unfold posifilt.select
  cases hopt : posifilt.options cmd with
  | exit q =>
    rw [hopt] at h
    simp only [Option.some.injEq] at h
    subst h
    rfl
  | next p =>
    obtain ⟨out, l⟩ := p
    rw [hopt] at h
    simp only at h ⊢
    cases hdis : posifilt.dispatch l with
    | exit q =>
      rw [hdis] at h
      simp only [Option.some.injEq] at h
      subst h
      rfl
    | next filter =>
      rw [hdis] at h
      simp only [posifilt.filterLoop] at h ⊢
      repeat' split at h
      all_goals first
        | (simp only [Option.some.injEq] at h; subst h; rfl)
        | (simp at h)

/-- In posifilt a TYPE outside the table ends `main` with -1 before any constructor call. -/
theorem unknown_type_posifilt (vm : posifilt.Vars) (w : World posifilt.Filter) (fuel : Nat)
    (hh : vm.help = false) (hver : vm.version = false)
    (h1 : vm.type ≠ some "kalman") (h2 : vm.type ≠ some "homo") (h3 : vm.type ≠ some "region") :
    (posifilt.main (.parsed vm) w fuel).map (fun r => (r.exit, r.constructed)) =
      some (.returned (-1), none) := by
  obtain ⟨help, version, config_file, config_key, type, source, sink⟩ := vm
  simp only at hh hver h1 h2 h3
  subst hh hver
  cases type with
  | none => simp [posifilt.main, posifilt.options]
  | some t =>
    simp only [ne_eq, Option.some.injEq] at h1 h2 h3
    cases source with
    | none => simp [posifilt.main, posifilt.options]
    | some src =>
      cases sink with
      | none => simp [posifilt.main, posifilt.options]
      | some s =>
        cases config_file <;> cases config_key <;>
          simp [posifilt.main, posifilt.options, posifilt.notify,
            posifilt.dispatch_eq_posifilt, h1, h2, h3]

/-- The filter posifilt selects on a valid command line, by the name of the TYPE. -/
theorem select_posifilt (vm : posifilt.Vars) (src s : String)
    (hv : posifilt.valid vm = true) (hsrc : vm.positionsource = some src)
    (hs : vm.sink = some s) :
    (vm.type = some "kalman" → posifilt.select (.parsed vm) = some (.KalmanFilter2D src s)) ∧
    (vm.type = some "homo" →
      posifilt.select (.parsed vm) = some (.HomographyTransform2D src s)) ∧
    (vm.type = some "region" → posifilt.select (.parsed vm) = some (.RegionFilter2D src s)) := by
  obtain ⟨help, version, config_file, config_key, type, source, sink⟩ := vm
  simp only [posifilt.valid, Bool.and_eq_true, Bool.not_eq_true', Bool.or_eq_true,
    beq_iff_eq] at hv
  obtain ⟨⟨⟨⟨⟨hh, hver⟩, -⟩, -⟩, hcfg⟩, ht⟩ := hv
  simp only at hsrc hs
  subst hh hver hsrc hs
  refine ⟨?_, ?_, ?_⟩
  · intro htype
    simp only at htype
    subst htype
    cases config_file <;> cases config_key <;> simp at hcfg <;>
      simp [posifilt.select, posifilt.options, posifilt.notify, posifilt.dispatch_eq_posifilt]
  · intro htype
    simp only at htype
    subst htype
    cases config_file <;> cases config_key <;> simp at hcfg ht
    simp [posifilt.select, posifilt.options, posifilt.notify, posifilt.dispatch_eq_posifilt]
  · intro htype
    simp only at htype
    subst htype
    cases config_file <;> cases config_key <;> simp at hcfg <;>
      simp [posifilt.select, posifilt.options, posifilt.notify, posifilt.dispatch_eq_posifilt]

/-- Every report of posisock names the constructor call `select` gives. -/
theorem constructed_posisock (cmd : ParseResult posisock.Vars)
    (w : World posisock.Socket) (fuel : Nat) (r : Report posisock.Socket)
    (h : posisock.main cmd w fuel = some r) :
    r.constructed = posisock.select cmd := by
  unfold posisock.main at h
  unfold posisock.select
  cases hopt : posisock.options cmd with
  | exit q =>
    rw [hopt] at h
    simp only [Option.some.injEq] at h
    subst h
    rfl
  | next p =>
    obtain ⟨out, l⟩ := p
    rw [hopt] at h
    simp only at h ⊢
    cases hdis : posisock.dispatch l with
    | exit q =>
      rw [hdis] at h
      simp only [Option.some.injEq] at h
      subst h
      rfl
    | next socket =>
      rw [hdis] at h
      simp only at h ⊢
      repeat' split at h
      all_goals first
        | (simp only [Option.some.injEq] at h; subst h; rfl)
        | (simp at h)

/-- In posisock a TYPE outside the table ends `main` with -1 before any constructor call. -/
theorem unknown_type_posisock (vm : posisock.Vars) (w : World posisock.Socket) (fuel : Nat)
    (hh : vm.help = false) (hver : vm.version = false)
    (h1 : vm.type ≠ some "pub") (h2 : vm.type ≠ some "rep") (h3 : vm.type ≠ some "udp") :
    (posisock.main (.parsed vm) w fuel).map (fun r => (r.exit, r.constructed)) =
      some (.returned (-1), none) := by
  obtain ⟨help, version, type, source, endpoint⟩ := vm
  simp only at hh hver h1 h2 h3
  subst hh hver
  cases type with
  | none => simp [posisock.main, posisock.options]
  | some t =>
    simp only [ne_eq, Option.some.injEq] at h1 h2 h3
    cases source with
    | none => simp [posisock.main, posisock.options]
    | some src =>
      cases endpoint with
      | none =>
        simp [posisock.main, posisock.options, posisock.notify,
          posisock.dispatch_eq_posisock, h1, h2, h3]
      | some ep =>
        by_cases hlen : 2 < ep.length ∨ ep = []
        · simp [posisock.main, posisock.options, hlen]
        · simp [posisock.main, posisock.options, posisock.notify,
            posisock.dispatch_eq_posisock, h1, h2, h3, hlen]

/-- The socket posisock selects on a valid command line, by the name of the TYPE. -/
theorem select_posisock (vm : posisock.Vars) (src e0 : String) (rest : List String)
    (hv : posisock.valid vm = true) (hsrc : vm.positionsource = some src)
    (hep : vm.endpoint = some (e0 :: rest)) :
    (vm.type = some "pub" → posisock.select (.parsed vm) = some (.PositionPublisher src e0)) ∧
    (vm.type = some "rep" → posisock.select (.parsed vm) = some (.PositionReplier src e0)) ∧
    (vm.type = some "udp" → ∃ e1, rest = [e1] ∧
      posisock.select (.parsed vm) = some (.UDPPositionClient src e0 e1)) := by
  obtain ⟨help, version, type, source, endpoint⟩ := vm
  simp only [posisock.valid, Bool.and_eq_true, Bool.not_eq_true', Bool.or_eq_true,
    beq_iff_eq] at hv
  obtain ⟨⟨⟨hh, hver⟩, -⟩, ht⟩ := hv
  simp only at hsrc hep
  subst hh hver hsrc hep
  refine ⟨?_, ?_, ?_⟩
  · intro htype
    simp only at htype
    subst htype
    simp at ht
    rcases ht with h | h
    · subst h
      simp [posisock.select, posisock.options, posisock.notify, posisock.dispatch_eq_posisock]
    · obtain ⟨e1, rfl⟩ := List.length_eq_one.mp h
      simp [posisock.select, posisock.options, posisock.notify, posisock.dispatch_eq_posisock]
  · intro htype
    simp only at htype
    subst htype
    simp at ht
    rcases ht with h | h
    · subst h
      simp [posisock.select, posisock.options, posisock.notify, posisock.dispatch_eq_posisock]
    · obtain ⟨e1, rfl⟩ := List.length_eq_one.mp h
      simp [posisock.select, posisock.options, posisock.notify, posisock.dispatch_eq_posisock]
  · intro htype
    simp only at htype
    subst htype
    simp at ht
    obtain ⟨e1, rfl⟩ := List.length_eq_one.mp ht
    exact ⟨e1, rfl, by
      simp [posisock.select, posisock.options, posisock.notify, posisock.dispatch_eq_posisock]⟩

end Oat

namespace Oat

/-- C8 as stated fails: in a build without flycapture support the documented
TYPE `gige` selects no component (`frameserve gige raw` returns -1 with nothing
constructed), and with `--help` an undocumented TYPE does not make `main`
return -1 (`frameserve nosuch raw --help` returns 0). -/
theorem gige_selects_no_component :
    frameserve.main false (.parsed gigeLine) threeFrames 4 =
      some ⟨.returned (-1), [.error ("Oat was not compiled with Point-Grey flycapture " ++
        "support, so TYPE=gige is not available.")], none, [], 0⟩ ∧
    frameserve.main false (.parsed helpLine) threeFrames 4 =
      some ⟨.returned 0, [.usage], none, [], 0⟩ := by
  refine ⟨?_, ?_⟩ <;> decide

/-- C8 as amended: TYPE dispatch is closed over the documented set.  On a
parsed command line without `--help` and `--version`, a TYPE outside the table
(frameserve: wcam, gige, file, test; posifilt: kalman, homo, region; posisock:
pub, rep, udp) makes `main` return -1 with no constructor call, and so does
`gige` in a frameserve built without flycapture support.  The component named
in a report of `main` is the one `select` gives, and on a command line that
passes the checks of `main` each documented name selects its documented
component: wcam `WebCam`, gige `PGGigECam` (which the checks admit only with
flycapture support), file `FileReader`, test `TestFrame`; kalman
`KalmanFilter2D`, homo `HomographyTransform2D`, region `RegionFilter2D`; pub
`PositionPublisher`, rep `PositionReplier`, udp `UDPPositionClient`. -/
theorem type_dispatch_closed :
    (∀ (USE_FLYCAP : Bool) (vm : frameserve.Vars) (w : World frameserve.Server) (fuel : Nat),
      vm.help = false → vm.version = false → vm.type ≠ some "wcam" → vm.type ≠ some "gige" →
      vm.type ≠ some "file" → vm.type ≠ some "test" →
      (frameserve.main USE_FLYCAP (.parsed vm) w fuel).map (fun r => (r.exit, r.constructed)) =
        some (.returned (-1), none)) ∧
    (∀ (vm : posifilt.Vars) (w : World posifilt.Filter) (fuel : Nat),
      vm.help = false → vm.version = false → vm.type ≠ some "kalman" → vm.type ≠ some "homo" →
      vm.type ≠ some "region" →
      (posifilt.main (.parsed vm) w fuel).map (fun r => (r.exit, r.constructed)) =
        some (.returned (-1), none)) ∧
    (∀ (vm : posisock.Vars) (w : World posisock.Socket) (fuel : Nat),
      vm.help = false → vm.version = false → vm.type ≠ some "pub" → vm.type ≠ some "rep" →
      vm.type ≠ some "udp" →
      (posisock.main (.parsed vm) w fuel).map (fun r => (r.exit, r.constructed)) =
        some (.returned (-1), none)) ∧
    (∀ (vm : frameserve.Vars) (w : World frameserve.Server) (fuel : Nat),
      vm.help = false → vm.version = false → vm.type = some "gige" →
      (frameserve.main false (.parsed vm) w fuel).map (fun r => (r.exit, r.constructed)) =
        some (.returned (-1), none)) ∧
    (∀ (USE_FLYCAP : Bool) (cmd : ParseResult frameserve.Vars) (w : World frameserve.Server)
      (fuel : Nat) (r : Report frameserve.Server),
      frameserve.main USE_FLYCAP cmd w fuel = some r →
      r.constructed = frameserve.select USE_FLYCAP cmd) ∧
    (∀ (cmd : ParseResult posifilt.Vars) (w : World posifilt.Filter) (fuel : Nat)
      (r : Report posifilt.Filter),
      posifilt.main cmd w fuel = some r → r.constructed = posifilt.select cmd) ∧
    (∀ (cmd : ParseResult posisock.Vars) (w : World posisock.Socket) (fuel : Nat)
      (r : Report posisock.Socket),
      posisock.main cmd w fuel = some r → r.constructed = posisock.select cmd) ∧
    (∀ (USE_FLYCAP : Bool) (vm : frameserve.Vars) (s : String),
      frameserve.valid USE_FLYCAP vm = true → vm.sink = some s →
      (vm.type = some "wcam" → frameserve.select USE_FLYCAP (.parsed vm) = some (.WebCam s)) ∧
      (vm.type = some "gige" → frameserve.select USE_FLYCAP (.parsed vm) =
        some (.PGGigECam s (vm.index.getD 0) vm.fps)) ∧
      (∀ p, vm.type = some "file" → vm.file = some p →
        frameserve.select USE_FLYCAP (.parsed vm) = some (.FileReader s p vm.fps)) ∧
      (∀ p, vm.type = some "test" → vm.file = some p →
        frameserve.select USE_FLYCAP (.parsed vm) = some (.TestFrame s p))) ∧
    (∀ (vm : posifilt.Vars) (src s : String),
      posifilt.valid vm = true → vm.positionsource = some src → vm.sink = some s →
      (vm.type = some "kalman" → posifilt.select (.parsed vm) = some (.KalmanFilter2D src s)) ∧
      (vm.type = some "homo" →
        posifilt.select (.parsed vm) = some (.HomographyTransform2D src s)) ∧
      (vm.type = some "region" →
        posifilt.select (.parsed vm) = some (.RegionFilter2D src s))) ∧
    (∀ (vm : posisock.Vars) (src e0 : String) (rest : List String),
      posisock.valid vm = true → vm.positionsource = some src →
      vm.endpoint = some (e0 :: rest) →
      (vm.type = some "pub" →
        posisock.select (.parsed vm) = some (.PositionPublisher src e0)) ∧
      (vm.type = some "rep" →
        posisock.select (.parsed vm) = some (.PositionReplier src e0)) ∧
      (vm.type = some "udp" → ∃ e1, rest = [e1] ∧
        posisock.select (.parsed vm) = some (.UDPPositionClient src e0 e1))) :=
  ⟨unknown_type_frameserve, unknown_type_posifilt, unknown_type_posisock, gige_without_flycap,
    constructed_frameserve, constructed_posifilt, constructed_posisock, select_frameserve,
    select_posifilt, select_posisock⟩

/-- C8 as amended, at a concrete input: `frameserve file raw --file v.avi`
selects `FileReader("raw", "v.avi", 30)`. -/
theorem type_dispatch_closed_witness :
    frameserve.select false (.parsed fileToRaw) = some (.FileReader "raw" "v.avi" none) :=
  (type_dispatch_closed.2.2.2.2.2.2.2.1 false fileToRaw "raw" (by decide) rfl).2.2.1
    "v.avi" rfl rfl

end Oat

namespace Oat

/-- The switch of framefilt, by the name of the TYPE. -/
theorem dispatch_eq_framefilt (l : framefilt.Locals) :
    framefilt.dispatch l =
      if l.type = "bsub" then .next (.BackgroundSubtractor l.source l.sink)
      else if l.type = "mask" then .next (.FrameMasker l.source l.sink l.invert_mask)
      else .exit ([.usage, .error "Error: invalid TYPE specified. Exiting."],
        .returned (-1)) := by
  unfold framefilt.dispatch
  simp only [framefilt.type_hash, hashLookup_cons, hashLookup_nil]
  by_cases h1 : l.type = "bsub"
  · simp [h1]
  by_cases h2 : l.type = "mask"
  · simp [h2]
  simp [h1, h2]

/-- Every report of framefilt names the constructor call `select` gives. -/
theorem constructed_framefilt (cmd : ParseResult framefilt.Vars)
    (w : framefilt.World) (fuel : Nat) (r : framefilt.Report)
    (h : framefilt.main cmd w fuel = some r) :
    r.constructed = framefilt.select cmd := by
  unfold framefilt.main at h
  unfold framefilt.select
  cases hopt : framefilt.options cmd with
  | exit q =>
    rw [hopt] at h
    simp only [Option.some.injEq] at h
    subst h
    rfl
  | next p =>
    obtain ⟨out, l⟩ := p
    rw [hopt] at h
    simp only at h ⊢
    cases hdis : framefilt.dispatch l with
    | exit q =>
      rw [hdis] at h
      simp only [Option.some.injEq] at h
      subst h
      rfl
    | next filter =>
      rw [hdis] at h
      simp only [framefilt.threads] at h ⊢
      repeat' split at h
      all_goals first
        | (simp only [Option.some.injEq] at h; subst h; rfl)
        | (simp at h)

/-- In framefilt a TYPE outside the table, or no TYPE, ends `main` with -1
before any constructor call and before the processing thread is created. -/
theorem unknown_type_framefilt (vm : framefilt.Vars) (w : framefilt.World) (fuel : Nat)
    (hh : vm.help = false) (hver : vm.version = false)
    (h1 : vm.type ≠ some "bsub") (h2 : vm.type ≠ some "mask") :
    (framefilt.main (.parsed vm) w fuel).map
      (fun r => (r.exit, r.constructed, r.threadStarted, r.calls)) =
      some (.returned (-1), none, false, 0) := by
  obtain ⟨help, version, config_file, config_key, invert_mask, type, source, sink⟩ := vm
  simp only at hh hver h1 h2
  subst hh hver
  have ht : type.getD "" ≠ "bsub" ∧ type.getD "" ≠ "mask" := by
    cases type with
    | none => exact ⟨by decide, by decide⟩
    | some t =>
      simp only [ne_eq, Option.some.injEq] at h1 h2
      exact ⟨h1, h2⟩
  cases source with
  | none => simp [framefilt.main, framefilt.options]
  | some src =>
    cases sink with
    | none => simp [framefilt.main, framefilt.options]
    | some s =>
      cases config_file <;> cases config_key <;> cases invert_mask <;>
        simp [framefilt.main, framefilt.options, framefilt.notify, dispatch_eq_framefilt,
          framefilt.type_hash, hashLookup_cons, hashLookup_nil, ht.1, ht.2]

/-- The filter framefilt selects, by the name of the TYPE, when SOURCE and SINK
are present and the configuration options are paired. -/
theorem select_framefilt (vm : framefilt.Vars) (src s : String)
    (hh : vm.help = false) (hver : vm.version = false)
    (hsrc : vm.source = some src) (hs : vm.sink = some s)
    (hcfg : vm.config_file.isSome = vm.config_key.isSome) :
    (vm.type = some "bsub" →
      framefilt.select (.parsed vm) = some (.BackgroundSubtractor src s)) ∧
    (vm.type = some "mask" →
      framefilt.select (.parsed vm) = some (.FrameMasker src s vm.invert_mask)) := by
  obtain ⟨help, version, config_file, config_key, invert_mask, type, source, sink⟩ := vm
  simp only at hh hver hsrc hs hcfg
  subst hh hver hsrc hs
  refine ⟨?_, ?_⟩
  · intro htype
    simp only at htype
    subst htype
    cases config_file <;> cases config_key <;> cases invert_mask <;> simp at hcfg <;>
      simp [framefilt.select, framefilt.options, framefilt.notify, dispatch_eq_framefilt,
        framefilt.type_hash, hashLookup_cons, hashLookup_nil]
  · intro htype
    simp only at htype
    subst htype
    cases config_file <;> cases config_key <;> cases invert_mask <;> simp at hcfg <;>
      simp [framefilt.select, framefilt.options, framefilt.notify, dispatch_eq_framefilt,
        framefilt.type_hash, hashLookup_cons, hashLookup_nil]

/-- C9 as stated fails: with SOURCE and SINK present, TYPE `bsub` constructs
no `BackgroundSubtractor` when `--config-file` comes without `--config-key`
(`main` returns -1 first), and with `--help` an unknown TYPE does not make
`main` return -1 (`main` returns 0). -/
theorem bsub_not_always_constructed :
    framefilt.main (.parsed keylessLine) quietOperator 1 =
      some ⟨.returned (-1), [.usage, .error
        "Error: config file must be supplied with a corresponding config-key. Exiting."],
        none, [], false, 0⟩ ∧
    framefilt.main (.parsed helpFilterLine) quietOperator 1 =
      some ⟨.returned 0, [.usage], none, [], false, 0⟩ := by
  refine ⟨?_, ?_⟩ <;> decide

/-- C9 as amended: framefilt accepts exactly the TYPEs `bsub` and `mask`.  On a
parsed command line without `--help` and `--version`: any other TYPE, and an
omitted TYPE, make `main` return -1 with no constructor call, no processing
thread and no `filterAndServe()` call; and when SOURCE and SINK are present
and `--config-file` and `--config-key` are given together or not at all, TYPE
`bsub` selects `BackgroundSubtractor(source, sink)` and TYPE `mask` selects
`FrameMasker(source, sink, invert_mask)`, where `invert_mask` is the
`--invert-mask` flag.  The filter named in a report of `main` is the one
`select` gives. -/
theorem framefilt_accepts_bsub_and_mask :
    (∀ (vm : framefilt.Vars) (w : framefilt.World) (fuel : Nat),
      vm.help = false → vm.version = false → vm.type ≠ some "bsub" → vm.type ≠ some "mask" →
      (framefilt.main (.parsed vm) w fuel).map
        (fun r => (r.exit, r.constructed, r.threadStarted, r.calls)) =
        some (.returned (-1), none, false, 0)) ∧
    (∀ (vm : framefilt.Vars) (src s : String), vm.help = false → vm.version = false →
      vm.source = some src → vm.sink = some s →
      vm.config_file.isSome = vm.config_key.isSome →
      (vm.type = some "bsub" →
        framefilt.select (.parsed vm) = some (.BackgroundSubtractor src s)) ∧
      (vm.type = some "mask" →
        framefilt.select (.parsed vm) = some (.FrameMasker src s vm.invert_mask))) ∧
    (∀ (cmd : ParseResult framefilt.Vars) (w : framefilt.World) (fuel : Nat)
      (r : framefilt.Report),
      framefilt.main cmd w fuel = some r → r.constructed = framefilt.select cmd) :=
  ⟨unknown_type_framefilt, select_framefilt, constructed_framefilt⟩

/-- C9 as amended, at a concrete input: `framefilt mask raw filt --invert-mask`
selects `FrameMasker("raw", "filt", true)`. -/
theorem framefilt_accepts_bsub_and_mask_witness :
    framefilt.select (.parsed maskLine) = some (.FrameMasker "raw" "filt" true) :=
  (framefilt_accepts_bsub_and_mask.2.1 maskLine "raw" "filt" rfl rfl rfl rfl rfl).2 rfl

end Oat

namespace Oat

/-- C10 (the code at the failing input): on `posisock pub rpos`, with no
endpoint, the option block prints `An endpoint must be specified.` and does
not return; the switch then reads `endpoint[0]` of the empty vector, which is
undefined behaviour, instead of `main` returning -1. -/
theorem missing_endpoint_falls_through :
    posisock.options (.parsed noEndpointLine) =
      .next ([.usage, .error "An endpoint must be specified."], ⟨"pub", "rpos", []⟩) ∧
    posisock.dispatch ⟨"pub", "rpos", []⟩ = .exit ([], .undefined) ∧
    posisock.main (.parsed noEndpointLine) endedSocket 2 =
      some ⟨.undefined, [.usage, .error "An endpoint must be specified."], none, [], 0⟩ := by
  refine ⟨?_, ?_, ?_⟩ <;> decide

end Oat

/-! ## Exceptions after the construction -/

namespace Oat

/-- The locals frameserve holds after the option block, on a valid command line. -/
theorem options_eq_frameserve (USE_FLYCAP : Bool) (vm : frameserve.Vars)
    (hv : frameserve.valid USE_FLYCAP vm = true) :
    frameserve.options (.parsed vm) =
      .next ([], ⟨vm.sink.getD "", vm.type.getD "", vm.file.getD "", vm.fps,
        vm.index.getD 0, vm.config.getD [], vm.config.isSome⟩) := by
  obtain ⟨help, version, index, file, fps, config, type, sink⟩ := vm
  simp only [frameserve.valid, Bool.and_eq_true, Bool.not_eq_true', Bool.or_eq_true,
    beq_iff_eq] at hv
  obtain ⟨⟨⟨⟨hh, hver⟩, hs⟩, hcfg⟩, ht⟩ := hv
  subst hh hver
  cases type with
  | none => simp at ht
  | some t =>
  cases sink with
  | none => simp at hs
  | some s =>
  simp only [Bool.or_eq_true, Bool.and_eq_true, beq_iff_eq] at ht
  have hfile : t = "file" ∨ t = "test" → file ≠ none := by
    intro hft hnone
    subst hnone
    rcases ht with (rfl | ⟨rfl, _⟩) | ⟨_, h⟩
    · simp at hft
    · simp at hft
    · simp at h
  cases config with
  | none =>
    by_cases hft : t = "file" ∨ t = "test"
    · simp [frameserve.options, frameserve.notify, hft, hfile hft]
    · simp [frameserve.options, frameserve.notify, hft]
  | some fk =>
    simp only [beq_iff_eq] at hcfg
    by_cases hft : t = "file" ∨ t = "test"
    · simp [frameserve.options, frameserve.notify, hft, hfile hft, hcfg]
    · simp [frameserve.options, frameserve.notify, hft, hcfg]

/-- The catch clauses of frameserve end in `return -1` unless the clause for
`parse_exception` finds `config_fk` empty. -/
theorem handlers_frameserve (l : frameserve.Locals) (e : Exn)
    (h : e = .parse_exception → l.config_fk ≠ []) :
    (frameserve.handlers l e).1 = .returned (-1) := by
  cases e <;> try rfl
  have hne := h rfl
  cases hfk : l.config_fk with
  | nil => exact absurd hfk hne
  | cons f rest => simp [frameserve.handlers, hfk]

/-- The catch clauses of posifilt end in `return -1` once `filter` is assigned. -/
theorem handlers_posifilt (l : posifilt.Locals) (e : Exn) :
    (posifilt.handlers l true e).1 = .returned (-1) := by
  cases e <;> rfl

/-- The catch clauses of posisock end in `return -1`. -/
theorem handlers_posisock (e : Exn) : (posisock.handlers e).1 = .returned (-1) := by
  cases e <;> rfl

/-- The exit of the second `try` block of frameserve. -/
theorem serve_exit (w : World frameserve.Server) (fuel : Nat) (out : List Out)
    (l : frameserve.Locals) (server : frameserve.Server) (cfg : Option (String × String)) :
    (frameserve.serve w fuel out l server cfg).map Report.exit =
      match w.configure server cfg with
      | .threw e => some (frameserve.handlers l e).1
      | .returned _ => (frameserve.run w fuel 0).map (fun r =>
          match r.result with
          | .returned _ => Exit.returned 0
          | .threw e => (frameserve.handlers l e).1) := by
  unfold frameserve.serve
  cases w.configure server cfg with
  | threw e => rfl
  | returned u =>
    cases hrun : frameserve.run w fuel 0 with
    | none => rfl
    | some r =>
      cases hres : r.result with
      | returned u => simp [hres]
      | threw e => simp [hres]

/-- The exit of frameserve on a valid command line whose constructor returns. -/
theorem main_exit_frameserve (USE_FLYCAP : Bool) (vm : frameserve.Vars)
    (w : World frameserve.Server) (fuel : Nat) (hv : frameserve.valid USE_FLYCAP vm = true)
    (hcons : ∀ c, w.construct c = .returned ()) :
    ∃ l server cfg, (vm.config ≠ none → l.config_fk ≠ []) ∧
      (frameserve.main USE_FLYCAP (.parsed vm) w fuel).map Report.exit =
        match w.configure server cfg with
        | .threw e => some (frameserve.handlers l e).1
        | .returned _ => (frameserve.run w fuel 0).map (fun r =>
            match r.result with
            | .returned _ => Exit.returned 0
            | .threw e => (frameserve.handlers l e).1) := by
  obtain ⟨l, server, hopt, hdis, -⟩ := frameserve.options_valid_frameserve USE_FLYCAP vm hv
  have hl := options_eq_frameserve USE_FLYCAP vm hv
  rw [hopt] at hl
  simp only [Step.next.injEq, Prod.mk.injEq, true_and] at hl
  have hlen : ∀ fk, vm.config = some fk → fk.length = 2 := by
    intro fk hfk
    simp only [frameserve.valid, Bool.and_eq_true, hfk, beq_iff_eq] at hv
    exact hv.1.2
  unfold frameserve.main
  rw [hopt]
  simp only [hdis, hcons]
  cases hc : vm.config with
  | none =>
    have hused : l.config_used = false := by rw [hl, hc]; rfl
    simp only [hused, Bool.false_eq_true, if_false]
    exact ⟨l, server, none, fun h => absurd rfl h, serve_exit w fuel [] l server none⟩
  | some fk =>
    obtain ⟨f, k, rfl⟩ := List.length_eq_two.mp (hlen fk hc)
    have hused : l.config_used = true := by rw [hl, hc]; rfl
    have hfk : l.config_fk = [f, k] := by rw [hl, hc]; rfl
    simp only [hused, if_true, hfk, List.get?]
    exact ⟨l, server, some (f, k), fun _ => by rw [hfk]; simp,
      serve_exit w fuel [] l server (some (f, k))⟩

end Oat

namespace Oat

/-- The locals posifilt holds after the option block, on a valid command line. -/
theorem options_eq_posifilt (vm : posifilt.Vars) (hv : posifilt.valid vm = true) :
    posifilt.options (.parsed vm) =
      .next ([], ⟨vm.type.getD "", vm.positionsource.getD "", vm.sink.getD "",
        vm.config_file.getD "", vm.config_key.getD "", vm.config_file.isSome⟩) := by
  obtain ⟨help, version, config_file, config_key, type, source, sink⟩ := vm
  simp only [posifilt.valid, Bool.and_eq_true, Bool.not_eq_true', Bool.or_eq_true,
    beq_iff_eq] at hv
  obtain ⟨⟨⟨⟨⟨hh, hver⟩, hsrc⟩, hs⟩, hcfg⟩, ht⟩ := hv
  subst hh hver
  cases type with
  | none => simp at ht
  | some t =>
  cases source with
  | none => simp at hsrc
  | some src =>
  cases sink with
  | none => simp at hs
  | some s =>
  simp only [Bool.or_eq_true, Bool.and_eq_true, beq_iff_eq] at ht
  cases config_file with
  | none =>
    cases config_key with
    | some ck => simp at hcfg
    | none =>
      rcases ht with (rfl | rfl) | ⟨_, hfile⟩
      · simp [posifilt.options, posifilt.notify]
      · simp [posifilt.options, posifilt.notify]
      · simp at hfile
  | some cf =>
    cases config_key with
    | none => simp at hcfg
    | some ck => simp [posifilt.options, posifilt.notify]

/-- The exit of posifilt on a valid command line whose constructor returns. -/
theorem main_exit_posifilt (vm : posifilt.Vars) (w : World posifilt.Filter) (fuel : Nat)
    (hv : posifilt.valid vm = true) (hcons : ∀ c, w.construct c = .returned ()) :
    ∃ l filter cfg,
      (posifilt.main (.parsed vm) w fuel).map Report.exit =
        match (if vm.config_file.isSome then w.configure filter cfg else .returned ()) with
        | .threw e => some (posifilt.handlers l true e).1
        | .returned _ => (posifilt.run w fuel 0).map (fun r =>
            match r.result with
            | .returned _ => Exit.returned 0
            | .threw e => (posifilt.handlers l true e).1) := by
  obtain ⟨l, filter, hopt, hdis⟩ := posifilt.options_valid_posifilt vm hv
  have hl := options_eq_posifilt vm hv
  rw [hopt] at hl
  simp only [Step.next.injEq, Prod.mk.injEq, true_and] at hl
  have hloop : ∀ cfgs, (posifilt.filterLoop w fuel [] l filter cfgs).map Report.exit =
      (posifilt.run w fuel 0).map (fun r =>
        match r.result with
        | .returned _ => Exit.returned 0
        | .threw e => (posifilt.handlers l true e).1) := by
    intro cfgs
    unfold posifilt.filterLoop
    cases hrun : posifilt.run w fuel 0 with
    | none => rfl
    | some r =>
      cases hres : r.result with
      | returned u => simp [hres]
      | threw e => simp [hres]
  have hused : l.config_used = vm.config_file.isSome := by rw [hl]
  refine ⟨l, filter, some (l.config_file, l.config_key), ?_⟩
  unfold posifilt.main
  rw [hopt]
  simp only [hdis, hcons, hused]
  cases vm.config_file.isSome with
  | false => simpa using hloop []
  | true =>
    simp only [if_true]
    cases w.configure filter (some (l.config_file, l.config_key)) with
    | threw e => rfl
    | returned u => exact hloop _

/-- Exceptions thrown after the construction make `main` return -1.  In
frameserve, posifilt and posisock, on a valid command line whose constructor
returns: when `configure` throws (in posifilt: when it is called, that is with
a configuration file) `main` returns -1; when `configure` returns and `run`
ends by throwing (an exception of `connectToNode()` or of the per-cycle call
that `run` does not swallow), `main` returns -1.  In frameserve this needs
`--config` to be present when the exception is a `cpptoml::parse_exception`,
whose clause reads `config_fk[0]`.  In posisock a constructor that throws makes
`main` return -1 as well. -/
theorem later_exceptions_return_failure :
    (∀ (USE_FLYCAP : Bool) (vm : frameserve.Vars) (w : World frameserve.Server) (fuel : Nat)
      (e : Exn), frameserve.valid USE_FLYCAP vm = true → (∀ c, w.construct c = .returned ()) →
      (∀ c cfg, w.configure c cfg = .threw e) → (e = .parse_exception → vm.config ≠ none) →
      (frameserve.main USE_FLYCAP (.parsed vm) w fuel).map Report.exit =
        some (.returned (-1))) ∧
    (∀ (USE_FLYCAP : Bool) (vm : frameserve.Vars) (w : World frameserve.Server) (fuel : Nat)
      (r : RunReport) (e : Exn), frameserve.valid USE_FLYCAP vm = true →
      (∀ c, w.construct c = .returned ()) → (∀ c cfg, w.configure c cfg = .returned ()) →
      frameserve.run w fuel 0 = some r → r.result = .threw e →
      (e = .parse_exception → vm.config ≠ none) →
      (frameserve.main USE_FLYCAP (.parsed vm) w fuel).map Report.exit =
        some (.returned (-1))) ∧
    (∀ (vm : posifilt.Vars) (w : World posifilt.Filter) (fuel : Nat) (e : Exn),
      posifilt.valid vm = true → (∀ c, w.construct c = .returned ()) →
      (∀ c cfg, w.configure c cfg = .threw e) → vm.config_file ≠ none →
      (posifilt.main (.parsed vm) w fuel).map Report.exit = some (.returned (-1))) ∧
    (∀ (vm : posifilt.Vars) (w : World posifilt.Filter) (fuel : Nat) (r : RunReport) (e : Exn),
      posifilt.valid vm = true → (∀ c, w.construct c = .returned ()) →
      (∀ c cfg, w.configure c cfg = .returned ()) →
      posifilt.run w fuel 0 = some r → r.result = .threw e →
      (posifilt.main (.parsed vm) w fuel).map Report.exit = some (.returned (-1))) ∧
    (∀ (vm : posisock.Vars) (w : World posisock.Socket) (fuel : Nat) (e : Exn),
      posisock.valid vm = true → (∀ c, w.construct c = .threw e) →
      (posisock.main (.parsed vm) w fuel).map Report.exit = some (.returned (-1))) ∧
    (∀ (vm : posisock.Vars) (w : World posisock.Socket) (fuel : Nat) (r : RunReport) (e : Exn),
      posisock.valid vm = true → (∀ c, w.construct c = .returned ()) →
      posisock.run w fuel 0 = some r → r.result = .threw e →
      (posisock.main (.parsed vm) w fuel).map Report.exit = some (.returned (-1))) := by
  refine ⟨?_, ?_, ?_, ?_, ?_, ?_⟩
  · intro F vm w fuel e hv hcons hcfg hpe
    obtain ⟨l, server, cfg, hfk, hmain⟩ := main_exit_frameserve F vm w fuel hv hcons
    rw [hmain, hcfg]
    simp only [handlers_frameserve l e (fun h => hfk (hpe h))]
  · intro F vm w fuel r e hv hcons hcfg hrun hres hpe
    obtain ⟨l, server, cfg, hfk, hmain⟩ := main_exit_frameserve F vm w fuel hv hcons
    rw [hmain, hcfg, hrun]
    simp [hres, handlers_frameserve l e (fun h => hfk (hpe h))]
  · intro vm w fuel e hv hcons hcfg hfile
    obtain ⟨l, filter, cfg, hmain⟩ := main_exit_posifilt vm w fuel hv hcons
    have hsome : vm.config_file.isSome = true := by
      cases h : vm.config_file with
      | none => exact absurd h hfile
      | some cf => rfl
    rw [hmain, hsome]
    simp only [if_true, hcfg, handlers_posifilt]
  · intro vm w fuel r e hv hcons hcfg hrun hres
    obtain ⟨l, filter, cfg, hmain⟩ := main_exit_posifilt vm w fuel hv hcons
    rw [hmain, hcfg]
    simp [hrun, hres, handlers_posifilt]
  · intro vm w fuel e hv hcons
    obtain ⟨l, socket, hopt, hdis⟩ := posisock.options_valid_posisock vm hv
    unfold posisock.main
    rw [hopt]
    simp only [hdis, hcons, Option.map_some', handlers_posisock]
  · intro vm w fuel r e hv hcons hrun hres
    obtain ⟨socket, out, hmain⟩ := posisock.main_of_valid_posisock vm w fuel hv hcons
    rw [hmain, hrun]
    simp [hres, handlers_posisock]

/-- Exceptions after the construction, at a concrete input: `posisock pub rpos
tcp://*:5555` with a constructor that throws returns -1. -/
theorem later_exceptions_return_failure_witness :
    (posisock.main (.parsed pubLine) (failingConstructor posisock.Socket) 1).map Report.exit =
      some (.returned (-1)) :=
  later_exceptions_return_failure.2.2.2.2.1 pubLine (failingConstructor posisock.Socket) 1
    .runtime_error (by decide) (fun _ => rfl)

end Oat

namespace Oat

/-- Without an endpoint, every TYPE of the table leads posisock into the
unchecked `endpoint[0]`: on a parsed command line without `--help` and
`--version`, with a SOURCE, a TYPE `pub`, `rep` or `udp` and no endpoint
token, `main` prints `An endpoint must be specified.` and then indexes the
empty vector, whatever the socket classes would do. -/
theorem missing_endpoint_is_undefined (vm : posisock.Vars) (w : World posisock.Socket)
    (fuel : Nat) (hh : vm.help = false) (hver : vm.version = false)
    (hsrc : vm.positionsource ≠ none) (hep : vm.endpoint = none)
    (ht : vm.type = some "pub" ∨ vm.type = some "rep" ∨ vm.type = some "udp") :
    posisock.main (.parsed vm) w fuel =
      some ⟨.undefined, [.usage, .error "An endpoint must be specified."], none, [], 0⟩ := by
  obtain ⟨help, version, type, source, endpoint⟩ := vm
  simp only at hh hver hsrc hep ht
  subst hh hver hep
  cases source with
  | none => exact absurd rfl hsrc
  | some src =>
    rcases ht with rfl | rfl | rfl <;>
      simp [posisock.main, posisock.options, posisock.notify, posisock.dispatch_eq_posisock]

/-- A missing endpoint at a concrete input: `posisock pub rpos`. -/
theorem missing_endpoint_is_undefined_witness :
    posisock.main (.parsed noEndpointLine) endedSocket 2 =
      some ⟨.undefined, [.usage, .error "An endpoint must be specified."], none, [], 0⟩ :=
  missing_endpoint_is_undefined noEndpointLine endedSocket 2 rfl rfl (by decide) rfl
    (Or.inl rfl)

end Oat

/-! ## DifferenceDetector -/

namespace Oat

/-- C22: `applyThreshold` keeps a copy of the previous frame.  After every
call `last_image_set_` is true and `last_image_` is the gray conversion of the
frame of that call.  On the first call (`last_image_set_` false)
`threshold_frame_` is the gray frame itself and the caller's frame is not
modified.  On a later call `threshold_frame_` is
`threshold (blur-if-enabled (threshold (absdiff (gray frame) last_image_)))`
with the `last_image_` found at the call, and in two calls in a row this
`last_image_` is the gray conversion of the frame of the call before. -/
theorem applyThreshold_keeps_previous_frame (cv : Imgproc) (d : DifferenceDetector)
    (previous frame : Mat) :
    ((DifferenceDetector.applyThreshold cv d frame).1.last_image_set_ = true ∧
      (DifferenceDetector.applyThreshold cv d frame).1.last_image_ = cv.cvtColor frame) ∧
    (d.last_image_set_ = false →
      (DifferenceDetector.applyThreshold cv d frame).1.threshold_frame_ = cv.cvtColor frame ∧
      (DifferenceDetector.applyThreshold cv d frame).2 = frame) ∧
    (d.last_image_set_ = true →
      (DifferenceDetector.applyThreshold cv d frame).1.threshold_frame_ =
        cv.threshold
          (if d.blur_on_ then
            cv.blur (cv.threshold (cv.absdiff (cv.cvtColor frame) d.last_image_)
              d.difference_intensity_threshold_) d.blur_size_
          else cv.threshold (cv.absdiff (cv.cvtColor frame) d.last_image_)
            d.difference_intensity_threshold_)
          d.difference_intensity_threshold_) ∧
    (DifferenceDetector.applyThreshold cv
        (DifferenceDetector.applyThreshold cv d previous).1 frame).1.threshold_frame_ =
      cv.threshold
        (if d.blur_on_ then
          cv.blur (cv.threshold (cv.absdiff (cv.cvtColor frame) (cv.cvtColor previous))
            d.difference_intensity_threshold_) d.blur_size_
        else cv.threshold (cv.absdiff (cv.cvtColor frame) (cv.cvtColor previous))
          d.difference_intensity_threshold_)
        d.difference_intensity_threshold_ := by
  refine ⟨?_, ?_, ?_, ?_⟩
  · cases h : d.last_image_set_ <;> simp [DifferenceDetector.applyThreshold, h]
  · intro h
    simp [DifferenceDetector.applyThreshold, h]
  · intro h
    simp [DifferenceDetector.applyThreshold, h]
  · cases h : d.last_image_set_ <;> simp [DifferenceDetector.applyThreshold, h]

/-- C22 at a concrete input: the first frame only fills `last_image_` and
`threshold_frame_`, and the caller's frame is left as it was. -/
theorem applyThreshold_keeps_previous_frame_witness :
    (DifferenceDetector.applyThreshold sampleImgproc freshDetector
        ⟨1, 2, 16, [40, 200]⟩).1.threshold_frame_ = ⟨1, 2, 0, [40, 200]⟩ ∧
    (DifferenceDetector.applyThreshold sampleImgproc freshDetector
        ⟨1, 2, 16, [40, 200]⟩).2 = ⟨1, 2, 16, [40, 200]⟩ :=
  (applyThreshold_keeps_previous_frame sampleImgproc freshDetector ⟨0, 0, 0, []⟩
    ⟨1, 2, 16, [40, 200]⟩).2.1 rfl

end Oat

/-! ## Channel ordering -/

namespace Oat

/-- What every reachable channel satisfies for Source `k`: the cursor is a
published number, and the observations are increasing, positive and bounded
by the cursor. -/
theorem channel_step_invariant (c c' : Channel) (e : ChannelEvent) (k : Nat)
    (hstep : c.step e = some c')
    (h : c.cursor k ≤ c.published ∧ (c.observed k).Pairwise (· < ·) ∧
      ∀ s ∈ c.observed k, 1 ≤ s ∧ s ≤ c.cursor k) :
    c'.cursor k ≤ c'.published ∧ (c'.observed k).Pairwise (· < ·) ∧
      ∀ s ∈ c'.observed k, 1 ≤ s ∧ s ≤ c'.cursor k := by
  obtain ⟨hcur, hpair, hobs⟩ := h
  cases e with
  | publish =>
    simp only [Channel.step, Option.some.injEq] at hstep
    subst hstep
    exact ⟨Nat.le_succ_of_le hcur, hpair, hobs⟩
  | wait j s =>
    simp only [Channel.step] at hstep
    split at hstep
    · rename_i hen
      simp only [Option.some.injEq] at hstep
      subst hstep
      by_cases hjk : k = j
      · subst hjk
        simp only [if_true]
        refine ⟨hen.2, ?_, ?_⟩
        · rw [List.pairwise_append]
          refine ⟨hpair, List.pairwise_singleton _ _, ?_⟩
          intro a ha b hb
          rw [List.mem_singleton] at hb
          subst hb
          exact Nat.lt_of_le_of_lt (hobs a ha).2 hen.1
        · intro a ha
          rw [List.mem_append, List.mem_singleton] at ha
          rcases ha with ha | ha
          · exact ⟨(hobs a ha).1, Nat.le_of_lt (Nat.lt_of_le_of_lt (hobs a ha).2 hen.1)⟩
          · subst ha
            exact ⟨by omega, Nat.le_refl _⟩
      · simp only [hjk, if_false]
        exact ⟨hcur, hpair, hobs⟩
    · simp at hstep

theorem channel_exec_invariant (k : Nat) (schedule : List ChannelEvent) :
    ∀ (c c' : Channel), c.exec schedule = some c' →
      (c.cursor k ≤ c.published ∧ (c.observed k).Pairwise (· < ·) ∧
        ∀ s ∈ c.observed k, 1 ≤ s ∧ s ≤ c.cursor k) →
      c'.published = c.published + schedule.count .publish ∧
      c'.cursor k ≤ c'.published ∧ (c'.observed k).Pairwise (· < ·) ∧
        ∀ s ∈ c'.observed k, 1 ≤ s ∧ s ≤ c'.cursor k := by
  induction schedule with
  | nil =>
    intro c c' h hinv
    simp only [Channel.exec, Option.some.injEq] at h
    subst h
    exact ⟨by simp, hinv⟩
  | cons e rest ih =>
    intro c c' h hinv
    simp only [Channel.exec] at h
    cases hstep : c.step e with
    | none => simp [hstep] at h
    | some c1 =>
      rw [hstep] at h
      have h1 := channel_step_invariant c c1 e k hstep hinv
      obtain ⟨hpub, hrest⟩ := ih c1 c' h h1
      refine ⟨?_, hrest⟩
      cases e with
      | publish =>
        simp only [Channel.step, Option.some.injEq] at hstep
        subst hstep
        simp only [List.count_cons_self] at hpub ⊢
        omega
      | wait j s =>
        simp only [Channel.step] at hstep
        split at hstep
        · simp only [Option.some.injEq] at hstep
          subst hstep
          have : List.count ChannelEvent.publish (ChannelEvent.wait j s :: rest) =
              List.count ChannelEvent.publish rest :=
            List.count_cons_of_ne (by simp) rest
          rw [this]
          exact hpub
        · simp at hstep

end Oat

namespace Oat

/-- C21: channel ordering, on the channel as the specification describes it.
For every interleaving of publishes and waits that the channel can perform
from its creation, with `N` the number of publishes in it, every Source `k`
has observed only published sequence numbers (numbers from 1 to `N`), in
strictly increasing order, hence without duplicates and without reordering;
it need not have observed all of them. -/
theorem channel_ordering (schedule : List ChannelEvent) (c : Channel) (k : Nat)
    (h : Channel.create.exec schedule = some c) :
    c.published = schedule.count .publish ∧
    (c.observed k).Pairwise (· < ·) ∧ (c.observed k).Nodup ∧
    ∀ s ∈ c.observed k, 1 ≤ s ∧ s ≤ schedule.count .publish := by
  have hinit : Channel.create.cursor k ≤ Channel.create.published ∧
      (Channel.create.observed k).Pairwise (· < ·) ∧
      ∀ s ∈ Channel.create.observed k, 1 ≤ s ∧ s ≤ Channel.create.cursor k :=
    ⟨Nat.le_refl _, List.Pairwise.nil, fun s hs => by simp [Channel.create] at hs⟩
  obtain ⟨hpub, hcur, hpair, hobs⟩ := channel_exec_invariant k schedule _ c h hinit
  have hN : c.published = schedule.count .publish := by
    rw [hpub]
    simp [Channel.create]
  refine ⟨hN, hpair, ?_, ?_⟩
  · exact hpair.imp (fun hab => Nat.ne_of_lt hab)
  · intro s hs
    exact ⟨(hobs s hs).1, hN ▸ Nat.le_trans (hobs s hs).2 hcur⟩

/-- C21 at a concrete input: in the sample schedule the slow Source observes
2 and 3 (it skips 1) and the other Source observes 1, 2 and 3. -/
theorem channel_ordering_witness :
    ∃ c, Channel.create.exec sampleSchedule = some c ∧
      c.observed 0 = [2, 3] ∧ c.observed 1 = [1, 2, 3] ∧
      (c.observed 0).Pairwise (· < ·) :=
  ⟨_, rfl, rfl, rfl, (channel_ordering sampleSchedule _ 0 rfl).2.1⟩

end Oat

/-! ## Checks of the option blocks -/

namespace Oat

/-- C11 as stated fails: `posisock pub rpos a b c --help` has a TYPE, a SOURCE
and three endpoint tokens, and `main` prints the usage and returns 0, not -1:
`--help` is tested before the endpoint. -/
theorem help_precedes_endpoint_check :
    pubHelpLine.type = some "pub" ∧ pubHelpLine.positionsource = some "rpos" ∧
    pubHelpLine.endpoint = some ["a", "b", "c"] ∧
    posisock.main (.parsed pubHelpLine) endedSocket 1 =
      some ⟨.returned 0, [.usage], none, [], 0⟩ ∧
    (posisock.main (.parsed pubHelpLine) endedSocket 1).map Report.exit ≠
      some (.returned (-1)) := by
  refine ⟨rfl, rfl, rfl, rfl, by decide⟩

/-- C11 as amended: posisock endpoint arity.  On a parsed command line of the form
`posisock TYPE SOURCE ENDPOINT` (no `--help`, no `--version`) with TYPE `t`,
SOURCE `src` and the endpoint tokens `e0 :: rest`: with more than two tokens
`main` returns -1 and constructs nothing; with TYPE `udp` and a number of
tokens other than two `main` returns -1 and constructs nothing; otherwise the
option block passes with these tokens, and then `udp` selects
`UDPPositionClient(src, endpoint[0], endpoint[1])`, `pub` selects
`PositionPublisher(src, endpoint[0])` and `rep` selects
`PositionReplier(src, endpoint[0])`. -/
theorem posisock_endpoint_arity (vm : posisock.Vars) (t src e0 : String) (rest : List String)
    (w : World posisock.Socket) (fuel : Nat)
    (hh : vm.help = false) (hver : vm.version = false) (ht : vm.type = some t)
    (hsrc : vm.positionsource = some src) (hep : vm.endpoint = some (e0 :: rest)) :
    (2 < (e0 :: rest).length →
      (posisock.main (.parsed vm) w fuel).map (fun r => (r.exit, r.constructed)) =
        some (.returned (-1), none)) ∧
    (t = "udp" → (e0 :: rest).length ≠ 2 →
      (posisock.main (.parsed vm) w fuel).map (fun r => (r.exit, r.constructed)) =
        some (.returned (-1), none)) ∧
    ((e0 :: rest).length ≤ 2 → (t = "udp" → (e0 :: rest).length = 2) →
      posisock.options (.parsed vm) = .next ([], ⟨t, src, e0 :: rest⟩) ∧
      (t = "udp" → ∃ e1, rest = [e1] ∧
        posisock.select (.parsed vm) = some (.UDPPositionClient src e0 e1)) ∧
      (t = "pub" → posisock.select (.parsed vm) = some (.PositionPublisher src e0)) ∧
      (t = "rep" → posisock.select (.parsed vm) = some (.PositionReplier src e0))) := by
  obtain ⟨help, version, type, source, endpoint⟩ := vm
  simp only at hh hver ht hsrc hep
  subst hh hver ht hsrc hep
  refine ⟨?_, ?_, ?_⟩
  · intro hlen
    have h2 : 2 < rest.length + 1 := by simpa using hlen
    simp [posisock.main, posisock.options, h2]
  · intro hudp hlen
    subst hudp
    have hlen' : ¬ rest.length + 1 = 2 := by simpa using hlen
    by_cases h2 : 2 < rest.length + 1
    · simp [posisock.main, posisock.options, h2]
    · simp [posisock.main, posisock.options, posisock.notify, h2, hlen']
  · intro hle hudp
    have h2 : ¬ 2 < rest.length + 1 := by
      have : rest.length + 1 ≤ 2 := by simpa using hle
      omega
    have hopt : posisock.options (.parsed ⟨false, false, some t, some src, some (e0 :: rest)⟩) =
        .next ([], ⟨t, src, e0 :: rest⟩) := by
      by_cases htu : t = "udp"
      · have := hudp htu
        have h3 : rest.length + 1 = 2 := by simpa using this
        simp [posisock.options, posisock.notify, h2, h3]
      · simp [posisock.options, posisock.notify, h2, htu]
    refine ⟨hopt, ?_, ?_, ?_⟩
    · intro htu
      have h3 : rest.length = 1 := by
        have := hudp htu
        simpa using this
      obtain ⟨e1, rfl⟩ := List.length_eq_one.mp h3
      subst htu
      exact ⟨e1, rfl, by simp [posisock.select, hopt, posisock.dispatch_eq_posisock]⟩
    · intro htp
      subst htp
      simp [posisock.select, hopt, posisock.dispatch_eq_posisock]
    · intro htr
      subst htr
      simp [posisock.select, hopt, posisock.dispatch_eq_posisock]

/-- C11 at a concrete input: `posisock udp rpos 10.0.0.1 5555` builds
`UDPPositionClient("rpos", "10.0.0.1", "5555")`. -/
theorem posisock_endpoint_arity_witness :
    ∃ e1, ["5555"] = [e1] ∧
      posisock.select (.parsed udpLine) = some (.UDPPositionClient "rpos" "10.0.0.1" e1) :=
  ((posisock_endpoint_arity udpLine "udp" "rpos" "10.0.0.1" ["5555"] endedSocket 2
    rfl rfl rfl rfl rfl).2.2 (by decide) (fun _ => rfl)).2.1 rfl

end Oat

namespace Oat

/-- C12 as stated fails: `frameserve file raw --help` is a parsed command line
with TYPE `file` and a SINK and without `--file`, and `main` prints the usage
and returns 0, not -1, in both builds: `--help` is tested before the TYPE. -/
theorem help_precedes_file_check :
    fileHelpLine.type = some "file" ∧ fileHelpLine.sink = some "raw" ∧
    fileHelpLine.file = none ∧
    (∀ USE_FLYCAP, frameserve.main USE_FLYCAP (.parsed fileHelpLine) threeFrames 1 =
      some ⟨.returned 0, [.usage], none, [], 0⟩) ∧
    (∀ USE_FLYCAP, (frameserve.main USE_FLYCAP (.parsed fileHelpLine) threeFrames 1).map
      Report.exit ≠ some (.returned (-1))) := by
  refine ⟨rfl, rfl, rfl, ?_, ?_⟩
  · intro b
    cases b <;> rfl
  · intro b
    cases b <;> decide

/-- C12 as amended: frameserve requires a file path for file-backed servers.  On a
parsed command line of the form `frameserve TYPE SINK [CONFIGURATION]` (no
`--help`, no `--version`) with TYPE `t` and SINK `s` and without `--file`: if
`t` is `file` or `test`, `main` returns -1 and no server is constructed,
whatever the build and the servers do; if `t` is `wcam` (and `--config` is
absent or a pair), the option block passes without an error line and
`WebCam(s)` is selected. -/
theorem frameserve_requires_file_path (USE_FLYCAP : Bool) (vm : frameserve.Vars)
    (t s : String) (w : World frameserve.Server) (fuel : Nat)
    (hh : vm.help = false) (hver : vm.version = false) (ht : vm.type = some t)
    (hs : vm.sink = some s) (hfile : vm.file = none) :
    (t = "file" ∨ t = "test" →
      (frameserve.main USE_FLYCAP (.parsed vm) w fuel).map (fun r => (r.exit, r.constructed)) =
        some (.returned (-1), none)) ∧
    (t = "wcam" → (vm.config = none ∨ ∃ f k, vm.config = some [f, k]) →
      frameserve.options (.parsed vm) = .next ([], ⟨s, "wcam", "", vm.fps, vm.index.getD 0,
        vm.config.getD [], vm.config.isSome⟩) ∧
      frameserve.select USE_FLYCAP (.parsed vm) = some (.WebCam s)) := by
  obtain ⟨help, version, index, file, fps, config, type, sink⟩ := vm
  simp only at hh hver ht hs hfile
  subst hh hver ht hs hfile
  refine ⟨?_, ?_⟩
  · intro hft
    cases config with
    | none => simp [frameserve.main, frameserve.options, frameserve.notify, hft]
    | some fk =>
      by_cases hlen : fk.length = 2
      · simp [frameserve.main, frameserve.options, frameserve.notify, hft, hlen]
      · simp [frameserve.main, frameserve.options, frameserve.notify, hlen]
  · intro hw hcfg
    subst hw
    rcases hcfg with hnone | ⟨f, k, hfk⟩
    · simp only at hnone
      subst hnone
      exact ⟨by simp [frameserve.options, frameserve.notify], by
        simp [frameserve.select, frameserve.options, frameserve.notify,
          frameserve.dispatch_eq_frameserve]⟩
    · simp only at hfk
      subst hfk
      exact ⟨by simp [frameserve.options, frameserve.notify], by
        simp [frameserve.select, frameserve.options, frameserve.notify,
          frameserve.dispatch_eq_frameserve]⟩

/-- C12 at a concrete input: `frameserve file raw` returns -1 with no server. -/
theorem frameserve_requires_file_path_witness :
    (frameserve.main false (.parsed fileWithoutPath) threeFrames 4).map
      (fun r => (r.exit, r.constructed)) = some (.returned (-1), none) :=
  (frameserve_requires_file_path false fileWithoutPath "file" "raw" threeFrames 4
    rfl rfl rfl rfl rfl).1 (Or.inl rfl)

end Oat

namespace Oat

/-- The `configure` calls of the second `try` block of frameserve: one call,
made before `run`. -/
theorem serve_configureCalls (w : World frameserve.Server) (fuel : Nat) (out : List Out)
    (l : frameserve.Locals) (server : frameserve.Server) (cfg : Option (String × String)) :
    (frameserve.serve w fuel out l server cfg).map Report.configureCalls =
      match w.configure server cfg with
      | .threw _ => some [cfg]
      | .returned _ => (frameserve.run w fuel 0).map (fun _ => [cfg]) := by
  unfold frameserve.serve
  cases w.configure server cfg with
  | threw e => rfl
  | returned u =>
    cases hrun : frameserve.run w fuel 0 with
    | none => rfl
    | some r =>
      cases hres : r.result with
      | returned u => simp [hres]
      | threw e => simp [hres]

/-- The `configure` call of frameserve on a valid command line whose
constructor returns. -/
theorem main_configure_frameserve (USE_FLYCAP : Bool) (vm : frameserve.Vars)
    (w : World frameserve.Server) (fuel : Nat) (cfg : Option (String × String))
    (hv : frameserve.valid USE_FLYCAP vm = true)
    (hcons : ∀ c, w.construct c = .returned ())
    (hcfg : (vm.config = none ∧ cfg = none) ∨
      ∃ f k, vm.config = some [f, k] ∧ cfg = some (f, k)) :
    ∃ server, frameserve.select USE_FLYCAP (.parsed vm) = some server ∧
      (frameserve.main USE_FLYCAP (.parsed vm) w fuel).map Report.configureCalls =
        match w.configure server cfg with
        | .threw _ => some [cfg]
        | .returned _ => (frameserve.run w fuel 0).map (fun _ => [cfg]) := by
  obtain ⟨l, server, hopt, hdis, -⟩ := frameserve.options_valid_frameserve USE_FLYCAP vm hv
  have hl := options_eq_frameserve USE_FLYCAP vm hv
  rw [hopt] at hl
  simp only [Step.next.injEq, Prod.mk.injEq, true_and] at hl
  refine ⟨server, by simp [frameserve.select, hopt, hdis], ?_⟩
  unfold frameserve.main
  rw [hopt]
  simp only [hdis, hcons]
  rcases hcfg with ⟨hc, rfl⟩ | ⟨f, k, hc, rfl⟩
  · have hused : l.config_used = false := by rw [hl, hc]; rfl
    simp only [hused, Bool.false_eq_true, if_false]
    exact serve_configureCalls w fuel [] l server none
  · have hused : l.config_used = true := by rw [hl, hc]; rfl
    have hfk : l.config_fk = [f, k] := by rw [hl, hc]; rfl
    simp only [hused, if_true, hfk, List.get?]
    exact serve_configureCalls w fuel [] l server (some (f, k))

end Oat

namespace Oat

/-- C13 as stated fails: `frameserve wcam raw --config a --version` gives
`--config` one token, and `main` prints the version and returns 0, not -1:
`--version` is tested before the number of tokens. -/
theorem version_precedes_config_check :
    configVersionLine.config = some ["a"] ∧
    frameserve.main false (.parsed configVersionLine) threeFrames 1 =
      some ⟨.returned 0, [.version], none, [], 0⟩ ∧
    (frameserve.main false (.parsed configVersionLine) threeFrames 1).map Report.exit ≠
      some (.returned (-1)) := by
  refine ⟨rfl, rfl, by decide⟩

/-- C13 as amended: frameserve's `--config` must be a file/key pair.  On a parsed
command line without `--help` and `--version`, `--config` with a number of
tokens other than two makes `main` return -1, with no constructor call and no
`configure` call.  On a command line that passes the checks of `main` and
whose constructor returns, `main` makes exactly one `configure` call, before
`run`: `configure(f, k)` when `--config f k` is given, the no-argument
`configure()` when `--config` is not given.  (The call list of `main` is `[cfg]`
as soon as `configure` has thrown or `run` has ended.) -/
theorem frameserve_config_is_pair (USE_FLYCAP : Bool) (vm : frameserve.Vars)
    (w : World frameserve.Server) (fuel : Nat) :
    (∀ fk, vm.help = false → vm.version = false → vm.config = some fk → fk.length ≠ 2 →
      (frameserve.main USE_FLYCAP (.parsed vm) w fuel).map
        (fun r => (r.exit, r.constructed, r.configureCalls)) =
        some (.returned (-1), none, [])) ∧
    (∀ f k, frameserve.valid USE_FLYCAP vm = true → (∀ c, w.construct c = .returned ()) →
      vm.config = some [f, k] →
      ∃ server, frameserve.select USE_FLYCAP (.parsed vm) = some server ∧
        (frameserve.main USE_FLYCAP (.parsed vm) w fuel).map Report.configureCalls =
          match w.configure server (some (f, k)) with
          | .threw _ => some [some (f, k)]
          | .returned _ => (frameserve.run w fuel 0).map (fun _ => [some (f, k)])) ∧
    (frameserve.valid USE_FLYCAP vm = true → (∀ c, w.construct c = .returned ()) →
      vm.config = none →
      ∃ server, frameserve.select USE_FLYCAP (.parsed vm) = some server ∧
        (frameserve.main USE_FLYCAP (.parsed vm) w fuel).map Report.configureCalls =
          match w.configure server none with
          | .threw _ => some [none]
          | .returned _ => (frameserve.run w fuel 0).map (fun _ => [none])) := by
  refine ⟨?_, ?_, ?_⟩
  · intro fk hh hver hc hlen
    obtain ⟨help, version, index, file, fps, config, type, sink⟩ := vm
    simp only at hh hver hc
    subst hh hver hc
    cases type with
    | none => simp [frameserve.main, frameserve.options]
    | some t =>
      cases sink with
      | none => simp [frameserve.main, frameserve.options]
      | some s => simp [frameserve.main, frameserve.options, hlen]
  · intro f k hv hcons hc
    exact main_configure_frameserve USE_FLYCAP vm w fuel (some (f, k)) hv hcons
      (Or.inr ⟨f, k, hc, rfl⟩)
  · intro hv hcons hc
    exact main_configure_frameserve USE_FLYCAP vm w fuel none hv hcons (Or.inl ⟨hc, rfl⟩)

/-- C13 at a concrete input: `frameserve wcam raw --config cfg.toml cam`
calls `configure("cfg.toml", "cam")` once. -/
theorem frameserve_config_is_pair_witness :
    (∃ server, frameserve.select false (.parsed wcamConfigLine) = some server ∧
      (frameserve.main false (.parsed wcamConfigLine) threeFrames 4).map Report.configureCalls =
        match threeFrames.configure server (some ("cfg.toml", "cam")) with
        | .threw _ => some [some ("cfg.toml", "cam")]
        | .returned _ =>
          (frameserve.run threeFrames 4 0).map (fun _ => [some ("cfg.toml", "cam")])) ∧
    (frameserve.main false (.parsed wcamConfigLine) threeFrames 4).map Report.configureCalls =
      some [some ("cfg.toml", "cam")] :=
  ⟨(frameserve_config_is_pair false wcamConfigLine threeFrames 4).2.1 "cfg.toml" "cam"
    (by decide) (fun _ => rfl) rfl, by decide⟩

end Oat

namespace Oat

/-- The `configure` calls of posifilt on a valid command line whose constructor
returns: one call before `run` when a configuration file is given, none
otherwise. -/
theorem main_configure_posifilt (vm : posifilt.Vars) (w : World posifilt.Filter) (fuel : Nat)
    (hv : posifilt.valid vm = true) (hcons : ∀ c, w.construct c = .returned ()) :
    ∃ filter, posifilt.select (.parsed vm) = some filter ∧
      (posifilt.main (.parsed vm) w fuel).map Report.configureCalls =
        if vm.config_file.isSome then
          match w.configure filter (some (vm.config_file.getD "", vm.config_key.getD "")) with
          | .threw _ => some [some (vm.config_file.getD "", vm.config_key.getD "")]
          | .returned _ => (posifilt.run w fuel 0).map
              (fun _ => [some (vm.config_file.getD "", vm.config_key.getD "")])
        else (posifilt.run w fuel 0).map (fun _ => []) := by
  obtain ⟨l, filter, hopt, hdis⟩ := posifilt.options_valid_posifilt vm hv
  have hl := options_eq_posifilt vm hv
  rw [hopt] at hl
  simp only [Step.next.injEq, Prod.mk.injEq, true_and] at hl
  have hloop : ∀ cfgs, (posifilt.filterLoop w fuel [] l filter cfgs).map Report.configureCalls =
      (posifilt.run w fuel 0).map (fun _ => cfgs) := by
    intro cfgs
    unfold posifilt.filterLoop
    cases hrun : posifilt.run w fuel 0 with
    | none => rfl
    | some r =>
      cases hres : r.result with
      | returned u => simp [hres]
      | threw e => simp [hres]
  have hused : l.config_used = vm.config_file.isSome := by rw [hl]
  have hcf : l.config_file = vm.config_file.getD "" := by rw [hl]
  have hck : l.config_key = vm.config_key.getD "" := by rw [hl]
  refine ⟨filter, by simp [posifilt.select, hopt, hdis], ?_⟩
  unfold posifilt.main
  rw [hopt]
  simp only [hdis, hcons, hused, hcf, hck]
  cases vm.config_file.isSome with
  | false => simpa using hloop []
  | true =>
    simp only [if_true]
    cases w.configure filter (some (vm.config_file.getD "", vm.config_key.getD "")) with
    | threw e => rfl
    | returned u => exact hloop _

/-- In posifilt a configuration file without a key, or a key without a file,
ends `main` with -1 before any constructor or `configure` call. -/
theorem unpaired_config_posifilt (vm : posifilt.Vars) (w : World posifilt.Filter) (fuel : Nat)
    (hh : vm.help = false) (hver : vm.version = false)
    (hone : vm.config_file.isSome ≠ vm.config_key.isSome) :
    (posifilt.main (.parsed vm) w fuel).map
      (fun r => (r.exit, r.constructed, r.configureCalls)) =
      some (.returned (-1), none, []) := by
  obtain ⟨help, version, config_file, config_key, type, source, sink⟩ := vm
  simp only at hh hver hone
  subst hh hver
  cases type with
  | none => simp [posifilt.main, posifilt.options]
  | some t =>
    cases source with
    | none => simp [posifilt.main, posifilt.options]
    | some src =>
      cases sink with
      | none => simp [posifilt.main, posifilt.options]
      | some s =>
        cases config_file with
        | none =>
          cases config_key with
          | none => simp at hone
          | some ck =>
            by_cases hhomo : t = "homo"
            · simp [posifilt.main, posifilt.options, posifilt.notify, hhomo]
            · simp [posifilt.main, posifilt.options, posifilt.notify, hhomo]
        | some cf =>
          cases config_key with
          | none => simp [posifilt.main, posifilt.options, posifilt.notify]
          | some ck => simp at hone

end Oat

namespace Oat

/-- In the table of framefilt only `mask` has the code of the mask filter. -/
theorem hashLookup_mask (t : String) :
    hashLookup framefilt.type_hash t = 'b' ↔ t = "mask" := by
  simp only [framefilt.type_hash, hashLookup_cons, hashLookup_nil]
  by_cases h1 : t = "bsub"
  · simp [h1]
  by_cases h2 : t = "mask"
  · simp [h2]
  simp [h1, h2]

/-- The option block of framefilt when SOURCE and SINK are present and the
configuration options are paired: the lines printed and the locals. -/
theorem options_eq_framefilt (vm : framefilt.Vars) (src s : String)
    (hh : vm.help = false) (hver : vm.version = false)
    (hsrc : vm.source = some src) (hs : vm.sink = some s)
    (hcfg : vm.config_file.isSome = vm.config_key.isSome) :
    framefilt.options (.parsed vm) =
      .next (if vm.invert_mask = true ∧ vm.type.getD "" ≠ "mask" then
          [.warning ("Warning: invert-mask was requested, but this is the wrong filter " ++
            "TYPE for that option. invert-mask option was ignored.")]
        else [],
        ⟨vm.type.getD "", src, s, vm.config_file.getD "", vm.config_key.getD "",
          vm.config_file.isSome, vm.invert_mask && decide (vm.type.getD "" = "mask")⟩) := by
  obtain ⟨help, version, config_file, config_key, invert_mask, type, source, sink⟩ := vm
  simp only at hh hver hsrc hs hcfg
  subst hh hver hsrc hs
  by_cases hm : type.getD "" = "mask"
  · have hb : hashLookup framefilt.type_hash "mask" = 'b' := (hashLookup_mask _).mpr rfl
    cases config_file <;> cases config_key <;> cases invert_mask <;> simp at hcfg <;>
      simp [framefilt.options, framefilt.notify, hm, hb]
  · have hb : hashLookup framefilt.type_hash (type.getD "") ≠ 'b' :=
      fun h => hm ((hashLookup_mask _).mp h)
    cases config_file <;> cases config_key <;> cases invert_mask <;> simp at hcfg <;>
      simp [framefilt.options, framefilt.notify, hm, hb]

end Oat

namespace Oat

/-- In framefilt a configuration file without a key, or a key without a file,
ends `main` with -1 before any constructor call, `configure` call or thread. -/
theorem unpaired_config_framefilt (vm : framefilt.Vars) (w : framefilt.World) (fuel : Nat)
    (hh : vm.help = false) (hver : vm.version = false)
    (hone : vm.config_file.isSome ≠ vm.config_key.isSome) :
    (framefilt.main (.parsed vm) w fuel).map
      (fun r => (r.exit, r.constructed, r.configureCalls, r.threadStarted)) =
      some (.returned (-1), none, [], false) := by
  obtain ⟨help, version, config_file, config_key, invert_mask, type, source, sink⟩ := vm
  simp only at hh hver hone
  subst hh hver
  cases source with
  | none => simp [framefilt.main, framefilt.options]
  | some src =>
    cases sink with
    | none => simp [framefilt.main, framefilt.options]
    | some s =>
      cases config_file with
      | none =>
        cases config_key with
        | none => simp at hone
        | some ck => simp [framefilt.main, framefilt.options]
      | some cf =>
        cases config_key with
        | none => simp [framefilt.main, framefilt.options]
        | some ck => simp at hone

/-- The user interface loop ends at the first `x`. -/
theorem userInterface_until_x (cin : Nat → Option Char) (l : framefilt.Locals) (n : Nat) :
    ∀ (fuel i : Nat) (out : List Out),
      (∀ j, j < n → ∃ c, cin (i + j) = some c ∧ c ≠ 'x') → cin (i + n) = some 'x' →
      n + 1 ≤ fuel → ∃ out', framefilt.userInterface cin l fuel i out = some (out', true) := by
  induction n with
  | zero =>
    intro fuel i out _ hx hfuel
    obtain ⟨f, rfl⟩ : ∃ f, fuel = f + 1 := ⟨fuel - 1, by omega⟩
    rw [Nat.add_zero] at hx
    simp [framefilt.userInterface, hx]
  | succ n ih =>
    intro fuel i out hother hx hfuel
    obtain ⟨f, rfl⟩ : ∃ f, fuel = f + 1 := ⟨fuel - 1, by omega⟩
    obtain ⟨c, hc, hne⟩ := hother 0 (Nat.succ_pos n)
    rw [Nat.add_zero] at hc
    have hrest : ∀ j, j < n → ∃ c, cin (i + 1 + j) = some c ∧ c ≠ 'x' := by
      intro j hj
      have := hother (j + 1) (Nat.succ_lt_succ hj)
      have e : i + (j + 1) = i + 1 + j := by omega
      rwa [e] at this
    have hx' : cin (i + 1 + n) = some 'x' := by
      have e : i + (n + 1) = i + 1 + n := by omega
      rwa [e] at hx
    obtain ⟨out', hout⟩ := ih f (i + 1) _ hrest hx' (by omega)
    exact ⟨out', by simp only [framefilt.userInterface, hc, hne, if_false]; exact hout⟩

/-- The processing thread of `main` ends after `lag` calls. -/
theorem thread_run_lag (lag : Nat) :
    framefilt.run (fun i => if i < lag then (0 : Int) else 1) (fun u : Unit => u)
      (lag + 1) 0 () = some (lag, ()) := by
  have h := framefilt_run_skip (fun i => if i < lag then (0 : Int) else 1) (fun u : Unit => u)
    lag 1 0 () (fun i hi => by simp [hi])
  rw [Nat.add_comm 1 lag] at h
  rw [h]
  simp [framefilt.run]

/-- A report of the thread part of `main` carries the `configure` calls made before it. -/
theorem threads_configureCalls (w : framefilt.World) (fuel : Nat) (out : List Out)
    (l : framefilt.Locals) (filter : framefilt.Filter) (cfgs : List (String × String)) :
    (framefilt.threads w fuel out l filter cfgs).map framefilt.Report.configureCalls =
      (framefilt.threads w fuel out l filter cfgs).map (fun _ => cfgs) := by
  unfold framefilt.threads
  simp only [thread_run_lag]
  cases framefilt.userInterface w.cin l fuel 0 _ with
  | none => rfl
  | some p =>
    obtain ⟨o, b⟩ := p
    cases b <;> rfl

/-- When the operator enters `x`, the thread part of `main` ends with exit 0. -/
theorem threads_until_x (w : framefilt.World) (fuel n : Nat) (out : List Out)
    (l : framefilt.Locals) (filter : framefilt.Filter) (cfgs : List (String × String))
    (hother : ∀ j, j < n → ∃ c, w.cin j = some c ∧ c ≠ 'x') (hx : w.cin n = some 'x')
    (hfuel : n + 1 ≤ fuel) :
    (framefilt.threads w fuel out l filter cfgs).map
      (fun r => (r.exit, r.constructed, r.configureCalls, r.threadStarted, r.calls)) =
      some (.returned 0, some filter, cfgs, true, w.lag) := by
  obtain ⟨out', hout⟩ := userInterface_until_x w.cin l n fuel 0
    (out ++ [.message ("Frame filter has begun listening to source " ++ l.source ++ "."),
      .message ("Frame filter has begun steaming to sink " ++ l.sink ++ ".")])
    (fun j hj => by rw [Nat.zero_add]; exact hother j hj) (by rw [Nat.zero_add]; exact hx) hfuel
  unfold framefilt.threads
  simp only [thread_run_lag, hout]
  rfl

end Oat

namespace Oat

/-- Function `main` of framefilt after the constructor has returned, on a
command line with SOURCE, SINK, a TYPE of the table and paired configuration
options. -/
theorem main_framefilt (vm : framefilt.Vars) (w : framefilt.World) (fuel : Nat)
    (src s : String) (hh : vm.help = false) (hver : vm.version = false)
    (hsrc : vm.source = some src) (hs : vm.sink = some s)
    (hcfg : vm.config_file.isSome = vm.config_key.isSome)
    (ht : vm.type = some "bsub" ∨ vm.type = some "mask")
    (hcons : ∀ c, w.construct c = .returned ()) :
    ∃ out l filter, framefilt.select (.parsed vm) = some filter ∧
      framefilt.main (.parsed vm) w fuel =
        if vm.config_file.isSome then
          match w.configure filter (vm.config_file.getD "") (vm.config_key.getD "") with
          | .threw _ => some ⟨.terminated, out, some filter,
              [(vm.config_file.getD "", vm.config_key.getD "")], false, 0⟩
          | .exited code => some ⟨.exited code, out, some filter,
              [(vm.config_file.getD "", vm.config_key.getD "")], false, 0⟩
          | .returned => framefilt.threads w fuel out l filter
              [(vm.config_file.getD "", vm.config_key.getD "")]
        else framefilt.threads w fuel out l filter [] := by
  have hopt := options_eq_framefilt vm src s hh hver hsrc hs hcfg
  have hsel := select_framefilt vm src s hh hver hsrc hs hcfg
  have hdis : ∃ filter, framefilt.select (.parsed vm) = some filter ∧
      framefilt.dispatch ⟨vm.type.getD "", src, s, vm.config_file.getD "",
        vm.config_key.getD "", vm.config_file.isSome,
        vm.invert_mask && decide (vm.type.getD "" = "mask")⟩ = .next filter := by
    rcases ht with ht | ht
    · exact ⟨_, hsel.1 ht, by simp [dispatch_eq_framefilt, ht]⟩
    · exact ⟨_, hsel.2 ht, by simp [dispatch_eq_framefilt, ht]⟩
  obtain ⟨filter, hselect, hdispatch⟩ := hdis
  refine ⟨if vm.invert_mask = true ∧ vm.type.getD "" ≠ "mask" then
      [.warning ("Warning: invert-mask was requested, but this is the wrong filter " ++
        "TYPE for that option. invert-mask option was ignored.")]
    else [],
    ⟨vm.type.getD "", src, s, vm.config_file.getD "", vm.config_key.getD "",
      vm.config_file.isSome, vm.invert_mask && decide (vm.type.getD "" = "mask")⟩,
    filter, hselect, ?_⟩
  unfold framefilt.main
  rw [hopt]
  simp only [hdispatch, hcons]

end Oat

namespace Oat

/-- The `configure` calls of framefilt, for C14: with a configuration file and
key there is one call, made before the thread is created; without them none. -/
theorem main_configure_framefilt (vm : framefilt.Vars) (w : framefilt.World) (fuel : Nat)
    (src s : String) (hh : vm.help = false) (hver : vm.version = false)
    (hsrc : vm.source = some src) (hs : vm.sink = some s)
    (hcfg : vm.config_file.isSome = vm.config_key.isSome)
    (ht : vm.type = some "bsub" ∨ vm.type = some "mask")
    (hcons : ∀ c, w.construct c = .returned ()) :
    ∃ filter, framefilt.select (.parsed vm) = some filter ∧
      (∀ cf ck, vm.config_file = some cf → vm.config_key = some ck →
        (w.configure filter cf ck ≠ .returned →
          (framefilt.main (.parsed vm) w fuel).map
            (fun r => (r.configureCalls, r.threadStarted, r.calls)) =
            some ([(cf, ck)], false, 0)) ∧
        (w.configure filter cf ck = .returned →
          (framefilt.main (.parsed vm) w fuel).map framefilt.Report.configureCalls =
            (framefilt.main (.parsed vm) w fuel).map (fun _ => [(cf, ck)]) ∧
          ∀ n, (∀ j, j < n → ∃ c, w.cin j = some c ∧ c ≠ 'x') → w.cin n = some 'x' →
            n + 1 ≤ fuel →
            (framefilt.main (.parsed vm) w fuel).map
              (fun r => (r.exit, r.configureCalls, r.threadStarted)) =
              some (.returned 0, [(cf, ck)], true))) ∧
      (vm.config_file = none →
        (framefilt.main (.parsed vm) w fuel).map framefilt.Report.configureCalls =
          (framefilt.main (.parsed vm) w fuel).map (fun _ => []) ∧
        ∀ n, (∀ j, j < n → ∃ c, w.cin j = some c ∧ c ≠ 'x') → w.cin n = some 'x' →
          n + 1 ≤ fuel →
          (framefilt.main (.parsed vm) w fuel).map
            (fun r => (r.exit, r.configureCalls, r.threadStarted)) =
            some (.returned 0, [], true)) := by
  obtain ⟨out, l, filter, hsel, hmain⟩ :=
    main_framefilt vm w fuel src s hh hver hsrc hs hcfg ht hcons
  refine ⟨filter, hsel, ?_, ?_⟩
  · intro cf ck hcf hck
    rw [hmain, hcf, hck]
    simp only [Option.isSome_some, if_true, Option.getD_some]
    constructor
    · intro hne
      cases hc : w.configure filter cf ck with
      | returned => exact absurd hc hne
      | threw e => rfl
      | exited code => rfl
    · intro hret
      rw [hret]
      refine ⟨threads_configureCalls w fuel out l filter _, ?_⟩
      intro n hother hx hfuel
      have := threads_until_x w fuel n out l filter [(cf, ck)] hother hx hfuel
      cases hthr : framefilt.threads w fuel out l filter [(cf, ck)] with
      | none => simp [hthr] at this
      | some r =>
        simp only [hthr, Option.map_some', Option.some.injEq, Prod.mk.injEq] at this ⊢
        exact ⟨this.1, this.2.2.1, this.2.2.2.1⟩
  · intro hnone
    rw [hmain, hnone]
    simp only [Option.isSome_none, Bool.false_eq_true, if_false]
    refine ⟨threads_configureCalls w fuel out l filter _, ?_⟩
    intro n hother hx hfuel
    have := threads_until_x w fuel n out l filter [] hother hx hfuel
    cases hthr : framefilt.threads w fuel out l filter [] with
    | none => simp [hthr] at this
    | some r =>
      simp only [hthr, Option.map_some', Option.some.injEq, Prod.mk.injEq] at this ⊢
      exact ⟨this.1, this.2.2.1, this.2.2.2.1⟩

end Oat

namespace Oat

/-- C14 as stated fails: `posifilt kalman a b --config-file c.toml --help`
gives `--config-file` without `--config-key`, and `main` prints the usage and
returns 0, not -1: `--help` is tested before the two options. -/
theorem help_precedes_pairing_check :
    keylessHelpLine.config_file = some "c.toml" ∧ keylessHelpLine.config_key = none ∧
    posifilt.main (.parsed keylessHelpLine) endedFilter 1 =
      some ⟨.returned 0, [.usage], none, [], 0⟩ ∧
    (posifilt.main (.parsed keylessHelpLine) endedFilter 1).map Report.exit ≠
      some (.returned (-1)) := by
  refine ⟨rfl, rfl, rfl, by decide⟩

/-- C14 as amended: in framefilt and posifilt `--config-file` and `--config-key` go
together.  On a parsed command line without `--help` and `--version`, exactly
one of the two makes `main` return -1 with no constructor call, no `configure`
call (and in framefilt no thread).  On a command line that passes the checks of
`main` and whose constructor returns: with both options `main` makes exactly
one call `configure(config_file, config_key)` on the constructed filter, before
the loop (`run` in posifilt, the processing thread in framefilt), and the loop
is not started when that call does not return; with neither option `configure`
is never called. -/
theorem config_file_and_key_go_together (pv : posifilt.Vars) (pw : World posifilt.Filter)
    (fv : framefilt.Vars) (fw : framefilt.World) (fuel : Nat) :
    (pv.help = false → pv.version = false → pv.config_file.isSome ≠ pv.config_key.isSome →
      (posifilt.main (.parsed pv) pw fuel).map
        (fun r => (r.exit, r.constructed, r.configureCalls)) =
        some (.returned (-1), none, [])) ∧
    (∀ cf ck, posifilt.valid pv = true → (∀ c, pw.construct c = .returned ()) →
      pv.config_file = some cf → pv.config_key = some ck →
      ∃ filter, posifilt.select (.parsed pv) = some filter ∧
        (posifilt.main (.parsed pv) pw fuel).map Report.configureCalls =
          match pw.configure filter (some (cf, ck)) with
          | .threw _ => some [some (cf, ck)]
          | .returned _ => (posifilt.run pw fuel 0).map (fun _ => [some (cf, ck)])) ∧
    (posifilt.valid pv = true → (∀ c, pw.construct c = .returned ()) →
      pv.config_file = none →
      (posifilt.main (.parsed pv) pw fuel).map Report.configureCalls =
        (posifilt.run pw fuel 0).map (fun _ => [])) ∧
    (fv.help = false → fv.version = false → fv.config_file.isSome ≠ fv.config_key.isSome →
      (framefilt.main (.parsed fv) fw fuel).map
        (fun r => (r.exit, r.constructed, r.configureCalls, r.threadStarted)) =
        some (.returned (-1), none, [], false)) ∧
    (∀ src s, fv.help = false → fv.version = false → fv.source = some src → fv.sink = some s →
      fv.config_file.isSome = fv.config_key.isSome →
      (fv.type = some "bsub" ∨ fv.type = some "mask") →
      (∀ c, fw.construct c = .returned ()) →
      ∃ filter, framefilt.select (.parsed fv) = some filter ∧
        (∀ cf ck, fv.config_file = some cf → fv.config_key = some ck →
          (fw.configure filter cf ck ≠ .returned →
            (framefilt.main (.parsed fv) fw fuel).map
              (fun r => (r.configureCalls, r.threadStarted, r.calls)) =
              some ([(cf, ck)], false, 0)) ∧
          (fw.configure filter cf ck = .returned →
            (framefilt.main (.parsed fv) fw fuel).map framefilt.Report.configureCalls =
              (framefilt.main (.parsed fv) fw fuel).map (fun _ => [(cf, ck)]) ∧
            ∀ n, (∀ j, j < n → ∃ c, fw.cin j = some c ∧ c ≠ 'x') → fw.cin n = some 'x' →
              n + 1 ≤ fuel →
              (framefilt.main (.parsed fv) fw fuel).map
                (fun r => (r.exit, r.configureCalls, r.threadStarted)) =
                some (.returned 0, [(cf, ck)], true))) ∧
        (fv.config_file = none →
          (framefilt.main (.parsed fv) fw fuel).map framefilt.Report.configureCalls =
            (framefilt.main (.parsed fv) fw fuel).map (fun _ => []) ∧
          ∀ n, (∀ j, j < n → ∃ c, fw.cin j = some c ∧ c ≠ 'x') → fw.cin n = some 'x' →
            n + 1 ≤ fuel →
            (framefilt.main (.parsed fv) fw fuel).map
              (fun r => (r.exit, r.configureCalls, r.threadStarted)) =
              some (.returned 0, [], true))) := by
  refine ⟨?_, ?_, ?_, ?_, ?_⟩
  · exact unpaired_config_posifilt pv pw fuel
  · intro cf ck hv hcons hcf hck
    obtain ⟨filter, hsel, hmain⟩ := main_configure_posifilt pv pw fuel hv hcons
    refine ⟨filter, hsel, ?_⟩
    rw [hmain, hcf, hck]
    rfl
  · intro hv hcons hcf
    obtain ⟨filter, -, hmain⟩ := main_configure_posifilt pv pw fuel hv hcons
    rw [hmain, hcf]
    rfl
  · exact unpaired_config_framefilt fv fw fuel
  · intro src s hh hver hsrc hs hcfg ht hcons
    exact main_configure_framefilt fv fw fuel src s hh hver hsrc hs hcfg ht hcons

/-- C14 at concrete inputs: `posifilt kalman rpos fpos --config-file c.toml
--config-key kf` calls `configure("c.toml", "kf")` once, and
`framefilt bsub raw filt --config-file c.toml` returns -1 with nothing
constructed. -/
theorem config_file_and_key_go_together_witness :
    (∃ filter, posifilt.select (.parsed kalmanConfigLine) = some filter ∧
      (posifilt.main (.parsed kalmanConfigLine) endedFilter 4).map Report.configureCalls =
        match endedFilter.configure filter (some ("c.toml", "kf")) with
        | .threw _ => some [some ("c.toml", "kf")]
        | .returned _ => (posifilt.run endedFilter 4 0).map (fun _ => [some ("c.toml", "kf")])) ∧
    (posifilt.main (.parsed kalmanConfigLine) endedFilter 4).map Report.configureCalls =
      some [some ("c.toml", "kf")] ∧
    (framefilt.main (.parsed keylessLine) quietOperator 4).map
      (fun r => (r.exit, r.constructed, r.configureCalls, r.threadStarted)) =
      some (.returned (-1), none, [], false) :=
  ⟨(config_file_and_key_go_together kalmanConfigLine endedFilter keylessLine quietOperator
      4).2.1 "c.toml" "kf" (by decide) (fun _ => rfl) rfl rfl,
    by decide,
    (config_file_and_key_go_together kalmanConfigLine endedFilter keylessLine quietOperator
      4).2.2.2.1 rfl rfl (by decide)⟩

end Oat

namespace Oat

/-- The command lines on which posifilt selects a `HomographyTransform2D`. -/
theorem select_homography (vm : posifilt.Vars) (src s : String)
    (h : posifilt.select (.parsed vm) = some (.HomographyTransform2D src s)) :
    ∃ cf ck, vm = ⟨false, false, some cf, some ck, some "homo", some src, some s⟩ := by
  obtain ⟨help, version, config_file, config_key, type, source, sink⟩ := vm
  cases help with
  | true => simp [posifilt.select, posifilt.options] at h
  | false =>
  cases version with
  | true => simp [posifilt.select, posifilt.options] at h
  | false =>
  cases type with
  | none => simp [posifilt.select, posifilt.options] at h
  | some t =>
  cases source with
  | none => simp [posifilt.select, posifilt.options] at h
  | some src' =>
  cases sink with
  | none => simp [posifilt.select, posifilt.options] at h
  | some s' =>
  by_cases h1 : t = "kalman"
  · subst h1
    cases config_file <;> cases config_key <;>
      simp [posifilt.select, posifilt.options, posifilt.notify,
        posifilt.dispatch_eq_posifilt] at h
  by_cases h3 : t = "region"
  · subst h3
    cases config_file <;> cases config_key <;>
      simp [posifilt.select, posifilt.options, posifilt.notify,
        posifilt.dispatch_eq_posifilt] at h
  by_cases h2 : t = "homo"
  · subst h2
    cases config_file with
    | none =>
      cases config_key <;>
        simp [posifilt.select, posifilt.options, posifilt.notify] at h
    | some cf =>
      cases config_key with
      | none => simp [posifilt.select, posifilt.options, posifilt.notify] at h
      | some ck =>
        simp [posifilt.select, posifilt.options, posifilt.notify,
          posifilt.dispatch_eq_posifilt] at h
        obtain ⟨rfl, rfl⟩ := h
        exact ⟨cf, ck, rfl⟩
  · cases config_file <;> cases config_key <;>
      simp [posifilt.select, posifilt.options, posifilt.notify,
        posifilt.dispatch_eq_posifilt, h1, h2, h3] at h

/-- Function `main` of posifilt on a command line with TYPE `homo` and a
configuration, in terms of the constructor, `configure` and the loop. -/
theorem main_homography (w : World posifilt.Filter) (fuel : Nat) (cf ck src s : String) :
    posifilt.main (.parsed ⟨false, false, some cf, some ck, some "homo", some src, some s⟩)
      w fuel =
      match w.construct (.HomographyTransform2D src s) with
      | .threw _ =>
        some ⟨.undefined, [], some (.HomographyTransform2D src s), [], 0⟩
      | .returned _ =>
        match w.configure (.HomographyTransform2D src s) (some (cf, ck)) with
        | .threw e =>
          some ⟨(posifilt.handlers ⟨"homo", src, s, cf, ck, true⟩ true e).1,
            (posifilt.handlers ⟨"homo", src, s, cf, ck, true⟩ true e).2,
            some (.HomographyTransform2D src s), [some (cf, ck)], 0⟩
        | .returned _ =>
          posifilt.filterLoop w fuel [] ⟨"homo", src, s, cf, ck, true⟩
            (.HomographyTransform2D src s) [some (cf, ck)] := by
  simp only [posifilt.main, posifilt.options, posifilt.notify, posifilt.dispatch_eq_posifilt]
  simp [posifilt.handlers]

end Oat

namespace Oat

/-- C15 as stated fails: `posifilt homo rpos fpos --help` is a parsed command
line with TYPE `homo`, a SOURCE and a SINK and without `--config-file`, and
`main` prints the usage and returns 0, not -1: `--help` is tested before the
configuration. -/
theorem help_precedes_homography_check :
    homoHelpLine.type = some "homo" ∧ homoHelpLine.positionsource = some "rpos" ∧
    homoHelpLine.sink = some "fpos" ∧ homoHelpLine.config_file = none ∧
    posifilt.main (.parsed homoHelpLine) endedFilter 1 =
      some ⟨.returned 0, [.usage], none, [], 0⟩ ∧
    (posifilt.main (.parsed homoHelpLine) endedFilter 1).map Report.exit ≠
      some (.returned (-1)) := by
  refine ⟨rfl, rfl, rfl, rfl, rfl, by decide⟩

/-- C15 as amended: posifilt TYPE `homo` requires a configuration.  On a parsed command
line without `--help` and `--version`, with TYPE `homo`, a SOURCE and a SINK,
`main` returns -1 and makes no constructor call when `--config-file` is absent
or `--config-key` is absent.  In every report of `main` that names a
constructed `HomographyTransform2D`, both options were given, and if a
`process()` call of the loop was made then `configure(config_file, config_key)`
has returned on that filter and is the one `configure` call.  On the command
lines that select a `HomographyTransform2D`, `main` reaches the loop only
after the constructor and that `configure` call have returned. -/
theorem homography_requires_configuration (vm : posifilt.Vars) (w : World posifilt.Filter)
    (fuel : Nat) :
    (vm.help = false → vm.version = false → vm.type = some "homo" →
      vm.positionsource.isSome = true → vm.sink.isSome = true →
      vm.config_file = none ∨ vm.config_key = none →
      (posifilt.main (.parsed vm) w fuel).map
        (fun r => (r.exit, r.constructed, r.configureCalls, r.calls)) =
        some (.returned (-1), none, [], 0)) ∧
    (∀ src s r, posifilt.main (.parsed vm) w fuel = some r →
      r.constructed = some (.HomographyTransform2D src s) →
      ∃ cf ck, vm.config_file = some cf ∧ vm.config_key = some ck ∧
        (0 < r.calls →
          w.configure (.HomographyTransform2D src s) (some (cf, ck)) = .returned () ∧
          r.configureCalls = [some (cf, ck)])) ∧
    (∀ src s cf ck, vm = ⟨false, false, some cf, some ck, some "homo", some src, some s⟩ →
      posifilt.select (.parsed vm) = some (.HomographyTransform2D src s) ∧
      posifilt.main (.parsed vm) w fuel =
        match w.construct (.HomographyTransform2D src s) with
        | .threw _ =>
          some ⟨.undefined, [], some (.HomographyTransform2D src s), [], 0⟩
        | .returned _ =>
          match w.configure (.HomographyTransform2D src s) (some (cf, ck)) with
          | .threw e =>
            some ⟨(posifilt.handlers ⟨"homo", src, s, cf, ck, true⟩ true e).1,
              (posifilt.handlers ⟨"homo", src, s, cf, ck, true⟩ true e).2,
              some (.HomographyTransform2D src s), [some (cf, ck)], 0⟩
          | .returned _ =>
            posifilt.filterLoop w fuel [] ⟨"homo", src, s, cf, ck, true⟩
              (.HomographyTransform2D src s) [some (cf, ck)]) := by
  refine ⟨?_, ?_, ?_⟩
  · intro hh hver ht hsrc hs hcfg
    obtain ⟨help, version, config_file, config_key, type, source, sink⟩ := vm
    simp only at hh hver ht hsrc hs hcfg
    subst hh hver ht
    cases source with
    | none => simp at hsrc
    | some src =>
    cases sink with
    | none => simp at hs
    | some s =>
    cases config_file with
    | none => simp [posifilt.main, posifilt.options, posifilt.notify]
    | some cf =>
      cases config_key with
      | none => simp [posifilt.main, posifilt.options, posifilt.notify]
      | some ck => simp at hcfg
  · intro src s r hmain hc
    have hsel := constructed_posifilt (.parsed vm) w fuel r hmain
    rw [hc] at hsel
    obtain ⟨cf, ck, rfl⟩ := select_homography vm src s hsel.symm
    refine ⟨cf, ck, rfl, rfl, ?_⟩
    intro hcalls
    rw [main_homography] at hmain
    cases hcons : w.construct (.HomographyTransform2D src s) with
    | threw e =>
      rw [hcons] at hmain
      simp only [Option.some.injEq] at hmain
      subst hmain
      simp at hcalls
    | returned u =>
      rw [hcons] at hmain
      simp only at hmain
      cases hconf : w.configure (.HomographyTransform2D src s) (some (cf, ck)) with
      | threw e =>
        rw [hconf] at hmain
        simp only [Option.some.injEq] at hmain
        subst hmain
        simp at hcalls
      | returned u' =>
        rw [hconf] at hmain
        simp only [posifilt.filterLoop] at hmain
        refine ⟨rfl, ?_⟩
        repeat' split at hmain
        all_goals first
          | (simp only [Option.some.injEq] at hmain; subst hmain; rfl)
          | (simp at hmain)
  · intro src s cf ck hvm
    subst hvm
    refine ⟨?_, main_homography w fuel cf ck src s⟩
    simp [posifilt.select, posifilt.options, posifilt.notify, posifilt.dispatch_eq_posifilt]

/-- C15 at concrete inputs: `posifilt homo rpos fpos` returns -1 with nothing
constructed, and `posifilt homo rpos fpos --config-file c.toml --config-key h`
runs the loop with `configure("c.toml", "h")` called. -/
theorem homography_requires_configuration_witness :
    (posifilt.main (.parsed homoWithoutConfig) endedFilter 4).map
      (fun r => (r.exit, r.constructed, r.configureCalls, r.calls)) =
      some (.returned (-1), none, [], 0) ∧
    (posifilt.main (.parsed homoLine) endedFilter 4).map
      (fun r => (r.exit, r.constructed, r.configureCalls, r.calls)) =
      some (.returned 0, some (.HomographyTransform2D "rpos" "fpos"),
        [some ("c.toml", "h")], 1) ∧
    (∃ cf ck, homoLine.config_file = some cf ∧ homoLine.config_key = some ck ∧
      (0 < 1 →
        endedFilter.configure (.HomographyTransform2D "rpos" "fpos") (some (cf, ck)) =
          .returned () ∧
        [some ("c.toml", "h")] = [some (cf, ck)])) :=
  ⟨(homography_requires_configuration homoWithoutConfig endedFilter 4).1 rfl rfl rfl rfl rfl
      (Or.inl rfl),
    rfl,
    (homography_requires_configuration homoLine endedFilter 4).2.1 "rpos" "fpos"
      ⟨.returned 0, [.message "Listening to source rpos.", .message "Steaming to sink fpos.",
        .message "Press CTRL+C to exit.", .message "Exiting."],
        some (.HomographyTransform2D "rpos" "fpos"), [some ("c.toml", "h")], 1⟩
      rfl rfl⟩

end Oat

namespace Oat

end Oat

namespace Oat

end Oat

namespace Oat

/-- The loop of `siftContours` from any state with a non-negative area: the
area after it is the greatest counted area above the starting one, and the
position is either unchanged or the centroid of the first contour with that area. -/
theorem siftStep_foldl {α : Type} [LinearOrder α] [Zero α] [Div α] (min_area max_area : α) :
    ∀ (contours : List (Moments α)) (p : Position2D α) (a : α), 0 ≤ a →
      (contours.foldl (siftStep min_area max_area) (p, a)).2 =
        ((contours.filter (Moments.inRange min_area max_area)).map Moments.m00).foldl max a ∧
      ((contours.foldl (siftStep min_area max_area) (p, a) = (p, a) ∧
          ∀ m ∈ contours, Moments.inRange min_area max_area m = true → m.m00 ≤ a) ∨
        (a < (contours.foldl (siftStep min_area max_area) (p, a)).2 ∧
          ∃ m, contours.find? (fun m => decide (m.m00 =
              (contours.foldl (siftStep min_area max_area) (p, a)).2)) = some m ∧
            Moments.inRange min_area max_area m = true ∧
            (contours.foldl (siftStep min_area max_area) (p, a)).1 =
              ⟨m.m10 / m.m00, m.m01 / m.m00, true⟩ ∧
            ∀ m' ∈ contours, Moments.inRange min_area max_area m' = true →
              m'.m00 ≤ (contours.foldl (siftStep min_area max_area) (p, a)).2)) := by
  intro contours
  induction contours with
  | nil =>
    intro p a _
    refine ⟨rfl, Or.inl ⟨rfl, ?_⟩⟩
    intro m hm
    simp at hm
  | cons c rest ih =>
    intro p a ha
    simp only [List.foldl_cons]
    by_cases hacc : c.m00 > min_area ∧ c.m00 < max_area ∧ c.m00 > a
    · have hstep : siftStep min_area max_area (p, a) c =
          (⟨c.m10 / c.m00, c.m01 / c.m00, true⟩, c.m00) := by
        simp only [siftStep]
        rw [if_pos hacc]
      simp only [hstep]
      have hpos : 0 < c.m00 := lt_of_le_of_lt ha hacc.2.2
      have hgood : Moments.inRange min_area max_area c = true := by
        simp only [Moments.inRange, decide_eq_true_eq]
        exact ⟨hacc.1, hacc.2.1, hpos⟩
      obtain ⟨harea, hcase⟩ := ih ⟨c.m10 / c.m00, c.m01 / c.m00, true⟩ c.m00 (le_of_lt hpos)
      refine ⟨?_, Or.inr ?_⟩
      · rw [harea, List.filter_cons_of_pos hgood, List.map_cons, List.foldl_cons,
          max_eq_right (le_of_lt hacc.2.2)]
      · rcases hcase with ⟨heq, hall⟩ | ⟨hlt, m, hfind, hg, hcen, hall⟩
        · rw [heq]
          refine ⟨hacc.2.2, c, ?_, hgood, rfl, ?_⟩
          · simp [List.find?_cons]
          · intro m' hm' hg'
            rcases List.mem_cons.1 hm' with rfl | h
            · exact le_refl _
            · exact hall m' h hg'
        · refine ⟨lt_trans hacc.2.2 hlt, m, ?_, hg, hcen, ?_⟩
          · rw [List.find?_cons]
            have hne : decide (c.m00 = (List.foldl (siftStep min_area max_area)
                (⟨c.m10 / c.m00, c.m01 / c.m00, true⟩, c.m00) rest).2) = false := by
              simp only [decide_eq_false_iff_not]
              exact ne_of_lt hlt
            rw [hne]
            exact hfind
          · intro m' hm' hg'
            rcases List.mem_cons.1 hm' with rfl | h
            · exact le_of_lt hlt
            · exact hall m' h hg'
    · have hstep : siftStep min_area max_area (p, a) c = (p, a) := by
        simp only [siftStep]
        rw [if_neg hacc]
      simp only [hstep]
      obtain ⟨harea, hcase⟩ := ih p a ha
      have hca : Moments.inRange min_area max_area c = true → c.m00 ≤ a := by
        intro hg
        simp only [Moments.inRange, decide_eq_true_eq] at hg
        by_contra h
        exact hacc ⟨hg.1, hg.2.1, lt_of_not_le h⟩
      refine ⟨?_, ?_⟩
      · rw [harea]
        by_cases hg : Moments.inRange min_area max_area c = true
        · rw [List.filter_cons_of_pos hg, List.map_cons, List.foldl_cons,
            max_eq_left (hca hg)]
        · rw [List.filter_cons_of_neg hg]
      · rcases hcase with ⟨heq, hall⟩ | ⟨hlt, m, hfind, hg, hcen, hall⟩
        · refine Or.inl ⟨heq, ?_⟩
          intro m' hm' hg'
          rcases List.mem_cons.1 hm' with rfl | h
          · exact hca hg'
          · exact hall m' h hg'
        · refine Or.inr ⟨hlt, m, ?_, hg, hcen, ?_⟩
          · rw [List.find?_cons]
            have hm : m.m00 = (List.foldl (siftStep min_area max_area) (p, a) rest).2 := by
              have := List.find?_some hfind
              simpa using this
            have hne : decide (c.m00 =
                (List.foldl (siftStep min_area max_area) (p, a) rest).2) = false := by
              simp only [decide_eq_false_iff_not]
              intro hc
              have hgc : Moments.inRange min_area max_area c = true := by
                simp only [Moments.inRange, decide_eq_true_eq] at hg ⊢
                rw [hc, ← hm]
                exact hg
              have := hca hgc
              rw [hc] at this
              exact absurd hlt (not_lt_of_le this)
            rw [hne]
            exact hfind
          · intro m' hm' hg'
            rcases List.mem_cons.1 hm' with rfl | h
            · exact le_trans (hca hg') (le_of_lt hlt)
            · exact hall m' h hg'

end Oat

namespace Oat

/-- C17: `siftContours` isolates the largest contour within the range.  For
every list of contours (given by their moments, numbers in a linear order),
the output area is the greatest `m00` among the contours with
`min_area < m00 < max_area` and `0 < m00`, or 0 when there is none: it equals
`largestAreaInRange`, no counted contour has a greater `m00`, it is positive as
soon as a contour is counted, and without a counted contour the area is 0 and
the position is left as it was, marked invalid.  When the area is not 0, the
position is valid and is `(m10 / m00, m01 / m00)` of the first contour of the
list whose `m00` is the output area, which is a counted contour. -/
theorem siftContours_largest_in_range {α : Type} [LinearOrder α] [Zero α] [Div α]
    (contours : List (Moments α)) (position : Position2D α) (min_area max_area : α) :
    (siftContours contours position min_area max_area).2 =
      largestAreaInRange contours min_area max_area ∧
    (∀ m ∈ contours, Moments.inRange min_area max_area m = true →
      m.m00 ≤ (siftContours contours position min_area max_area).2) ∧
    ((∃ m ∈ contours, Moments.inRange min_area max_area m = true) →
      0 < (siftContours contours position min_area max_area).2) ∧
    ((∀ m ∈ contours, Moments.inRange min_area max_area m = false) →
      siftContours contours position min_area max_area =
        ({ position with position_valid := false }, 0)) ∧
    ((siftContours contours position min_area max_area).2 ≠ 0 →
      ∃ m, contours.find? (fun m => decide (m.m00 =
          (siftContours contours position min_area max_area).2)) = some m ∧
        Moments.inRange min_area max_area m = true ∧
        (siftContours contours position min_area max_area).1 =
          ⟨m.m10 / m.m00, m.m01 / m.m00, true⟩) := by
  obtain ⟨harea, hcase⟩ := siftStep_foldl min_area max_area contours
    { position with position_valid := false } 0 (le_refl 0)
  have hpos : ∀ m, Moments.inRange min_area max_area m = true → 0 < m.m00 := by
    intro m hm
    simp only [Moments.inRange, decide_eq_true_eq] at hm
    exact hm.2.2
  unfold siftContours
  refine ⟨harea, ?_, ?_, ?_, ?_⟩
  · rcases hcase with ⟨heq, hall⟩ | ⟨-, m, -, -, -, hall⟩
    · intro m hm hg
      exact absurd (hpos m hg) (not_lt_of_le (hall m hm hg))
    · exact hall
  · rintro ⟨m, hm, hg⟩
    rcases hcase with ⟨-, hall⟩ | ⟨hlt, -⟩
    · exact absurd (hpos m hg) (not_lt_of_le (hall m hm hg))
    · exact hlt
  · intro hnone
    rcases hcase with ⟨heq, -⟩ | ⟨hlt, m, hfind, hg, -, -⟩
    · exact heq
    · have := hnone m (List.mem_of_find?_eq_some hfind)
      rw [hg] at this
      exact absurd this (by decide)
  · intro hne
    rcases hcase with ⟨heq, -⟩ | ⟨-, m, hfind, hg, hcen, -⟩
    · rw [heq] at hne
      exact absurd rfl hne
    · exact ⟨m, hfind, hg, hcen⟩

/-- C17 at a concrete input: of four contours with areas 40, 90, 90 and 500 and
the range (50, 200), the output area is 90 and the position is the centroid
(20, 30) of the first contour of area 90. -/
theorem siftContours_largest_in_range_witness :
    siftContours fourContours earlierPosition 50 200 = (⟨20, 30, true⟩, 90) ∧
    (siftContours fourContours earlierPosition 50 200).2 =
      largestAreaInRange fourContours 50 200 ∧
    (∃ m, fourContours.find? (fun m => decide (m.m00 =
        (siftContours fourContours earlierPosition 50 200).2)) = some m ∧
      Moments.inRange 50 200 m = true ∧
      (siftContours fourContours earlierPosition 50 200).1 =
        ⟨m.m10 / m.m00, m.m01 / m.m00, true⟩) ∧
    siftContours fourContours earlierPosition 500 600 = (⟨7, 7, false⟩, 0) :=
  ⟨by decide,
    (siftContours_largest_in_range fourContours earlierPosition 50 200).1,
    (siftContours_largest_in_range fourContours earlierPosition 50 200).2.2.2.2 (by decide),
    by decide⟩

end Oat

namespace Oat

/-- Every `filterAndServe` call makes one `getSharedMat` call. -/
theorem filterAndServe_reads (src : FrameSource) (s : BackgroundSubtractor) :
    (BackgroundSubtractor.filterAndServe src s).reads = s.reads + 1 := by
  unfold BackgroundSubtractor.filterAndServe
  cases src s.reads with
  | none => rfl
  | some p =>
    obtain ⟨f, k⟩ := p
    simp only
    cases s.background_set with
    | false => rfl
    | true =>
      simp only [if_true]
      cases f.sub s.background_img <;> rfl

/-- After `n` calls, `n` more `getSharedMat` calls have been made. -/
theorem iterate_reads (src : FrameSource) (n : Nat) (s : BackgroundSubtractor) :
    ((BackgroundSubtractor.filterAndServe src)^[n] s).reads = s.reads + n := by
  induction n with
  | zero => rfl
  | succ n ih =>
    rw [Function.iterate_succ_apply', filterAndServe_reads, ih]
    omega

/-- A call that obtains no frame changes nothing but the count of `getSharedMat` calls. -/
theorem filterAndServe_none (src : FrameSource) (s : BackgroundSubtractor)
    (h : src s.reads = none) :
    BackgroundSubtractor.filterAndServe src s = { s with reads := s.reads + 1 } := by
  unfold BackgroundSubtractor.filterAndServe
  rw [h]

/-- The first call that obtains a frame, with no background set: the frame
becomes the background and is published as it is. -/
theorem filterAndServe_first (src : FrameSource) (s : BackgroundSubtractor) (f : Mat) (k : Nat)
    (hset : s.background_set = false) (h : src s.reads = some (f, k)) :
    BackgroundSubtractor.filterAndServe src s =
      ⟨f, true, f, s.reads + 1, s.frame_sink ++ [(f, k)]⟩ := by
  unfold BackgroundSubtractor.filterAndServe
  rw [h]
  simp [hset, BackgroundSubtractor.setBackgroundImage]

/-- A call that obtains a frame of the size and type of the background, with
the background set: the difference is published, the background is kept. -/
theorem filterAndServe_later (src : FrameSource) (s : BackgroundSubtractor) (f : Mat) (k : Nat)
    (hset : s.background_set = true) (h : src s.reads = some (f, k))
    (hr : f.rows = s.background_img.rows) (hc : f.cols = s.background_img.cols)
    (ht : f.type = s.background_img.type) :
    BackgroundSubtractor.filterAndServe src s =
      ⟨s.background_img, true,
        { f with data := List.zipWith (fun x y => x - y) f.data s.background_img.data },
        s.reads + 1,
        s.frame_sink ++
          [({ f with data := List.zipWith (fun x y => x - y) f.data s.background_img.data }, k)]⟩ := by
  unfold BackgroundSubtractor.filterAndServe
  rw [h]
  simp [hset, Mat.sub, hr, hc, ht]

/-- Once set, the background is never written again. -/
theorem filterAndServe_background (src : FrameSource) (s : BackgroundSubtractor)
    (hset : s.background_set = true) :
    (BackgroundSubtractor.filterAndServe src s).background_set = true ∧
      (BackgroundSubtractor.filterAndServe src s).background_img = s.background_img := by
  unfold BackgroundSubtractor.filterAndServe
  cases src s.reads with
  | none => exact ⟨hset, rfl⟩
  | some p =>
    obtain ⟨f, k⟩ := p
    simp only [hset, if_true]
    cases f.sub s.background_img <;> exact ⟨rfl, rfl⟩

/-- Once set, the background is the same after any number of calls. -/
theorem iterate_background (src : FrameSource) (n : Nat) (s : BackgroundSubtractor)
    (hset : s.background_set = true) :
    ((BackgroundSubtractor.filterAndServe src)^[n] s).background_set = true ∧
      ((BackgroundSubtractor.filterAndServe src)^[n] s).background_img = s.background_img := by
  induction n with
  | zero => exact ⟨hset, rfl⟩
  | succ n ih =>
    rw [Function.iterate_succ_apply']
    obtain ⟨h1, h2⟩ := filterAndServe_background src _ ih.1
    exact ⟨h1, h2.trans ih.2⟩

/-- Calls that obtain no frame only count. -/
theorem iterate_none (src : FrameSource) (n : Nat) (s : BackgroundSubtractor)
    (h : ∀ k, k < n → src (s.reads + k) = none) :
    (BackgroundSubtractor.filterAndServe src)^[n] s = { s with reads := s.reads + n } := by
  induction n with
  | zero => rfl
  | succ n ih =>
    rw [Function.iterate_succ_apply', ih (fun k hk => h k (Nat.lt_succ_of_lt hk)),
      filterAndServe_none src _ (h n (Nat.lt_succ_self n))]
    rfl

end Oat

namespace Oat

/-- C18: `BackgroundSubtractor` uses the first image as the default
background.  Starting with no background set, let the first `filterAndServe`
call that obtains a frame be call `i + 1`, obtaining `f1`.  That call publishes
`f1` as it is; after it and after any number of further calls the stored
background is `f1`; and every later call that obtains a frame `f` of the size
and type of `f1` publishes the element-wise saturating difference
`max (f - f1) 0`, with the sample number of `f`. -/
theorem first_frame_is_background (src : FrameSource) (s : BackgroundSubtractor)
    (i : Nat) (f1 : Mat) (n1 : Nat)
    (hset : s.background_set = false)
    (hnone : ∀ k, k < i → src (s.reads + k) = none)
    (hfirst : src (s.reads + i) = some (f1, n1)) :
    ((BackgroundSubtractor.filterAndServe src)^[i + 1] s).frame_sink =
      s.frame_sink ++ [(f1, n1)] ∧
    (∀ n, i + 1 ≤ n →
      ((BackgroundSubtractor.filterAndServe src)^[n] s).background_set = true ∧
      ((BackgroundSubtractor.filterAndServe src)^[n] s).background_img = f1) ∧
    (∀ n f k, i + 1 ≤ n → src (s.reads + n) = some (f, k) →
      f.rows = f1.rows → f.cols = f1.cols → f.type = f1.type →
      ((BackgroundSubtractor.filterAndServe src)^[n + 1] s).frame_sink =
        ((BackgroundSubtractor.filterAndServe src)^[n] s).frame_sink ++
          [({ f with data := (List.zipWith
              (fun (x y : Nat) => Int.toNat ((x : Int) - (y : Int))) f.data f1.data) }, k)]) := by
  have hstart : (BackgroundSubtractor.filterAndServe src)^[i + 1] s =
      ⟨f1, true, f1, s.reads + i + 1, s.frame_sink ++ [(f1, n1)]⟩ := by
    rw [Function.iterate_succ_apply', iterate_none src i s hnone]
    exact filterAndServe_first src _ f1 n1 hset hfirst
  have hback : ∀ n, i + 1 ≤ n →
      ((BackgroundSubtractor.filterAndServe src)^[n] s).background_set = true ∧
      ((BackgroundSubtractor.filterAndServe src)^[n] s).background_img = f1 := by
    intro n hn
    obtain ⟨m, rfl⟩ : ∃ m, n = m + (i + 1) := ⟨n - (i + 1), by omega⟩
    rw [Function.iterate_add_apply]
    have := iterate_background src m ((BackgroundSubtractor.filterAndServe src)^[i + 1] s)
      (by rw [hstart])
    refine ⟨this.1, this.2.trans ?_⟩
    rw [hstart]
  refine ⟨by rw [hstart], hback, ?_⟩
  intro n f k hn hf hr hc ht
  obtain ⟨hb1, hb2⟩ := hback n hn
  have hreads := iterate_reads src n s
  rw [Function.iterate_succ_apply',
    filterAndServe_later src _ f k hb1 (by rw [hreads]; exact hf) (by rw [hb2]; exact hr)
      (by rw [hb2]; exact hc) (by rw [hb2]; exact ht), hb2]
  have hsat : (fun x y : Nat => x - y) = fun (x y : Nat) => Int.toNat ((x : Int) - (y : Int)) := by
    funext x y
    exact (Int.toNat_sub x y).symm
  rw [hsat]

/-- C18 at a concrete input: a fresh subtractor on a source whose first call
obtains no frame; the first frame is published as it is, the later frames
as their saturating differences from it, and the background is the first frame. -/
theorem first_frame_is_background_witness :
    ((BackgroundSubtractor.filterAndServe threeFrameSource)^[1 + 1] freshSubtractor).frame_sink =
      freshSubtractor.frame_sink ++ [(⟨2, 2, 0, [10, 20, 30, 40]⟩, 5)] ∧
    ((BackgroundSubtractor.filterAndServe threeFrameSource)^[4] freshSubtractor).frame_sink =
      [(⟨2, 2, 0, [10, 20, 30, 40]⟩, 5), (⟨2, 2, 0, [5, 0, 0, 60]⟩, 6),
        (⟨2, 2, 0, [0, 5, 1, 0]⟩, 7)] ∧
    ((BackgroundSubtractor.filterAndServe threeFrameSource)^[4] freshSubtractor).background_img =
      ⟨2, 2, 0, [10, 20, 30, 40]⟩ :=
  ⟨(first_frame_is_background threeFrameSource freshSubtractor 1 ⟨2, 2, 0, [10, 20, 30, 40]⟩ 5
      rfl (by decide) rfl).1,
    by decide, by decide⟩

end Oat

namespace Oat

/-- What one `filterAndServe` call publishes: one frame with the sample number
of the source when `getSharedMat` obtains a frame, nothing otherwise. -/
theorem filterAndServe_publishes (src : FrameSource) (s : BackgroundSubtractor) :
    (BackgroundSubtractor.filterAndServe src s).frame_sink.map Prod.snd =
      s.frame_sink.map Prod.snd ++ ((src s.reads).map Prod.snd).toList := by
  unfold BackgroundSubtractor.filterAndServe
  cases src s.reads with
  | none => simp
  | some p =>
    obtain ⟨f, k⟩ := p
    simp only
    cases s.background_set with
    | false => simp [BackgroundSubtractor.setBackgroundImage]
    | true =>
      simp only [if_true]
      cases f.sub s.background_img <;> simp

/-- The sample numbers published by `n` calls: those of the frames obtained, in order. -/
theorem iterate_publishes (src : FrameSource) (n : Nat) (s : BackgroundSubtractor) :
    ((BackgroundSubtractor.filterAndServe src)^[n] s).frame_sink.map Prod.snd =
      s.frame_sink.map Prod.snd ++
        (List.range n).filterMap (fun i => (src (s.reads + i)).map Prod.snd) := by
  induction n with
  | zero => simp
  | succ n ih =>
    rw [Function.iterate_succ_apply', filterAndServe_publishes, ih, iterate_reads,
      List.range_succ, List.filterMap_append, List.append_assoc]
    congr 2

end Oat

namespace Oat

/-- C19: `BackgroundSubtractor` pushes the filtered frame forward with the
sample number of the frame source.  A `filterAndServe` call publishes exactly
one frame, with the sample number of the source, when `getSharedMat` obtains a
frame, and nothing otherwise; the sample numbers published by `n` calls are
those of the frames obtained, in the order of the calls.  Hence, when the
sample numbers of the source are strictly increasing over the frames obtained,
the sample numbers published on an initially empty sink are strictly
increasing, without duplicates. -/
theorem published_samples_follow_source (src : FrameSource) (s : BackgroundSubtractor) :
    (∀ f k, src s.reads = some (f, k) →
      ∃ m, (BackgroundSubtractor.filterAndServe src s).frame_sink = s.frame_sink ++ [(m, k)]) ∧
    (src s.reads = none →
      (BackgroundSubtractor.filterAndServe src s).frame_sink = s.frame_sink) ∧
    (∀ n, ((BackgroundSubtractor.filterAndServe src)^[n] s).frame_sink.map Prod.snd =
      s.frame_sink.map Prod.snd ++
        (List.range n).filterMap (fun i => (src (s.reads + i)).map Prod.snd)) ∧
    ((∀ i j a b, i < j → (src (s.reads + i)).map Prod.snd = some a →
        (src (s.reads + j)).map Prod.snd = some b → a < b) →
      s.frame_sink = [] →
      ∀ n, (((BackgroundSubtractor.filterAndServe src)^[n] s).frame_sink.map Prod.snd).Pairwise
          (fun a b => a < b) ∧
        (((BackgroundSubtractor.filterAndServe src)^[n] s).frame_sink.map Prod.snd).Nodup) := by
  refine ⟨?_, ?_, fun n => iterate_publishes src n s, ?_⟩
  · intro f k h
    unfold BackgroundSubtractor.filterAndServe
    rw [h]
    simp only
    cases s.background_set with
    | false => exact ⟨_, rfl⟩
    | true =>
      simp only [if_true]
      cases f.sub s.background_img <;> exact ⟨_, rfl⟩
  · intro h
    rw [filterAndServe_none src s h]
  · intro hinc hempty n
    have hp : (((BackgroundSubtractor.filterAndServe src)^[n] s).frame_sink.map
        Prod.snd).Pairwise (fun a b => a < b) := by
      rw [iterate_publishes, hempty, List.map_nil, List.nil_append]
      exact List.Pairwise.filterMap _
        (fun i j hij a ha b hb => hinc i j a b hij ha hb) (List.pairwise_lt_range n)
    exact ⟨hp, hp.imp (fun h => ne_of_lt h)⟩

/-- The sample numbers of `threeFrameSource`. -/
theorem threeFrameSource_samples (i a : Nat)
    (h : (threeFrameSource i).map Prod.snd = some a) : a = i + 4 := by
  unfold threeFrameSource at h
  split_ifs at h with h1 h2 h3 <;> simp at h <;> omega

/-- C19 at a concrete input: four calls on a source whose first call obtains
no frame publish the sample numbers 5, 6, 7 of the three frames obtained. -/
theorem published_samples_follow_source_witness :
    ((((BackgroundSubtractor.filterAndServe threeFrameSource)^[4]
        freshSubtractor).frame_sink.map Prod.snd).Pairwise (fun a b => a < b) ∧
      (((BackgroundSubtractor.filterAndServe threeFrameSource)^[4]
        freshSubtractor).frame_sink.map Prod.snd).Nodup) ∧
    ((BackgroundSubtractor.filterAndServe threeFrameSource)^[4]
      freshSubtractor).frame_sink.map Prod.snd = [5, 6, 7] ∧
    (BackgroundSubtractor.filterAndServe threeFrameSource freshSubtractor).frame_sink = [] :=
  ⟨(published_samples_follow_source threeFrameSource freshSubtractor).2.2.2
      (by
        intro i j a b hij ha hb
        have e : freshSubtractor.reads = 0 := rfl
        rw [e, Nat.zero_add] at ha hb
        have h1 := threeFrameSource_samples i a ha
        have h2 := threeFrameSource_samples j b hb
        omega)
      rfl 4,
    by decide, by decide⟩

end Oat

namespace Oat

/-- Method `configure` by the answers of the library: without an entry named
`config_key` (in the parsed table, or in the empty table left by a file that
fails to parse) it ends the process with `EXIT_FAILURE`; with an entry for
which `get_table` returns the null pointer it dereferences that pointer. -/
theorem configure_by_entry {Table : Type} (toml : Cpptoml Table) (imread : String → Call Mat)
    (s : BackgroundSubtractor) (config_file config_key : String) :
    (toml.parse_file config_file = none → toml.contains toml.empty config_key = false →
      (BackgroundSubtractor.configure toml imread s config_file config_key).2 =
        .exited EXIT_FAILURE) ∧
    (∀ t, toml.parse_file config_file = some t → toml.contains t config_key = false →
      (BackgroundSubtractor.configure toml imread s config_file config_key).2 =
        .exited EXIT_FAILURE) ∧
    (∀ t, toml.parse_file config_file = some t → toml.contains t config_key = true →
      toml.get_table t config_key = none →
      BackgroundSubtractor.configure toml imread s config_file config_key =
        ([], .undefined)) := by
  refine ⟨?_, ?_, ?_⟩
  · intro hparse hc
    simp [BackgroundSubtractor.configure, hparse, hc]
  · intro t hparse hc
    simp [BackgroundSubtractor.configure, hparse, hc]
  · intro t hparse hc hg
    simp [BackgroundSubtractor.configure, hparse, hc, hg]

/-- Method `configure` at concrete inputs: a file that does not parse and a
file without an entry named `config_key` end the process with `EXIT_FAILURE`. -/
theorem configure_by_entry_witness :
    (BackgroundSubtractor.configure (listToml tomlFiles) oneImage freshSubtractor
      "missing.toml" "bsub").2 = .exited EXIT_FAILURE ∧
    (BackgroundSubtractor.configure (listToml tomlFiles) oneImage freshSubtractor
      "other.toml" "bsub").2 = .exited EXIT_FAILURE ∧
    (BackgroundSubtractor.configure (listToml tomlFiles) oneImage freshSubtractor
      "table.toml" "bsub").2 =
      .returned { freshSubtractor with background_img := ⟨1, 2, 0, [3, 4]⟩,
                                       background_set := true } :=
  ⟨(configure_by_entry (listToml tomlFiles) oneImage freshSubtractor "missing.toml" "bsub").1
      rfl rfl,
    (configure_by_entry (listToml tomlFiles) oneImage freshSubtractor "other.toml" "bsub").2.1
      [("mask", .table [])] rfl rfl,
    by decide⟩

/-- C20 at the failing input: the configuration file `scalar.toml` is the one
line `bsub = 1` and `config_key` is `bsub`.  The parsed configuration has no
table named `bsub` (`get_table` returns the null pointer), but it has an entry
of that name, so `configure` passes its `contains` test and dereferences the
null pointer instead of ending the process with `EXIT_FAILURE`. -/
theorem configure_scalar_entry_is_undefined :
    tomlFiles "scalar.toml" = some [("bsub", .value "1")] ∧
    (listToml tomlFiles).get_table [("bsub", .value "1")] "bsub" = none ∧
    BackgroundSubtractor.configure (listToml tomlFiles) oneImage freshSubtractor
      "scalar.toml" "bsub" = ([], .undefined) ∧
    (BackgroundSubtractor.configure (listToml tomlFiles) oneImage freshSubtractor
      "scalar.toml" "bsub").2 ≠ .exited EXIT_FAILURE := by
  refine ⟨rfl, rfl, by decide, by decide⟩

end Oat
